import Mathlib

/-!
# Rope physics and adaptive performance monitor of cosinotes

A shallow embedding of `src/components/RopeConnections.jsx` (rope integrator,
rope state store, frame scheduler) and `src/utils/performanceMonitor.js`
(performance monitor) and of the reducers `addConnection` and `deleteNote` of
`src/store/notesSlice.js`, together with the properties the specification
states about them.

Modelling conventions.
* JavaScript numbers are modelled as exact rationals `ℚ`: every value is finite
  and arithmetic does not round. `Math.min`, `Math.max` are `min`, `max`.
* An object that may be `undefined`/`null` is an `Option`.
* A `TypeError` raised by reading a property of `undefined` is the error case of
  `Except JsError`.
* A JavaScript `Map` is an association list in insertion order, a `Set` a list
  without repetition in insertion order.
* Clock readings (`performance.now()`, the `requestAnimationFrame` timestamp)
  are explicit arguments.
-/

namespace Cosinotes

/-! ## Constants of `RopeConnections.jsx` -/

/-- Constant `ROPE_SEGMENTS` (line 8). -/
def ROPE_SEGMENTS : Nat := 12

/-- Constant `DRAG_THROTTLE_MS` (line 11). -/
def DRAG_THROTTLE_MS : ℚ := 16

/-- Constant `IDLE_THROTTLE_MS` (line 12). -/
def IDLE_THROTTLE_MS : ℚ := 33

/-- Constant `SPRING_STIFFNESS` (line 15). -/
def SPRING_STIFFNESS : ℚ := 15 / 100

/-- Constant `SPRING_DAMPING` (line 16). -/
def SPRING_DAMPING : ℚ := 85 / 100

/-- Constant `GRAVITY` (line 17). -/
def GRAVITY : ℚ := 15 / 100

/-- Constant `MAX_VELOCITY` (line 18). -/
def MAX_VELOCITY : ℚ := 10

/-! ## Data model -/

/-- The errors a JavaScript evaluation can raise in the modelled code. -/
inductive JsError where
  | typeError
  deriving DecidableEq, Repr

/-- A note position `{ x, y }`. -/
structure Position where
  x : ℚ
  y : ℚ
  deriving DecidableEq, Repr

/-- The fields of a note that the rope subsystem reads. -/
structure Note where
  id : String
  groupId : Option String
  position : Option Position
  deriving DecidableEq, Repr

/-- The fields of a connection that the rope subsystem reads. -/
structure Connection where
  id : String
  fromNoteId : String
  toNoteId : String
  deriving DecidableEq, Repr

/-- A mass point `{ x, y, vx, vy }` of a rope chain. -/
structure MassPoint where
  x : ℚ
  y : ℚ
  vx : ℚ
  vy : ℚ
  deriving DecidableEq, Repr

/-- A chain is the array of mass points of one rope. -/
abbrev Chain := List MassPoint

/-! ## Rope integrator: `simulateRopePhysics` (lines 48-140) -/

/-- The velocity limiter `Math.max(-MAX_VELOCITY, Math.min(MAX_VELOCITY, v))`
(lines 123-124). -/
def limitVelocity (v : ℚ) : ℚ := max (-MAX_VELOCITY) (min MAX_VELOCITY v)

/-- The initial chain pushed by the loop of lines 62-71: point `i` is
`{ x: fromX + dx * t, y: fromY + dy * t, vx: 0, vy: 0 }` with
`t = i / ROPE_SEGMENTS`. -/
def initPoints (fromX fromY dx dy : ℚ) : Chain :=
  (List.range (ROPE_SEGMENTS + 1)).map fun (i : Nat) =>
    let t : ℚ := (i : ℚ) / (ROPE_SEGMENTS : ℚ)
    { x := fromX + dx * t, y := fromY + dy * t, vx := 0, vy := 0 }

/-- The free-point update of lines 98-135, from the three points
`currentPoints[i - 1]`, `currentPoints[i]`, `currentPoints[i + 1]`. -/
def freePoint (prevPoint point nextPoint : MassPoint) (dt : ℚ) : MassPoint :=
  let dx1 := prevPoint.x - point.x
  let dy1 := prevPoint.y - point.y
  let dx2 := nextPoint.x - point.x
  let dy2 := nextPoint.y - point.y
  let springForceX := (dx1 + dx2) * SPRING_STIFFNESS
  let springForceY := (dy1 + dy2) * SPRING_STIFFNESS
  let dampingX := -point.vx * SPRING_DAMPING
  let dampingY := -point.vy * SPRING_DAMPING
  let gravityY := GRAVITY
  let newVx := point.vx + (springForceX + dampingX) * dt
  let newVy := point.vy + (springForceY + dampingY + gravityY) * dt
  let limitedVx := limitVelocity newVx
  let limitedVy := limitVelocity newVy
  let newX := point.x + limitedVx * dt
  let newY := point.y + limitedVy * dt
  { x := newX, y := newY, vx := limitedVx, vy := limitedVy }

/-- One iteration of the loop of lines 78-137: the point pushed for index `i`.
Reading a field of a missing array element raises a `TypeError`; the pinned
branches read no field of `currentPoints[i]`. -/
def stepPoint (currentPoints : Chain) (fromX fromY toX toY dt : ℚ) (i : Nat) :
    Except JsError MassPoint :=
  if i = 0 then
    .ok { x := fromX, y := fromY, vx := 0, vy := 0 }
  else if i = ROPE_SEGMENTS then
    .ok { x := toX, y := toY, vx := 0, vy := 0 }
  else
    match currentPoints[i - 1]?, currentPoints[i]?, currentPoints[i + 1]? with
    | some prevPoint, some point, some nextPoint =>
        .ok (freePoint prevPoint point nextPoint dt)
    | _, _, _ => .error JsError.typeError

/-- The loop `for (let i = 0; i <= ROPE_SEGMENTS; i++) newPoints.push(...)` of
lines 78-137 over the remaining indices, `newPoints` being the array built so
far; an exception raised by an iteration leaves the loop. -/
def pushLoop (body : Nat → Except JsError MassPoint) :
    List Nat → Chain → Except JsError Chain
  | [], newPoints => .ok newPoints
  | i :: rest, newPoints =>
      match body i with
      | .ok p => pushLoop body rest (newPoints ++ [p])
      | .error e => .error e

/-- The function `simulateRopePhysics(fromNote, toNote, currentPoints, deltaTime)`.
`.ok none` is `return null`. The unused local `distance` is omitted. -/
def simulateRopePhysics (fromNote toNote : Option Note)
    (currentPoints : Option Chain) (deltaTime : ℚ) : Except JsError (Option Chain) :=
  match fromNote.bind (·.position), toNote.bind (·.position) with
  | some fromPos, some toPos =>
      let fromX := fromPos.x + 140
      let fromY := fromPos.y + 100
      let toX := toPos.x + 140
      let toY := toPos.y + 100
      let dx := toX - fromX
      let dy := toY - fromY
      let currentPoints := match currentPoints with
        | some pts => pts
        | none => initPoints fromX fromY dx dy
      let dt := min deltaTime 1
      match pushLoop (stepPoint currentPoints fromX fromY toX toY dt)
          (List.range (ROPE_SEGMENTS + 1)) [] with
      | .ok newPoints => .ok (some newPoints)
      | .error e => .error e
  | _, _ => .ok none

/-- Anchor of a note position: the centre offset `(+140, +100)` of lines 51-54. -/
def anchor (p : Position) : Position := { x := p.x + 140, y := p.y + 100 }

/-- The chain the loop of lines 78-137 produces when no array read fails. -/
def stepChain (currentPoints : Chain) (a b : Position) (dt : ℚ) : Chain :=
  (List.range (ROPE_SEGMENTS + 1)).map fun (i : Nat) =>
    if i = 0 then { x := a.x, y := a.y, vx := 0, vy := 0 }
    else if i = ROPE_SEGMENTS then { x := b.x, y := b.y, vx := 0, vy := 0 }
    else freePoint (currentPoints.getD (i - 1) ⟨0, 0, 0, 0⟩)
      (currentPoints.getD i ⟨0, 0, 0, 0⟩) (currentPoints.getD (i + 1) ⟨0, 0, 0, 0⟩) dt

/-- The chain `simulateRopePhysics` works on: the previous chain, or the straight
line between the anchors when there is none. -/
def workingPoints (a b : Position) : Option Chain → Chain
  | some pts => pts
  | none => initPoints a.x a.y (b.x - a.x) (b.y - a.y)

/-! ## Performance monitor: `performanceMonitor.js` -/

/-- Field `maxHistorySize`, set to 60 by the constructor and never reassigned. -/
def maxHistorySize : Nat := 60

/-- Field `lowPerformanceThreshold`, set to 30 by the constructor and never
reassigned. -/
def lowPerformanceThreshold : ℚ := 30

/-- The function `Math.round`: the nearest integer, halves rounded up. -/
def jsRound (x : ℚ) : ℚ := ((⌊x + 1 / 2⌋ : ℤ) : ℚ)

/-- The stats snapshot returned by `getStats` (lines 63-69). -/
structure Stats where
  currentFps : ℚ
  averageFps : ℚ
  performanceMode : Bool
  frameCount : Nat
  historySize : Nat
  deriving DecidableEq, Repr

/-- One invocation `callback(event, stats)` made by `notifyCallbacks`; a callback
is identified by its reference, a natural number. -/
structure Notification where
  callback : Nat
  event : String
  stats : Stats
  deriving DecidableEq, Repr

/-- The mutable fields of a `PerformanceMonitor` instance. -/
structure PerformanceMonitor where
  frameCount : Nat
  lastTime : ℚ
  fpsHistory : List ℚ
  performanceMode : Bool
  callbacks : List Nat
  deriving DecidableEq, Repr

/-- The constructor (lines 3-11); `now` is the reading of `performance.now()`. -/
def PerformanceMonitor.new (now : ℚ) : PerformanceMonitor :=
  { frameCount := 0, lastTime := now, fpsHistory := [], performanceMode := false,
    callbacks := [] }

/-- Method `start()` (lines 14-19). -/
def PerformanceMonitor.start (m : PerformanceMonitor) (now : ℚ) : PerformanceMonitor :=
  { m with lastTime := now, frameCount := 0, fpsHistory := [], performanceMode := false }

/-- The expression `fpsHistory.reduce((sum, fps) => sum + fps, 0) / fpsHistory.length`
(lines 37 and 60). -/
def averageOf (fpsHistory : List ℚ) : ℚ :=
  fpsHistory.foldl (fun sum fps => sum + fps) 0 / (fpsHistory.length : ℚ)

/-- Method `getStats()` (lines 58-70). -/
def PerformanceMonitor.getStats (m : PerformanceMonitor) : Stats :=
  let avgFps := if m.fpsHistory.length > 0 then averageOf m.fpsHistory else 0
  { currentFps := m.fpsHistory.getLast?.getD 0
    averageFps := jsRound avgFps
    performanceMode := m.performanceMode
    frameCount := m.frameCount
    historySize := m.fpsHistory.length }

/-- Method `subscribe(callback)` (line 74): `Set.add`. -/
def PerformanceMonitor.subscribe (m : PerformanceMonitor) (callback : Nat) :
    PerformanceMonitor :=
  if callback ∈ m.callbacks then m else { m with callbacks := m.callbacks ++ [callback] }

/-- The function returned by `subscribe(callback)` (line 75): `Set.delete`. -/
def PerformanceMonitor.unsubscribe (m : PerformanceMonitor) (callback : Nat) :
    PerformanceMonitor :=
  { m with callbacks := m.callbacks.filter (fun c => c ≠ callback) }

/-- Method `notifyCallbacks(event)` (lines 79-87): the invocations made, in the
order of the set; an exception thrown by a callback is caught. -/
def PerformanceMonitor.notifyCallbacks (m : PerformanceMonitor) (event : String) :
    List Notification :=
  m.callbacks.map fun callback => { callback := callback, event := event, stats := m.getStats }

/-- Lines 29-34 of `recordFrame`: `fpsHistory.push(fps)` followed by one
`fpsHistory.shift()` when the length exceeds `maxHistorySize`. -/
def pushSample (fpsHistory : List ℚ) (fps : ℚ) : List ℚ :=
  let pushed := fpsHistory ++ [fps]
  if pushed.length > maxHistorySize then pushed.tail else pushed

/-- The body of `if (deltaTime >= 1000)` in `recordFrame` (lines 28-53), for the
sample `fps` computed on line 28; `m.frameCount` is already incremented. -/
def PerformanceMonitor.measure (m : PerformanceMonitor) (fps currentTime : ℚ) :
    PerformanceMonitor × List Notification :=
  let m1 := { m with fpsHistory := pushSample m.fpsHistory fps }
  let avgFps := averageOf m1.fpsHistory
  let shouldEnterPerformanceMode :=
    decide (avgFps < lowPerformanceThreshold) && !m1.performanceMode
  let shouldExitPerformanceMode :=
    decide (avgFps > lowPerformanceThreshold + 10) && m1.performanceMode
  let (m2, notified) :=
    if shouldEnterPerformanceMode then
      let m2 := { m1 with performanceMode := true }
      (m2, m2.notifyCallbacks "performance-mode-enabled")
    else if shouldExitPerformanceMode then
      let m2 := { m1 with performanceMode := false }
      (m2, m2.notifyCallbacks "performance-mode-disabled")
    else (m1, [])
  ({ m2 with frameCount := 0, lastTime := currentTime }, notified)

/-- Method `recordFrame()` (lines 22-55); `currentTime` is the reading of
`performance.now()` on line 24. Returns the callback invocations made. -/
def PerformanceMonitor.recordFrame (m : PerformanceMonitor) (currentTime : ℚ) :
    PerformanceMonitor × List Notification :=
  let m0 := { m with frameCount := m.frameCount + 1 }
  let deltaTime := currentTime - m.lastTime
  if deltaTime ≥ 1000 then
    let fps := jsRound (((m0.frameCount : ℚ) * 1000) / deltaTime)
    m0.measure fps currentTime
  else (m0, [])

/-- The settings object returned by `getRecommendedSettings`. -/
structure RecommendedSettings where
  ropeSegments : Nat
  enableShadows : Bool
  enableTexture : Bool
  showTension : Bool
  animationSpeed : String
  deriving DecidableEq, Repr

/-- Method `getRecommendedSettings()` (lines 95-123). -/
def PerformanceMonitor.getRecommendedSettings (m : PerformanceMonitor) :
    RecommendedSettings :=
  let stats := m.getStats
  if stats.averageFps < 20 then
    { ropeSegments := 8, enableShadows := false, enableTexture := false,
      showTension := false, animationSpeed := "slow" }
  else if stats.averageFps < 40 then
    { ropeSegments := 10, enableShadows := false, enableTexture := true,
      showTension := false, animationSpeed := "normal" }
  else
    { ropeSegments := 12, enableShadows := true, enableTexture := true,
      showTension := true, animationSpeed := "normal" }

/-- The operations a client can perform on the monitor. -/
inductive MonitorOp where
  | start (now : ℚ)
  | recordFrame (now : ℚ)
  | subscribe (callback : Nat)
  | unsubscribe (callback : Nat)
  | getStats
  | shouldUsePerformanceMode
  | getRecommendedSettings
  deriving DecidableEq, Repr

/-- The monitor after one operation; the three queries assign no field. -/
def PerformanceMonitor.applyOp (m : PerformanceMonitor) : MonitorOp → PerformanceMonitor
  | .start now => m.start now
  | .recordFrame now => (m.recordFrame now).1
  | .subscribe callback => m.subscribe callback
  | .unsubscribe callback => m.unsubscribe callback
  | .getStats => m
  | .shouldUsePerformanceMode => m
  | .getRecommendedSettings => m

/-- The monitor after a sequence of operations. -/
def PerformanceMonitor.applyOps (m : PerformanceMonitor) (ops : List MonitorOp) :
    PerformanceMonitor :=
  ops.foldl PerformanceMonitor.applyOp m

/-- The monitor and the invocations made, in order, after `recordFrame` is called
at each of the clock readings `times`. -/
def PerformanceMonitor.recordFrames (m : PerformanceMonitor) :
    List ℚ → PerformanceMonitor × List Notification
  | [] => (m, [])
  | t :: ts =>
      let r := m.recordFrame t
      let rest := PerformanceMonitor.recordFrames r.1 ts
      (rest.1, r.2 ++ rest.2)

/-- The mode that lines 40-49 of `recordFrame` leave, from the mode before and the
rolling average `avgFps`. -/
def modeAfter (performanceMode : Bool) (avgFps : ℚ) : Bool :=
  if avgFps < lowPerformanceThreshold ∧ performanceMode = false then true
  else if avgFps > lowPerformanceThreshold + 10 ∧ performanceMode = true then false
  else performanceMode

/-- The event name passed to `notifyCallbacks` on lines 45 and 48, by the mode
just set. -/
def transitionEvent (performanceMode : Bool) : String :=
  if performanceMode then "performance-mode-enabled" else "performance-mode-disabled"

/-- The monitor and the callback invocations made by one operation; only
`recordFrame` invokes callbacks. -/
def PerformanceMonitor.runOp (m : PerformanceMonitor) :
    MonitorOp → PerformanceMonitor × List Notification
  | .recordFrame now => m.recordFrame now
  | op => (m.applyOp op, [])

/-- The local `avgFps` of `getStats` (lines 59-61): the average of the history,
0 for an empty history. -/
def historyAverage (fpsHistory : List ℚ) : ℚ :=
  if fpsHistory.length > 0 then averageOf fpsHistory else 0

/-- The settings returned on lines 99-105. -/
def minimalSettings : RecommendedSettings :=
  { ropeSegments := 8, enableShadows := false, enableTexture := false,
    showTension := false, animationSpeed := "slow" }

/-- The settings returned on lines 107-113. -/
def mediumSettings : RecommendedSettings :=
  { ropeSegments := 10, enableShadows := false, enableTexture := true,
    showTension := false, animationSpeed := "normal" }

/-- The settings returned on lines 115-121. -/
def fullSettings : RecommendedSettings :=
  { ropeSegments := 12, enableShadows := true, enableTexture := true,
    showTension := true, animationSpeed := "normal" }

/-! ## Subscribers that throw -/

/-- What a subscriber does when it is invoked with an event and a stats snapshot:
it returns, or it throws a value (here its message). -/
abbrev CallbackBehaviour := Nat → String → Stats → Except String Unit

/-- The loop of `notifyCallbacks(event)` (lines 80-86) over the callbacks still
to visit, with the behaviour of the subscribers made explicit: each callback is
invoked inside `try`, and the `catch` clause passes the thrown value to
`console.error`. Returns the invocations made and the values logged. -/
def PerformanceMonitor.notifyCallbacksWith (behaviour : CallbackBehaviour)
    (m : PerformanceMonitor) (event : String) :
    List Nat → Except String (List Notification × List String)
  | [] => .ok ([], [])
  | callback :: rest =>
      let stats := m.getStats
      let guarded : Except String (List String) :=
        match behaviour callback event stats with
        | .ok _ => .ok []
        | .error error => .ok [error]
      match guarded with
      | .error e => .error e
      | .ok logged =>
          match PerformanceMonitor.notifyCallbacksWith behaviour m event rest with
          | .error e => .error e
          | .ok (invoked, loggedRest) =>
              .ok ({ callback := callback, event := event, stats := stats } :: invoked,
                logged ++ loggedRest)

/-- The body of `if (deltaTime >= 1000)` in `recordFrame` (lines 28-53) with the
behaviour of the subscribers made explicit; an exception that left
`notifyCallbacks` would leave `recordFrame` before the reset of lines 52-53. -/
def PerformanceMonitor.measureWith (behaviour : CallbackBehaviour) (m : PerformanceMonitor)
    (fps currentTime : ℚ) :
    Except String (PerformanceMonitor × List Notification × List String) :=
  let m1 := { m with fpsHistory := pushSample m.fpsHistory fps }
  let avgFps := averageOf m1.fpsHistory
  let shouldEnterPerformanceMode :=
    decide (avgFps < lowPerformanceThreshold) && !m1.performanceMode
  let shouldExitPerformanceMode :=
    decide (avgFps > lowPerformanceThreshold + 10) && m1.performanceMode
  let notifiedStep : Except String (PerformanceMonitor × List Notification × List String) :=
    if shouldEnterPerformanceMode then
      let m2 := { m1 with performanceMode := true }
      match m2.notifyCallbacksWith behaviour "performance-mode-enabled" m2.callbacks with
      | .ok (invoked, logged) => .ok (m2, invoked, logged)
      | .error e => .error e
    else if shouldExitPerformanceMode then
      let m2 := { m1 with performanceMode := false }
      match m2.notifyCallbacksWith behaviour "performance-mode-disabled" m2.callbacks with
      | .ok (invoked, logged) => .ok (m2, invoked, logged)
      | .error e => .error e
    else .ok (m1, [], [])
  match notifiedStep with
  | .ok (m2, invoked, logged) =>
      .ok ({ m2 with frameCount := 0, lastTime := currentTime }, invoked, logged)
  | .error e => .error e

/-- Method `recordFrame()` (lines 22-55) with the behaviour of the subscribers
made explicit. Returns the monitor, the invocations made and the values logged,
or the exception that leaves `recordFrame`. -/
def PerformanceMonitor.recordFrameWith (behaviour : CallbackBehaviour)
    (m : PerformanceMonitor) (currentTime : ℚ) :
    Except String (PerformanceMonitor × List Notification × List String) :=
  let m0 := { m with frameCount := m.frameCount + 1 }
  let deltaTime := currentTime - m.lastTime
  if deltaTime ≥ 1000 then
    let fps := jsRound (((m0.frameCount : ℚ) * 1000) / deltaTime)
    m0.measureWith behaviour fps currentTime
  else .ok (m0, [], [])

/-- The values a run of `notifyCallbacks` logs: what the throwing callbacks
threw, in subscription order. -/
def loggedErrors (behaviour : CallbackBehaviour) (event : String) (stats : Stats)
    (callbacks : List Nat) : List String :=
  callbacks.filterMap fun callback =>
    match behaviour callback event stats with
    | .ok _ => none
    | .error error => some error

/-- A behaviour in which no subscriber throws. -/
def quietBehaviour : CallbackBehaviour := fun _ _ _ => .ok ()

/-- A behaviour in which the subscriber 7 throws and every other one returns. -/
def throwingBehaviour : CallbackBehaviour := fun callback _ _ =>
  if callback = 7 then .error "subscriber failed" else .ok ()

/-! ## Runs of the monitor -/

/-- Clock readings of the frames `k + 1, ..., k + count` of a window that starts
at `start` and holds `frames` equally spaced frames, the last one at
`start + 1000`. -/
def frameTimes (start : ℚ) (frames : Nat) : Nat → Nat → List ℚ
  | _, 0 => []
  | k, count + 1 =>
      (start + ((k : ℚ) + 1) * (1000 / (frames : ℚ))) :: frameTimes start frames (k + 1) count

/-- Clock readings of one window of `frames` frames starting at `start`. -/
def windowTimes (start : ℚ) (frames : Nat) : List ℚ := frameTimes start frames 0 frames

/-- Clock readings of `windows` consecutive one-second windows of `fps` frames
each, starting at `start`. -/
def steadyTimes (fps : Nat) : Nat → ℚ → List ℚ
  | 0, _ => []
  | windows + 1, start => windowTimes start fps ++ steadyTimes fps windows (start + 1000)

/-- The monitor and the invocations made after `windows` consecutive
measurements that each push the sample `fps`, one second apart. -/
def measureSteady (fps : Nat) : Nat → PerformanceMonitor → PerformanceMonitor × List Notification
  | 0, m => (m, [])
  | windows + 1, m =>
      let r := ({ m with frameCount := fps }).measure (fps : ℚ) (m.lastTime + 1000)
      let rest := measureSteady fps windows r.1
      (rest.1, r.2 ++ rest.2)

/-- The rolling averages computed on line 37 during the run of `recordFrame` at
the clock readings `times`, one per measurement. -/
def PerformanceMonitor.averagesSeen (m : PerformanceMonitor) : List ℚ → List ℚ
  | [] => []
  | t :: ts =>
      let r := m.recordFrame t
      (if t - m.lastTime ≥ 1000 then [averageOf r.1.fpsHistory] else [])
        ++ PerformanceMonitor.averagesSeen r.1 ts

/-- A monitor constructed at time `tc`, started at time `t0`, with the one
subscriber `cb`. -/
def freshMonitor (tc t0 : ℚ) (cb : Nat) : PerformanceMonitor :=
  ((PerformanceMonitor.new tc).start t0).subscribe cb

/-- The run of `recordFrame` over 60 one-second windows of 20 frames each, from
the fresh monitor. -/
def lowPhase (tc t0 : ℚ) (cb : Nat) : PerformanceMonitor × List Notification :=
  (freshMonitor tc t0 cb).recordFrames (steadyTimes 20 60 t0)

/-- The run of `recordFrame` over 60 further one-second windows of 45 frames
each. -/
def highPhase (tc t0 : ℚ) (cb : Nat) : PerformanceMonitor × List Notification :=
  (lowPhase tc t0 cb).1.recordFrames (steadyTimes 45 60 (t0 + 60000))

/-- A monitor in normal mode with one sample of 35 FPS, 34 frames into the
current window. -/
def bandMonitor : PerformanceMonitor :=
  { frameCount := 34, lastTime := 0, fpsHistory := [35],
    performanceMode := false, callbacks := [7] }

/-- A monitor whose history holds the 60 samples `0, 1, ..., 59`, 41 frames into
the current window. -/
def fullMonitor : PerformanceMonitor :=
  { frameCount := 41, lastTime := 0, fpsHistory := (List.range 60).map (fun (i : Nat) => (i : ℚ)),
    performanceMode := false, callbacks := [] }

/-! ## Rope state store: `ropeStatesRef.current`, a `Map` from connection id to
`{ points }` -/

/-- The rope state store; an entry `(id, points)` is the map entry
`id ↦ { points }`. -/
abbrev RopeStates := List (String × Chain)

/-- The expression `ropeStatesRef.current.get(id)?.points`. -/
def RopeStates.get (s : RopeStates) (id : String) : Option Chain :=
  (s.find? (fun e => e.1 = id)).map (·.2)

/-- The call `ropeStatesRef.current.set(id, { points })`: replaces the value of an
existing key in place, appends a new key. -/
def RopeStates.set : RopeStates → String → Chain → RopeStates
  | [], id, points => [(id, points)]
  | e :: rest, id, points =>
      if e.1 = id then (id, points) :: rest else e :: RopeStates.set rest id points

/-- The call `ropeStatesRef.current.delete(id)`. -/
def RopeStates.delete (s : RopeStates) (id : String) : RopeStates :=
  s.filter (fun e => e.1 ≠ id)

/-- The orphaned rope state cleanup (lines 296-303): `forEach` over the entries,
deleting each key that is not among the ids of `filteredConnections`; `entries`
are the entries still to visit, `s` the current map. -/
def pruneLoop (validConnectionIds : List String) :
    List (String × Chain) → RopeStates → RopeStates
  | [], s => s
  | e :: rest, s =>
      if e.1 ∈ validConnectionIds then pruneLoop validConnectionIds rest s
      else pruneLoop validConnectionIds rest (s.delete e.1)

/-- The effect of lines 296-303 on the store. -/
def cleanupRopeStates (filteredConnections : List Connection) (s : RopeStates) :
    RopeStates :=
  let validConnectionIds := filteredConnections.map (fun conn => conn.id)
  pruneLoop validConnectionIds s s

/-- The relation between the store before and after some writes of the loop:
every chain found afterwards was there before or has `ROPE_SEGMENTS + 1` points. -/
def WritesFullChains (before after : RopeStates) : Prop :=
  ∀ (id : String) (points : Chain), RopeStates.get after id = some points →
    RopeStates.get before id = some points ∨ points.length = ROPE_SEGMENTS + 1

/-- Every stored chain has `ROPE_SEGMENTS + 1` points, as every chain written by
the scheduler has. -/
def FullChains (s : RopeStates) : Prop :=
  ∀ (id : String) (points : Chain), RopeStates.get s id = some points →
    points.length = ROPE_SEGMENTS + 1

/-- The chain stored under `connection.id` after the callback of lines 239-255
ran for `connection`, when `cur` was stored before: evicted when a note is
missing, replaced when `simulateRopePhysics` returns a chain, kept otherwise. -/
def storedAfterTick (notes : List Note) (deltaTime : ℚ) (cur : Option Chain)
    (connection : Connection) : Option Chain :=
  match notes.find? (fun note => note.id = connection.fromNoteId),
      notes.find? (fun note => note.id = connection.toNoteId) with
  | some fromNote, some toNote =>
      match simulateRopePhysics (some fromNote) (some toNote) cur deltaTime with
      | .ok (some points) => some points
      | _ => cur
  | _, _ => none

/-! ## Frame scheduler: `animate` (lines 225-265) -/

/-- The mutable state the animation loop reads and writes. -/
structure SchedulerState where
  lastFrameTime : ℚ
  ropeStates : RopeStates
  monitor : PerformanceMonitor
  forceUpdate : Nat
  isDragging : Bool
  deriving DecidableEq, Repr

/-- The callback of `filteredConnections.forEach` (lines 239-255) for one
connection; `acc` is the store and the flag `hasChanges`. -/
def tickConnection (notes : List Note) (deltaTime : ℚ) (acc : RopeStates × Bool)
    (connection : Connection) : Except JsError (RopeStates × Bool) :=
  let fromNote := notes.find? (fun note => note.id = connection.fromNoteId)
  let toNote := notes.find? (fun note => note.id = connection.toNoteId)
  match fromNote, toNote with
  | some fromNote, some toNote =>
      let currentState := acc.1.get connection.id
      match simulateRopePhysics (some fromNote) (some toNote) currentState deltaTime with
      | .error e => .error e
      | .ok (some points) => .ok (acc.1.set connection.id points, true)
      | .ok none => .ok acc
  | _, _ => .ok (acc.1.delete connection.id, acc.2)

/-- The loop `filteredConnections.forEach(...)` (lines 239-255). -/
def forEachConnection (notes : List Note) (deltaTime : ℚ) :
    List Connection → RopeStates × Bool → Except JsError (RopeStates × Bool)
  | [], acc => .ok acc
  | connection :: rest, acc =>
      match tickConnection notes deltaTime acc connection with
      | .ok acc1 => forEachConnection notes deltaTime rest acc1
      | .error e => .error e

/-- The function `animate(currentTime)` (lines 225-265) up to the rescheduling
call; `now` is the clock reading taken by `performanceMonitor.recordFrame()`.
Returns the new state and the monitor callback invocations made. An exception
raised inside the loop leaves `animate`; the state reached by then is not part of
the result. -/
def animate (notes : List Note) (filteredConnections : List Connection)
    (s : SchedulerState) (currentTime now : ℚ) :
    Except JsError (SchedulerState × List Notification) :=
  let deltaTime := currentTime - s.lastFrameTime
  let throttleTime := if s.isDragging then DRAG_THROTTLE_MS else IDLE_THROTTLE_MS
  if deltaTime ≥ throttleTime then
    let recorded := s.monitor.recordFrame now
    let s1 := { s with lastFrameTime := currentTime, monitor := recorded.1 }
    if filteredConnections.length > 0 then
      match forEachConnection notes deltaTime filteredConnections (s1.ropeStates, false) with
      | .error e => .error e
      | .ok (ropeStates, hasChanges) =>
          .ok ({ s1 with ropeStates := ropeStates,
                         forceUpdate := if hasChanges then s1.forceUpdate + 1
                                        else s1.forceUpdate }, recorded.2)
    else .ok (s1, recorded.2)
  else .ok (s, [])

/-- Whether both notes of a connection are found in the notes list and have a
position, that is, whether `simulateRopePhysics` is called for it on line 245 and
does not return `null`. -/
def connectionResolves (notes : List Note) (connection : Connection) : Bool :=
  match notes.find? (fun note => note.id = connection.fromNoteId),
      notes.find? (fun note => note.id = connection.toNoteId) with
  | some fromNote, some toNote => fromNote.position.isSome && toNote.position.isSome
  | _, _ => false

/-- The animation loop over the timestamps of consecutive frames: `animate`
reschedules itself with `requestAnimationFrame(animate)` (line 264). The clock
the monitor reads in a tick shows that tick's timestamp. The callback invocations
of all ticks are collected in order. -/
def animateRun (notes : List Note) (filteredConnections : List Connection) :
    SchedulerState → List ℚ → Except JsError (SchedulerState × List Notification)
  | s, [] => .ok (s, [])
  | s, currentTime :: rest =>
      match animate notes filteredConnections s currentTime currentTime with
      | .error e => .error e
      | .ok (s1, notified) =>
          match animateRun notes filteredConnections s1 rest with
          | .error e => .error e
          | .ok (s2, notified2) => .ok (s2, notified ++ notified2)

/-- The scheduler is idle, every frame the monitor counted in its current window
came at least 33 ms after the one before, the first at least 33 ms after the
window began, and no sample of the history is above 30. -/
def IdleWindow (s : SchedulerState) : Prop :=
  s.isDragging = false
  ∧ s.monitor.lastTime + 33 * (s.monitor.frameCount : ℚ) ≤ s.lastFrameTime
  ∧ ∀ x ∈ s.monitor.fpsHistory, x ≤ 30

/-! ## Drag handlers: `handleDragStart` (lines 324-342) and `handleDragEnd`
(lines 344-356)

The values returned by `Math.random()` are a parameter: `random k` is the value of
the `k`-th call. -/

/-- The loop `currentState.points.forEach(...)` of lines 334-337 over the points
still to visit; `k` counts the calls of `Math.random()` made so far. -/
def perturbPoints (random : Nat → ℚ) : Nat → Chain → Chain × Nat
  | k, [] => ([], k)
  | k, point :: rest =>
      let perturbed : MassPoint :=
        { point with vx := point.vx + (random k - 5 / 10) * 3
                     vy := point.vy + (random (k + 1) - 5 / 10) * 3 }
      let r := perturbPoints random (k + 2) rest
      (perturbed :: r.1, r.2)

/-- The loop `filteredConnections.forEach(...)` of lines 330-340; the points are
mutated in place, so the entry keeps its place in the map. -/
def dragStartLoop (random : Nat → ℚ) (draggedNoteId : String) :
    List Connection → RopeStates × Nat → RopeStates × Nat
  | [], acc => acc
  | connection :: rest, acc =>
      if connection.fromNoteId = draggedNoteId ∨ connection.toNoteId = draggedNoteId then
        match RopeStates.get acc.1 connection.id with
        | some points =>
            let r := perturbPoints random acc.2 points
            dragStartLoop random draggedNoteId rest
              (RopeStates.set acc.1 connection.id r.1, r.2)
        | none => dragStartLoop random draggedNoteId rest acc
      else dragStartLoop random draggedNoteId rest acc

/-- The handler `handleDragStart(e)`; `noteId` is `e.detail?.noteId`, and `k` the
number of calls of `Math.random()` made before. Returns the state and the number
of calls made so far. -/
def handleDragStart (random : Nat → ℚ) (k : Nat) (filteredConnections : List Connection)
    (s : SchedulerState) (noteId : Option String) : SchedulerState × Nat :=
  let s1 := { s with isDragging := true }
  match noteId with
  | some draggedNoteId =>
      if draggedNoteId ≠ "" then
        let r := dragStartLoop random draggedNoteId filteredConnections (s1.ropeStates, k)
        ({ s1 with ropeStates := r.1 }, r.2)
      else (s1, k)
  | none => (s1, k)

/-- The update of one point on lines 351-352: `vx *= 0.3; vy *= 0.3`. -/
def dampPoint (point : MassPoint) : MassPoint :=
  { point with vx := point.vx * (3 / 10), vy := point.vy * (3 / 10) }

/-- The handler `handleDragEnd()`: every stored chain is damped in place. -/
def handleDragEnd (s : SchedulerState) : SchedulerState :=
  { s with isDragging := false
           ropeStates := s.ropeStates.map (fun e => (e.1, e.2.map dampPoint)) }

/-- The relation between a point before and after the drag-start perturbation:
same position, each velocity component moved by at most `1.5`. -/
def PerturbedFrom (before after : MassPoint) : Prop :=
  after.x = before.x ∧ after.y = before.y
    ∧ |after.vx - before.vx| ≤ 3 / 2 ∧ |after.vy - before.vy| ≤ 3 / 2

/-! ## Path generator: `calculateTension` (lines 143-156) and `generateRopePath`
(lines 159-184)

The library function `Math.sqrt` and the conversion of a number to a string in a
template literal are parameters, `sqrt` and `fmt`. -/

/-- The loop of lines 147-154 from the index of `currentPoint` on, `prevPoint`
being the head of the list; `totalTension` is the sum so far. -/
def tensionLoop (sqrt : ℚ → ℚ) : Chain → ℚ → ℚ
  | prevPoint :: currentPoint :: rest, totalTension =>
      let dx := currentPoint.x - prevPoint.x
      let dy := currentPoint.y - prevPoint.y
      tensionLoop sqrt (currentPoint :: rest) (totalTension + sqrt (dx * dx + dy * dy))
  | _, totalTension => totalTension

/-- The function `calculateTension(points)`. -/
def calculateTension (sqrt : ℚ → ℚ) (points : Option Chain) : ℚ :=
  match points with
  | none => 0
  | some pts =>
      if pts.length < 2 then 0
      else jsRound (tensionLoop sqrt pts 0 / ((pts.length : ℚ) - 1))

/-- The Euclidean distances between the consecutive points of a chain, with
`sqrt` for the square root. -/
def segmentLengths (sqrt : ℚ → ℚ) : Chain → List ℚ
  | p :: q :: rest =>
      sqrt ((q.x - p.x) * (q.x - p.x) + (q.y - p.y) * (q.y - p.y))
        :: segmentLengths sqrt (q :: rest)
  | _ => []

/-- The loop of lines 164-181 from index `i` on: `prevPoint` is `points[i - 1]`,
the list holds `points[i]` and the points after it, and `pathData` is the string
built so far. -/
def pathLoop (fmt : ℚ → String) : Nat → MassPoint → Chain → String → String
  | _, _, [], pathData => pathData
  | i, prevPoint, currentPoint :: rest, pathData =>
      if i = 1 then
        let controlX := prevPoint.x + (currentPoint.x - prevPoint.x) * (5 / 10)
        let controlY := prevPoint.y + (currentPoint.y - prevPoint.y) * (5 / 10)
        pathLoop fmt (i + 1) currentPoint rest
          (pathData ++ (" Q " ++ fmt controlX ++ " " ++ fmt controlY ++ ", "
            ++ fmt currentPoint.x ++ " " ++ fmt currentPoint.y))
      else
        let controlX1 := prevPoint.x + (currentPoint.x - prevPoint.x) * (3 / 10)
        let controlY1 := prevPoint.y + (currentPoint.y - prevPoint.y) * (3 / 10)
        let controlX2 := prevPoint.x + (currentPoint.x - prevPoint.x) * (7 / 10)
        let controlY2 := prevPoint.y + (currentPoint.y - prevPoint.y) * (7 / 10)
        pathLoop fmt (i + 1) currentPoint rest
          (pathData ++ (" C " ++ fmt controlX1 ++ " " ++ fmt controlY1 ++ ", "
            ++ fmt controlX2 ++ " " ++ fmt controlY2 ++ ", "
            ++ fmt currentPoint.x ++ " " ++ fmt currentPoint.y))

/-- The function `generateRopePath(points)`. -/
def generateRopePath (fmt : ℚ → String) (points : Option Chain) : String :=
  match points with
  | none => ""
  | some [] => ""
  | some (first :: rest) =>
      pathLoop fmt 1 first rest ("M " ++ fmt first.x ++ " " ++ fmt first.y)

/-- A command of a path description: a move-to, a quadratic segment with one
control point, or a cubic segment with two control points; the last two numbers
are the end point. -/
inductive PathCommand where
  | moveTo (x y : ℚ)
  | quadratic (controlX controlY x y : ℚ)
  | cubic (controlX1 controlY1 controlX2 controlY2 x y : ℚ)
  deriving DecidableEq, Repr

/-- The text of a path command: `M x y`, ` Q cx cy, x y` or
` C c1x c1y, c2x c2y, x y`. -/
def PathCommand.render (fmt : ℚ → String) : PathCommand → String
  | .moveTo x y => "M " ++ fmt x ++ " " ++ fmt y
  | .quadratic controlX controlY x y =>
      " Q " ++ fmt controlX ++ " " ++ fmt controlY ++ ", " ++ fmt x ++ " " ++ fmt y
  | .cubic controlX1 controlY1 controlX2 controlY2 x y =>
      " C " ++ fmt controlX1 ++ " " ++ fmt controlY1 ++ ", "
        ++ fmt controlX2 ++ " " ++ fmt controlY2 ++ ", " ++ fmt x ++ " " ++ fmt y

/-- The text of a sequence of path commands appended to `start`. -/
def renderPath (fmt : ℚ → String) (start : String) (commands : List PathCommand) : String :=
  commands.foldl (fun text command => text ++ command.render fmt) start

/-- The end point of a path command. -/
def PathCommand.endPoint : PathCommand → ℚ × ℚ
  | .moveTo x y => (x, y)
  | .quadratic _ _ x y => (x, y)
  | .cubic _ _ _ _ x y => (x, y)

/-- The segment of the path from `prev` to `cur`, the `i`-th of the chain:
quadratic through the midpoint for `i = 1`, cubic with control points at 30% and
70% of the way otherwise. -/
def segmentCommand (i : Nat) (prev cur : MassPoint) : PathCommand :=
  if i = 1 then
    .quadratic ((prev.x + cur.x) / 2) ((prev.y + cur.y) / 2) cur.x cur.y
  else
    .cubic (prev.x + (3 / 10) * (cur.x - prev.x)) (prev.y + (3 / 10) * (cur.y - prev.y))
      (prev.x + (7 / 10) * (cur.x - prev.x)) (prev.y + (7 / 10) * (cur.y - prev.y))
      cur.x cur.y

/-- The segments of a path from index `i` on, `prev` being the point `i - 1`. -/
def segmentsFrom : Nat → MassPoint → Chain → List PathCommand
  | _, _, [] => []
  | i, prev, cur :: rest => segmentCommand i prev cur :: segmentsFrom (i + 1) cur rest

/-- The commands of the path of a chain: a move-to at the first point, then one
segment to each further point. -/
def pathCommands : Chain → List PathCommand
  | [] => []
  | first :: rest => .moveTo first.x first.y :: segmentsFrom 1 first rest

/-! ## Rendered paths: the memo `ropePaths` (lines 186-222) -/

/-- An element of the array `ropePaths`. The field `type` repeats
`connection.type` and is omitted. -/
structure RopePath where
  id : String
  pathData : String
  points : Chain
  fromNote : Note
  toNote : Note
  connection : Connection
  tension : ℚ
  deriving DecidableEq, Repr

/-- The callback of `filteredConnections.map(...)` (lines 189-219), run on the
rope state store `store`: the store after it and the value it returns, `none` for
`null`. A note id is falsy when it is the empty string. The call of
`simulateRopePhysics` on line 200 passes no `deltaTime`, which defaults to 1. -/
def ropePathStep (sqrt : ℚ → ℚ) (fmt : ℚ → String) (notes : List Note) (store : RopeStates)
    (connection : Connection) : Except JsError (RopeStates × Option RopePath) :=
  let fromNote := notes.find? (fun note => note.id = connection.fromNoteId)
  let toNote := notes.find? (fun note => note.id = connection.toNoteId)
  match fromNote, toNote with
  | some fromNote, some toNote =>
      if fromNote.id = "" ∨ toNote.id = "" then .ok (store, none)
      else
        let currentState := store.get connection.id
        match simulateRopePhysics (some fromNote) (some toNote) currentState 1 with
        | .error e => .error e
        | .ok none => .ok (store, none)
        | .ok (some points) =>
            if points.length = 0 then .ok (store, none)
            else
              let pathData := generateRopePath fmt (some points)
              let tension := calculateTension sqrt (some points)
              .ok (store.set connection.id points,
                some { id := connection.id, pathData := pathData, points := points,
                       fromNote := fromNote, toNote := toNote, connection := connection,
                       tension := tension })
  | _, _ => .ok (store, none)

/-- The value of `ropePaths`: `filteredConnections.map(...).filter(Boolean)`, which
keeps the results that are not `null`, with the store the callbacks leave
behind. -/
def ropePaths (sqrt : ℚ → ℚ) (fmt : ℚ → String) (notes : List Note) :
    List Connection → RopeStates → Except JsError (RopeStates × List RopePath)
  | [], store => .ok (store, [])
  | connection :: rest, store =>
      match ropePathStep sqrt fmt notes store connection with
      | .error e => .error e
      | .ok (store1, result) =>
          match ropePaths sqrt fmt notes rest store1 with
          | .error e => .error e
          | .ok (store2, results) => .ok (store2, result.toList ++ results)

/-- Whether the callback of `ropePaths` returns a path for the connection: both
notes are found, have a non-empty id and a position. -/
def connectionRenders (notes : List Note) (connection : Connection) : Bool :=
  match notes.find? (fun note => note.id = connection.fromNoteId),
      notes.find? (fun note => note.id = connection.toNoteId) with
  | some fromNote, some toNote =>
      decide (fromNote.id ≠ "") && decide (toNote.id ≠ "")
        && fromNote.position.isSome && toNote.position.isSome
  | _, _ => false

/-! ## Notes store: the reducers `addConnection` and `deleteNote` of `notesSlice.js`

The reducers are written as functions from the state before to the state after.
Only the fields they read or assign are modelled. The two values the clock gives
to `addConnection`, `Date.now().toString()` and `new Date().toISOString()`, are
arguments. -/

/-- The value of a `groupId` field: `undefined`, `null` or a group id. Strict
equality `===` of two such values is equality of this type. -/
inductive GroupId where
  | undefined
  | null
  | group (id : String)
  deriving DecidableEq, Repr

/-- The fields of a stored note that the two reducers read. -/
structure StoredNote where
  id : String
  groupId : GroupId
  deriving DecidableEq, Repr

/-- A stored connection, with the fields `addConnection` writes. -/
structure StoredConnection where
  id : String
  fromNoteId : String
  toNoteId : String
  type : String
  groupId : GroupId
  createdAt : String
  deriving DecidableEq, Repr

/-- The fields of the slice state that `addConnection` and `deleteNote` read or
assign. -/
structure NotesState where
  notes : List StoredNote
  connections : List StoredConnection
  selectedNotes : List String
  currentNote : Option StoredNote
  deriving DecidableEq, Repr

/-- The reducer `addConnection` (lines 220-250). `type` is `none` when the payload
has no `type`, which then defaults to `'related'`. -/
def addConnection (state : NotesState) (fromNoteId toNoteId : String) (type : Option String)
    (newId createdAt : String) : NotesState :=
  let type := type.getD "related"
  let existingConnection := state.connections.find? (fun conn =>
    (conn.fromNoteId = fromNoteId ∧ conn.toNoteId = toNoteId)
      ∨ (conn.fromNoteId = toNoteId ∧ conn.toNoteId = fromNoteId))
  if existingConnection = none ∧ fromNoteId ≠ toNoteId then
    let fromNote := state.notes.find? (fun note => note.id = fromNoteId)
    let toNote := state.notes.find? (fun note => note.id = toNoteId)
    match fromNote, toNote with
    | some fromNote, some toNote =>
        let fromGroupId := fromNote.groupId
        let toGroupId := toNote.groupId
        if fromGroupId = toGroupId then
          let newConnection : StoredConnection :=
            { id := newId, fromNoteId := fromNoteId, toNoteId := toNoteId, type := type,
              groupId := fromGroupId, createdAt := createdAt }
          { state with connections := state.connections ++ [newConnection] }
        else state
    | _, _ => state
  else state

/-- The reducer `deleteNote` (lines 151-164). -/
def deleteNote (state : NotesState) (noteId : String) : NotesState :=
  let notes := state.notes.filter (fun note => note.id ≠ noteId)
  let connections := state.connections.filter
    (fun conn => conn.fromNoteId ≠ noteId ∧ conn.toNoteId ≠ noteId)
  let selectedNotes := state.selectedNotes.filter (fun id => id ≠ noteId)
  let currentNote :=
    match state.currentNote with
    | some current => if current.id = noteId then notes.head? else some current
    | none => none
  { notes := notes, connections := connections, selectedNotes := selectedNotes,
    currentNote := currentNote }

/-- Two connections join the same unordered pair of notes. -/
def SamePair (c d : StoredConnection) : Prop :=
  (c.fromNoteId = d.fromNoteId ∧ c.toNoteId = d.toNoteId)
    ∨ (c.fromNoteId = d.toNoteId ∧ c.toNoteId = d.fromNoteId)

/-- No connection joins a note to itself. -/
def NoSelfConnection (connections : List StoredConnection) : Prop :=
  ∀ conn ∈ connections, conn.fromNoteId ≠ conn.toNoteId

/-- No two connections of the list join the same unordered pair of notes. -/
def NoDuplicatePair (connections : List StoredConnection) : Prop :=
  connections.Pairwise (fun c d => ¬ SamePair c d)

/-- Every connection references two notes of the state. -/
def ReferencesExist (state : NotesState) : Prop :=
  ∀ conn ∈ state.connections,
    (∃ note ∈ state.notes, note.id = conn.fromNoteId)
    ∧ (∃ note ∈ state.notes, note.id = conn.toNoteId)

/-! ## Sample data -/

/-- A note at position `(-140, -100)`, whose anchor is `(0, 0)`. -/
def sampleNoteA : Note := { id := "a", groupId := none, position := some ⟨-140, -100⟩ }

/-- A note at position `(140, -100)`, whose anchor is `(280, 0)`. -/
def sampleNoteB : Note := { id := "b", groupId := none, position := some ⟨140, -100⟩ }

/-- A note without a position. -/
def sampleNoteNoPosition : Note := { id := "n", groupId := none, position := none }

/-- A moving point, faster than `MAX_VELOCITY` on both axes. -/
def samplePoint (x : ℚ) : MassPoint := { x := x, y := 7, vx := 250, vy := -400 }

/-- A chain of 13 moving points that is pinned to no anchor. -/
def sampleChain : Chain :=
  [samplePoint 0, samplePoint 1, samplePoint 2, samplePoint 3, samplePoint 4,
   samplePoint 5, samplePoint 6, samplePoint 7, samplePoint 8, samplePoint 9,
   samplePoint 10, samplePoint 11, samplePoint 12]

/-- The notes `a`, `b` and a note without a position. -/
def sampleNotes : List Note := [sampleNoteA, sampleNoteB, sampleNoteNoPosition]

/-- A connection between the notes `a` and `b`. -/
def sampleConnection : Connection := { id := "c", fromNoteId := "a", toNoteId := "b" }

/-- An idle scheduler whose store holds `sampleChain` for connection `c`. -/
def sampleState : SchedulerState :=
  { lastFrameTime := 0, ropeStates := [("c", sampleChain)],
    monitor := PerformanceMonitor.new 0, forceUpdate := 0, isDragging := false }

/-- The state after the tick at time 50 from `sampleState` over `sampleConnection`. -/
def sampleStateAfter : SchedulerState :=
  { lastFrameTime := 50
    ropeStates := [("c", stepChain sampleChain ⟨0, 0⟩ ⟨280, 0⟩ 1)]
    monitor := { PerformanceMonitor.new 0 with frameCount := 1 }
    forceUpdate := 1, isDragging := false }

/-- A monitor in performance mode with 59 samples of 41 FPS, 41 frames into the
current window. -/
def sampleMonitor : PerformanceMonitor :=
  { frameCount := 41, lastTime := 0, fpsHistory := List.replicate 59 41,
    performanceMode := true, callbacks := [7] }

/-- A store with the chains of the connections `c` and `d`. -/
def sampleStore : RopeStates := [("c", sampleChain), ("d", [samplePoint 3])]

/-- A connection from the note `a` to the note without a position. -/
def sampleConnectionNoPosition : Connection :=
  { id := "c", fromNoteId := "a", toNoteId := "n" }

/-- A connection with the id `c` whose from-note is not in the notes list. -/
def sampleConnectionOrphan : Connection :=
  { id := "c", fromNoteId := "zz", toNoteId := "b" }

/-- The monitor `sampleMonitor` with the two subscribers 7 and 8. -/
def sampleMonitorTwo : PerformanceMonitor := { sampleMonitor with callbacks := [7, 8] }

/-- A monitor whose history holds the two samples 19 and 20, of average 19.5. -/
def halfwayMonitor : PerformanceMonitor :=
  { frameCount := 0, lastTime := 0, fpsHistory := [19, 20], performanceMode := true,
    callbacks := [] }

/-- A square root that is exact on 25. -/
def sampleSqrt : ℚ → ℚ := fun v => if v = 25 then 5 else 0

/-- The straight chain `(0, 0), (3, 4), (6, 8)`, whose consecutive points are 5
apart. -/
def straightChain : Chain := [⟨0, 0, 0, 0⟩, ⟨3, 4, 0, 0⟩, ⟨6, 8, 0, 0⟩]

/-- A number-to-string conversion that writes integers in decimal and any other
number as `?`. -/
def sampleFmt : ℚ → String := fun v => if v.den = 1 then toString v.num else "?"

/-- The hanging shape of the equilibrium claim between the anchors `a` and `b`:
point `i` is at `a + (b - a) * i/12 + (0, 0.5 * i * (12 - i))` with zero
velocity. -/
def restingChain (a b : Position) : Chain :=
  (List.range (ROPE_SEGMENTS + 1)).map fun (i : Nat) =>
    { x := a.x + (b.x - a.x) * ((i : ℚ) / 12)
      y := a.y + (b.y - a.y) * ((i : ℚ) / 12) + (1 / 2) * (i : ℚ) * (12 - (i : ℚ))
      vx := 0, vy := 0 }

/-- A store state with the notes `a`, `b` in no group, `g` in group `1`, and one
connection `k` between `a` and `b`. -/
def sampleSlice : NotesState :=
  { notes := [⟨"a", .null⟩, ⟨"b", .null⟩, ⟨"e", .null⟩, ⟨"g", .group "1"⟩]
    connections := [⟨"k", "a", "b", "related", .null, "t0"⟩]
    selectedNotes := ["a"]
    currentNote := some ⟨"a", .null⟩ }

/-- A note with the empty id, at position `(-140, -100)`. -/
def sampleNoteEmptyId : Note := { id := "", groupId := none, position := some ⟨-140, -100⟩ }

/-- A connection from the note with the empty id to the note `b`. -/
def sampleConnectionEmptyId : Connection := { id := "c", fromNoteId := "", toNoteId := "b" }

/-- A chain of 13 points whose point 0 has zero velocity. -/
def pinnedChain : Chain := ⟨0, 0, 0, 0⟩ :: sampleChain.tail

/-- An idle scheduler whose store holds `pinnedChain` for connection `c`. -/
def pinnedState : SchedulerState :=
  { lastFrameTime := 0, ropeStates := [("c", pinnedChain)],
    monitor := PerformanceMonitor.new 0, forceUpdate := 0, isDragging := false }

/-- A random source that always returns 0. -/
def zeroRandom : Nat → ℚ := fun _ => 0

/-! ## Helper lemmas for the integrator -/

theorem pushLoop_ok_of_forall (body : Nat → Except JsError MassPoint) (g : Nat → MassPoint) :
    ∀ (l : List Nat) (acc : Chain), (∀ i ∈ l, body i = .ok (g i)) →
      pushLoop body l acc = .ok (acc ++ l.map g)
  | [], acc, _ => by simp [pushLoop]
  | i :: is, acc, h => by
      have hi := h i (List.mem_cons_self _ _)
      have his := pushLoop_ok_of_forall body g is (acc ++ [g i])
        (fun j hj => h j (List.mem_cons_of_mem _ hj))
      simp [pushLoop, hi, his]

theorem pushLoop_ok_length (body : Nat → Except JsError MassPoint) :
    ∀ (l : List Nat) (acc r : Chain), pushLoop body l acc = .ok r →
      r.length = acc.length + l.length
  | [], acc, r, h => by
      simp [pushLoop] at h
      simp [← h]
  | i :: is, acc, r, h => by
      cases hi : body i with
      | error e => simp [pushLoop, hi] at h
      | ok p =>
        simp only [pushLoop, hi] at h
        have := pushLoop_ok_length body is (acc ++ [p]) r h
        simp at this ⊢
        omega

theorem getElem_opt_eq_getD (pts : Chain) (i : Nat) (h : i < pts.length) (d : MassPoint) :
    pts[i]? = some (pts.getD i d) := by
  simp [List.getD, List.getElem?_eq_getElem h]

/-- With at least `ROPE_SEGMENTS + 1` points in `currentPoints` no array read of
the loop fails, and the loop pushes the points of `stepChain`. -/
theorem pushLoop_stepPoint (cur : Chain) (hlen : ROPE_SEGMENTS + 1 ≤ cur.length)
    (fromX fromY toX toY dt : ℚ) :
    pushLoop (stepPoint cur fromX fromY toX toY dt) (List.range (ROPE_SEGMENTS + 1)) []
      = .ok (stepChain cur ⟨fromX, fromY⟩ ⟨toX, toY⟩ dt) := by
  rw [pushLoop_ok_of_forall _ (fun i =>
    if i = 0 then { x := fromX, y := fromY, vx := 0, vy := 0 }
    else if i = ROPE_SEGMENTS then { x := toX, y := toY, vx := 0, vy := 0 }
    else freePoint (cur.getD (i - 1) ⟨0, 0, 0, 0⟩)
      (cur.getD i ⟨0, 0, 0, 0⟩) (cur.getD (i + 1) ⟨0, 0, 0, 0⟩) dt)]
  · simp [stepChain]
  · intro i hi
    rw [List.mem_range] at hi
    unfold stepPoint
    by_cases h0 : i = 0
    · simp [h0]
    · by_cases h12 : i = ROPE_SEGMENTS
      · simp [h12, ROPE_SEGMENTS]
      · have hi1 : i + 1 < cur.length := by
          simp only [ROPE_SEGMENTS] at h12 hlen hi
          omega
        simp only [h0, h12, if_false]
        rw [getElem_opt_eq_getD cur (i - 1) (by omega) ⟨0, 0, 0, 0⟩,
          getElem_opt_eq_getD cur i (by omega) ⟨0, 0, 0, 0⟩,
          getElem_opt_eq_getD cur (i + 1) hi1 ⟨0, 0, 0, 0⟩]

theorem initPoints_length (fromX fromY dx dy : ℚ) :
    (initPoints fromX fromY dx dy).length = ROPE_SEGMENTS + 1 := by
  unfold initPoints
  rw [List.length_map, List.length_range]

/-- For two positioned notes and a previous chain that is absent or has at least
`ROPE_SEGMENTS + 1` points, `simulateRopePhysics` returns the chain `stepChain`
of the working points. -/
theorem simulateRopePhysics_eq (fromNote toNote : Note) (pa pb : Position)
    (hfrom : fromNote.position = some pa) (hto : toNote.position = some pb)
    (cur : Option Chain) (hcur : ∀ pts, cur = some pts → ROPE_SEGMENTS + 1 ≤ pts.length)
    (deltaTime : ℚ) :
    simulateRopePhysics (some fromNote) (some toNote) cur deltaTime
      = .ok (some (stepChain (workingPoints (anchor pa) (anchor pb) cur)
          (anchor pa) (anchor pb) (min deltaTime 1))) := by
  unfold simulateRopePhysics
  simp only [Option.bind, hfrom, hto]
  cases cur with
  | none =>
    simp only []
    rw [pushLoop_stepPoint _ (by rw [initPoints_length])]
    rfl
  | some pts =>
    simp only []
    rw [pushLoop_stepPoint _ (hcur pts rfl)]
    rfl

theorem stepChain_length (cur : Chain) (a b : Position) (dt : ℚ) :
    (stepChain cur a b dt).length = ROPE_SEGMENTS + 1 := by
  unfold stepChain
  rw [List.length_map, List.length_range]

theorem stepChain_zero (cur : Chain) (a b : Position) (dt : ℚ) :
    (stepChain cur a b dt)[0]? = some { x := a.x, y := a.y, vx := 0, vy := 0 } := by
  simp [stepChain, List.getElem?_map, List.getElem?_range, ROPE_SEGMENTS]

theorem stepChain_last (cur : Chain) (a b : Position) (dt : ℚ) :
    (stepChain cur a b dt)[12]? = some { x := b.x, y := b.y, vx := 0, vy := 0 } := by
  simp [stepChain, List.getElem?_map, List.getElem?_range, ROPE_SEGMENTS]

theorem stepChain_free (cur : Chain) (a b : Position) (dt : ℚ) (i : Nat)
    (h1 : 1 ≤ i) (h11 : i ≤ 11) :
    (stepChain cur a b dt)[i]? = some (freePoint (cur.getD (i - 1) ⟨0, 0, 0, 0⟩)
      (cur.getD i ⟨0, 0, 0, 0⟩) (cur.getD (i + 1) ⟨0, 0, 0, 0⟩) dt) := by
  have hlt : i < ROPE_SEGMENTS + 1 := by simp only [ROPE_SEGMENTS]; omega
  have h0 : i ≠ 0 := by omega
  have h12 : i ≠ ROPE_SEGMENTS := by simp only [ROPE_SEGMENTS]; omega
  simp [stepChain, List.getElem?_map, List.getElem?_range, hlt, h0, h12]

theorem limitVelocity_abs_le (v : ℚ) : |limitVelocity v| ≤ MAX_VELOCITY := by
  unfold limitVelocity MAX_VELOCITY
  rw [abs_le]
  constructor
  · exact le_max_left _ _
  · exact max_le (by norm_num) (min_le_left _ _)

/-! ## Rope integrator: the claims -/

/-- C1 (pin invariant). For two notes that both have a position, every previous
chain (absent, or 13 points with arbitrary positions and velocities) and every
`deltaTime`, `simulateRopePhysics` returns a chain whose point 0 is anchor A
(`fromNote.position + (140, 100)`) and whose point 12 is anchor B
(`toNote.position + (140, 100)`), both with velocity `(0, 0)`. -/
theorem C1_pin_invariant (fromNote toNote : Note) (pa pb : Position)
    (hfrom : fromNote.position = some pa) (hto : toNote.position = some pb)
    (cur : Option Chain) (hcur : ∀ pts, cur = some pts → pts.length = 13)
    (deltaTime : ℚ) :
    ∃ newPoints : Chain,
      simulateRopePhysics (some fromNote) (some toNote) cur deltaTime = .ok (some newPoints)
      ∧ newPoints[0]? = some { x := pa.x + 140, y := pa.y + 100, vx := 0, vy := 0 }
      ∧ newPoints[12]? = some { x := pb.x + 140, y := pb.y + 100, vx := 0, vy := 0 } := by
  refine ⟨_, simulateRopePhysics_eq fromNote toNote pa pb hfrom hto cur ?_ deltaTime, ?_, ?_⟩
  · intro pts h
    rw [hcur pts h, ROPE_SEGMENTS]
  · rw [stepChain_zero]
    rfl
  · rw [stepChain_last]
    rfl

/-- Witness of C1: a previous chain of 13 fast points pinned nowhere, elapsed
time 5. -/
theorem C1_pin_invariant_witness :
    ∃ newPoints : Chain,
      simulateRopePhysics (some sampleNoteA) (some sampleNoteB) (some sampleChain) 5
        = .ok (some newPoints)
      ∧ newPoints[0]? = some { x := -140 + 140, y := -100 + 100, vx := 0, vy := 0 }
      ∧ newPoints[12]? = some { x := 140 + 140, y := -100 + 100, vx := 0, vy := 0 } :=
  C1_pin_invariant sampleNoteA sampleNoteB ⟨-140, -100⟩ ⟨140, -100⟩ rfl rfl
    (some sampleChain) (fun pts h => by cases h; rfl) 5

/-- C2 (velocity bound). For two positioned notes, every previous chain (absent,
or 13 points with arbitrary velocities) and every `deltaTime`, every free point
`i` in `1..11` of the returned chain has `|vx| ≤ MAX_VELOCITY` and
`|vy| ≤ MAX_VELOCITY`, where `MAX_VELOCITY = 10`. -/
theorem C2_velocity_bound (fromNote toNote : Note) (pa pb : Position)
    (hfrom : fromNote.position = some pa) (hto : toNote.position = some pb)
    (cur : Option Chain) (hcur : ∀ pts, cur = some pts → pts.length = 13)
    (deltaTime : ℚ) :
    MAX_VELOCITY = 10 ∧
    ∃ newPoints : Chain,
      simulateRopePhysics (some fromNote) (some toNote) cur deltaTime = .ok (some newPoints)
      ∧ ∀ i : Nat, 1 ≤ i → i ≤ 11 →
          ∃ p : MassPoint, newPoints[i]? = some p
            ∧ |p.vx| ≤ MAX_VELOCITY ∧ |p.vy| ≤ MAX_VELOCITY := by
  refine ⟨rfl, _, simulateRopePhysics_eq fromNote toNote pa pb hfrom hto cur ?_ deltaTime, ?_⟩
  · intro pts h
    rw [hcur pts h, ROPE_SEGMENTS]
  · intro i h1 h11
    refine ⟨_, stepChain_free _ _ _ _ i h1 h11, ?_, ?_⟩
    · exact limitVelocity_abs_le _
    · exact limitVelocity_abs_le _

/-- Witness of C2: a previous chain whose velocities are `(250, -400)`. -/
theorem C2_velocity_bound_witness :
    MAX_VELOCITY = 10 ∧
    ∃ newPoints : Chain,
      simulateRopePhysics (some sampleNoteA) (some sampleNoteB) (some sampleChain) 5
        = .ok (some newPoints)
      ∧ ∀ i : Nat, 1 ≤ i → i ≤ 11 →
          ∃ p : MassPoint, newPoints[i]? = some p
            ∧ |p.vx| ≤ MAX_VELOCITY ∧ |p.vy| ≤ MAX_VELOCITY :=
  C2_velocity_bound sampleNoteA sampleNoteB ⟨-140, -100⟩ ⟨140, -100⟩ rfl rfl
    (some sampleChain) (fun pts h => by cases h; rfl) 5

theorem initPoints_getD (fromX fromY dx dy : ℚ) (i : Nat) (hi : i ≤ 12) :
    (initPoints fromX fromY dx dy).getD i ⟨0, 0, 0, 0⟩
      = { x := fromX + dx * ((i : ℚ) / 12), y := fromY + dy * ((i : ℚ) / 12),
          vx := 0, vy := 0 } := by
  have hlt : i < 13 := by omega
  simp [initPoints, List.getD, List.getElem?_map, List.getElem?_range, hlt, ROPE_SEGMENTS]

/-- C4 (free-point update). For a previous chain `p` of 13 points and every free
index `i` in `1..11`, the returned point `i` has, per axis, velocity
`v' = clamp to [-10, 10] of (v_i + (0.15 * ((p[i-1] - p[i]) + (p[i+1] - p[i]))
- 0.85 * v_i + g) * dt)` with `g = 0.15` on the y axis and `0` on the x axis and
`dt = min(deltaTime, 1)`, and position `p[i] + v' * dt`; every value on the
right-hand side is read from the previous chain `p`. -/
theorem C4_free_point_update (fromNote toNote : Note) (pa pb : Position)
    (hfrom : fromNote.position = some pa) (hto : toNote.position = some pb)
    (p : Chain) (hp : p.length = 13) (deltaTime : ℚ) (i : Nat)
    (h1 : 1 ≤ i) (h11 : i ≤ 11) :
    ∃ (newPoints : Chain) (prev self next : MassPoint),
      simulateRopePhysics (some fromNote) (some toNote) (some p) deltaTime
        = .ok (some newPoints)
      ∧ p[i - 1]? = some prev ∧ p[i]? = some self ∧ p[i + 1]? = some next
      ∧ newPoints[i]? = some
          { x := self.x + max (-10) (min 10 (self.vx +
                (0.15 * ((prev.x - self.x) + (next.x - self.x)) - 0.85 * self.vx + 0)
                  * min deltaTime 1)) * min deltaTime 1
            y := self.y + max (-10) (min 10 (self.vy +
                (0.15 * ((prev.y - self.y) + (next.y - self.y)) - 0.85 * self.vy + 0.15)
                  * min deltaTime 1)) * min deltaTime 1
            vx := max (-10) (min 10 (self.vx +
                (0.15 * ((prev.x - self.x) + (next.x - self.x)) - 0.85 * self.vx + 0)
                  * min deltaTime 1))
            vy := max (-10) (min 10 (self.vy +
                (0.15 * ((prev.y - self.y) + (next.y - self.y)) - 0.85 * self.vy + 0.15)
                  * min deltaTime 1)) } := by
  refine ⟨_, p.getD (i - 1) ⟨0, 0, 0, 0⟩, p.getD i ⟨0, 0, 0, 0⟩, p.getD (i + 1) ⟨0, 0, 0, 0⟩,
    simulateRopePhysics_eq fromNote toNote pa pb hfrom hto (some p) ?_ deltaTime,
    getElem_opt_eq_getD p _ (by omega) _, getElem_opt_eq_getD p _ (by omega) _,
    getElem_opt_eq_getD p _ (by omega) _, ?_⟩
  · intro pts h
    cases h
    rw [hp, ROPE_SEGMENTS]
  · rw [stepChain_free _ _ _ _ i h1 h11]
    simp only [workingPoints, freePoint, limitVelocity, MAX_VELOCITY, SPRING_STIFFNESS,
      SPRING_DAMPING, GRAVITY, Option.some.injEq, MassPoint.mk.injEq]
    have ex : ∀ a b c v d : ℚ, v + ((a - b + (c - b)) * (15 / 100) + -v * (85 / 100)) * d
        = v + (0.15 * ((a - b) + (c - b)) - 0.85 * v + 0) * d := by
      intro a b c v d
      have e15 : (0.15 : ℚ) = 15 / 100 := by norm_num
      have e85 : (0.85 : ℚ) = 85 / 100 := by norm_num
      rw [e15, e85]
      ring
    have ey : ∀ a b c v d : ℚ,
        v + ((a - b + (c - b)) * (15 / 100) + -v * (85 / 100) + 15 / 100) * d
        = v + (0.15 * ((a - b) + (c - b)) - 0.85 * v + 0.15) * d := by
      intro a b c v d
      have e15 : (0.15 : ℚ) = 15 / 100 := by norm_num
      have e85 : (0.85 : ℚ) = 85 / 100 := by norm_num
      rw [e15, e85]
      ring
    rw [ex, ey]
    exact ⟨rfl, rfl, rfl, rfl⟩

/-- Witness of C4: free index 6 of a chain of 13 points. -/
theorem C4_free_point_update_witness :
    ∃ (newPoints : Chain) (prev self next : MassPoint),
      simulateRopePhysics (some sampleNoteA) (some sampleNoteB) (some sampleChain) 5
        = .ok (some newPoints)
      ∧ sampleChain[6 - 1]? = some prev ∧ sampleChain[6]? = some self
      ∧ sampleChain[6 + 1]? = some next
      ∧ newPoints[6]? = some
          { x := self.x + max (-10) (min 10 (self.vx +
                (0.15 * ((prev.x - self.x) + (next.x - self.x)) - 0.85 * self.vx + 0)
                  * min 5 1)) * min 5 1
            y := self.y + max (-10) (min 10 (self.vy +
                (0.15 * ((prev.y - self.y) + (next.y - self.y)) - 0.85 * self.vy + 0.15)
                  * min 5 1)) * min 5 1
            vx := max (-10) (min 10 (self.vx +
                (0.15 * ((prev.x - self.x) + (next.x - self.x)) - 0.85 * self.vx + 0)
                  * min 5 1))
            vy := max (-10) (min 10 (self.vy +
                (0.15 * ((prev.y - self.y) + (next.y - self.y)) - 0.85 * self.vy + 0.15)
                  * min 5 1)) } :=
  C4_free_point_update sampleNoteA sampleNoteB ⟨-140, -100⟩ ⟨140, -100⟩ rfl rfl
    sampleChain rfl 5 6 (by decide) (by decide)

theorem limitVelocity_zero : limitVelocity 0 = 0 := by
  unfold limitVelocity MAX_VELOCITY
  rw [min_eq_right (by norm_num), max_eq_right (by norm_num)]

/-- One step from the straight line in exact arithmetic: the spring forces cancel,
so a free point keeps its `x`, gets the velocity `limitVelocity (GRAVITY * dt)` on
the y axis and moves by it. -/
theorem stepChain_initPoints_free (a b : Position) (dt : ℚ) (i : Nat)
    (h1 : 1 ≤ i) (h11 : i ≤ 11) :
    (stepChain (initPoints a.x a.y (b.x - a.x) (b.y - a.y)) a b dt)[i]? = some
      { x := a.x + (b.x - a.x) * ((i : ℚ) / 12)
        y := a.y + (b.y - a.y) * ((i : ℚ) / 12) + limitVelocity (GRAVITY * dt) * dt
        vx := 0
        vy := limitVelocity (GRAVITY * dt) } := by
  rw [stepChain_free _ _ _ _ i h1 h11, initPoints_getD _ _ _ _ _ (by omega),
    initPoints_getD _ _ _ _ _ (by omega), initPoints_getD _ _ _ _ _ (by omega)]
  have hc : ((i - 1 : Nat) : ℚ) = (i : ℚ) - 1 := by
    rw [Nat.cast_sub h1]
    simp
  have hx : (0 : ℚ) + (((a.x + (b.x - a.x) * (((i - 1 : Nat) : ℚ) / 12))
      - (a.x + (b.x - a.x) * ((i : ℚ) / 12))
      + ((a.x + (b.x - a.x) * (((i + 1 : Nat) : ℚ) / 12))
      - (a.x + (b.x - a.x) * ((i : ℚ) / 12)))) * SPRING_STIFFNESS
      + -0 * SPRING_DAMPING) * dt = 0 := by
    rw [hc]
    push_cast
    ring
  have hy : (0 : ℚ) + (((a.y + (b.y - a.y) * (((i - 1 : Nat) : ℚ) / 12))
      - (a.y + (b.y - a.y) * ((i : ℚ) / 12))
      + ((a.y + (b.y - a.y) * (((i + 1 : Nat) : ℚ) / 12))
      - (a.y + (b.y - a.y) * ((i : ℚ) / 12)))) * SPRING_STIFFNESS
      + -0 * SPRING_DAMPING + GRAVITY) * dt = GRAVITY * dt := by
    rw [hc]
    push_cast
    ring
  simp only [freePoint, hx, hy, limitVelocity_zero, zero_mul, add_zero]

/-- C5, as amended. When `simulateRopePhysics` is called with no previous chain it
builds the 13 points `fromX + dx * (i / 12)`, `fromY + dy * (i / 12)` between
anchor A and anchor B with zero velocity and returns the result of one
integration step from them, not these points themselves: points 0 and 12 are the
anchors with zero velocity, and every free point `i` is the free-point update of
the built points `i - 1`, `i`, `i + 1` with `dt = min(deltaTime, 1)`, so gravity
has already acted on it. When the two anchors have the same `y`, every free point
has `vy = clamp to [-10, 10] of (0.15 * dt)` and `y = A.y + vy * dt`. -/
theorem C5_initialization_amended (fromNote toNote : Note) (pa pb : Position)
    (hfrom : fromNote.position = some pa) (hto : toNote.position = some pb)
    (deltaTime : ℚ) :
    ∃ newPoints straight : Chain,
      simulateRopePhysics (some fromNote) (some toNote) none deltaTime = .ok (some newPoints)
      ∧ simulateRopePhysics (some fromNote) (some toNote) (some straight) deltaTime
          = .ok (some newPoints)
      ∧ (∀ i : Nat, i ≤ 12 → straight[i]? = some
          { x := (pa.x + 140) + ((pb.x + 140) - (pa.x + 140)) * ((i : ℚ) / 12)
            y := (pa.y + 100) + ((pb.y + 100) - (pa.y + 100)) * ((i : ℚ) / 12)
            vx := 0, vy := 0 })
      ∧ newPoints[0]? = some { x := pa.x + 140, y := pa.y + 100, vx := 0, vy := 0 }
      ∧ newPoints[12]? = some { x := pb.x + 140, y := pb.y + 100, vx := 0, vy := 0 }
      ∧ (∀ i : Nat, 1 ≤ i → i ≤ 11 →
          ∃ prevPoint point nextPoint : MassPoint,
            straight[i - 1]? = some prevPoint ∧ straight[i]? = some point
            ∧ straight[i + 1]? = some nextPoint
            ∧ newPoints[i]? = some (freePoint prevPoint point nextPoint (min deltaTime 1)))
      ∧ (pa.y = pb.y → ∀ i : Nat, 1 ≤ i → i ≤ 11 →
          ∃ moved : MassPoint, newPoints[i]? = some moved
            ∧ moved.vy = max (-10) (min 10 (0.15 * min deltaTime 1))
            ∧ moved.y = (pa.y + 100)
                + max (-10) (min 10 (0.15 * min deltaTime 1)) * min deltaTime 1) := by
  have hlen : ∀ i : Nat, i ≤ 12 →
      i < (initPoints (anchor pa).x (anchor pa).y ((anchor pb).x - (anchor pa).x)
        ((anchor pb).y - (anchor pa).y)).length := by
    intro i hi
    rw [initPoints_length, ROPE_SEGMENTS]
    omega
  refine ⟨_, initPoints (anchor pa).x (anchor pa).y ((anchor pb).x - (anchor pa).x)
      ((anchor pb).y - (anchor pa).y),
    simulateRopePhysics_eq fromNote toNote pa pb hfrom hto none ?_ deltaTime,
    simulateRopePhysics_eq fromNote toNote pa pb hfrom hto (some _) ?_ deltaTime,
    ?_, ?_, ?_, ?_, ?_⟩
  · intro pts h
    cases h
  · intro pts h
    cases h
    rw [initPoints_length]
  · intro i hi
    rw [getElem_opt_eq_getD _ i (hlen i hi) ⟨0, 0, 0, 0⟩, initPoints_getD _ _ _ _ i hi]
    rfl
  · rw [stepChain_zero]
    rfl
  · rw [stepChain_last]
    rfl
  · intro i h1 h11
    exact ⟨_, _, _, getElem_opt_eq_getD _ (i - 1) (hlen (i - 1) (by omega)) ⟨0, 0, 0, 0⟩,
      getElem_opt_eq_getD _ i (hlen i (by omega)) ⟨0, 0, 0, 0⟩,
      getElem_opt_eq_getD _ (i + 1) (hlen (i + 1) (by omega)) ⟨0, 0, 0, 0⟩,
      stepChain_free _ _ _ _ i h1 h11⟩
  · intro hy i h1 h11
    have hlv : limitVelocity (GRAVITY * min deltaTime 1)
        = max (-10) (min 10 (0.15 * min deltaTime 1)) := by
      have e15 : (0.15 : ℚ) = GRAVITY := by
        unfold GRAVITY
        norm_num
      rw [e15]
      rfl
    refine ⟨_, stepChain_initPoints_free (anchor pa) (anchor pb) (min deltaTime 1) i h1 h11,
      hlv, ?_⟩
    dsimp only
    rw [hlv]
    generalize max (-10 : ℚ) (min 10 (0.15 * min deltaTime 1)) = v
    simp only [anchor]
    rw [hy]
    ring

/-- Witness of C5 as amended: anchors `(0, 0)` and `(280, 0)`, elapsed time 1. -/
theorem C5_initialization_amended_witness :
    ∃ newPoints straight : Chain,
      simulateRopePhysics (some sampleNoteA) (some sampleNoteB) none 1 = .ok (some newPoints)
      ∧ simulateRopePhysics (some sampleNoteA) (some sampleNoteB) (some straight) 1
          = .ok (some newPoints)
      ∧ (∀ i : Nat, i ≤ 12 → straight[i]? = some
          { x := (-140 + 140) + ((140 + 140) - (-140 + 140)) * ((i : ℚ) / 12)
            y := (-100 + 100) + ((-100 + 100) - (-100 + 100)) * ((i : ℚ) / 12)
            vx := 0, vy := 0 })
      ∧ newPoints[0]? = some { x := -140 + 140, y := -100 + 100, vx := 0, vy := 0 }
      ∧ newPoints[12]? = some { x := 140 + 140, y := -100 + 100, vx := 0, vy := 0 }
      ∧ (∀ i : Nat, 1 ≤ i → i ≤ 11 →
          ∃ prevPoint point nextPoint : MassPoint,
            straight[i - 1]? = some prevPoint ∧ straight[i]? = some point
            ∧ straight[i + 1]? = some nextPoint
            ∧ newPoints[i]? = some (freePoint prevPoint point nextPoint (min 1 1)))
      ∧ ((-100 : ℚ) = -100 → ∀ i : Nat, 1 ≤ i → i ≤ 11 →
          ∃ moved : MassPoint, newPoints[i]? = some moved
            ∧ moved.vy = max (-10) (min 10 (0.15 * min 1 1))
            ∧ moved.y = (-100 + 100) + max (-10) (min 10 (0.15 * min 1 1)) * min 1 1) :=
  C5_initialization_amended sampleNoteA sampleNoteB ⟨-140, -100⟩ ⟨140, -100⟩ rfl rfl 1

/-- Counterexample to C5 as stated. For anchors `A = (0, 0)` and `B = (280, 0)`, no
previous chain and the default `deltaTime = 1`, the returned point 6 has
`y = 0.15` and `vy = 0.15`; it is not the point `(140, 0)` with velocity
`(0, 0)`. -/
theorem C5_initialization_counterexample :
    ∃ (newPoints : Chain) (moved : MassPoint),
      simulateRopePhysics (some sampleNoteA) (some sampleNoteB) none 1 = .ok (some newPoints)
      ∧ newPoints[6]? = some moved
      ∧ moved.y = 15 / 100 ∧ moved.vy = 15 / 100
      ∧ newPoints[6]? ≠ some { x := 140, y := 0, vx := 0, vy := 0 } := by
  have hstep := stepChain_initPoints_free (anchor ⟨-140, -100⟩) (anchor ⟨140, -100⟩)
    (min 1 1) 6 (by decide) (by decide)
  have hlim : limitVelocity (GRAVITY * min 1 1) = 15 / 100 := by
    unfold limitVelocity GRAVITY MAX_VELOCITY
    norm_num
  have h6 : (stepChain (workingPoints (anchor ⟨-140, -100⟩) (anchor ⟨140, -100⟩) none)
      (anchor ⟨-140, -100⟩) (anchor ⟨140, -100⟩) (min 1 1))[6]?
      = some { x := 140, y := 15 / 100, vx := 0, vy := 15 / 100 } := by
    rw [workingPoints, hstep, hlim]
    simp only [anchor]
    norm_num
  refine ⟨_, _, simulateRopePhysics_eq sampleNoteA sampleNoteB ⟨-140, -100⟩ ⟨140, -100⟩
    rfl rfl none (fun pts h => by cases h) 1, h6, rfl, rfl, ?_⟩
  rw [h6]
  intro h
  have hy := congrArg (fun q => q.map MassPoint.y) h
  simp at hy

/-! ## Rope state store and scheduler: helper lemmas -/

theorem RopeStates.get_set_self (s : RopeStates) (id : String) (points : Chain) :
    RopeStates.get (RopeStates.set s id points) id = some points := by
  induction s with
  | nil => simp [RopeStates.set, RopeStates.get]
  | cons e rest ih =>
    unfold RopeStates.set
    by_cases h : e.1 = id
    · simp [h, RopeStates.get]
    · simp only [h, if_false]
      simpa [RopeStates.get, h] using ih

theorem RopeStates.get_set_other (s : RopeStates) (id other : String) (points : Chain)
    (hne : other ≠ id) :
    RopeStates.get (RopeStates.set s id points) other = RopeStates.get s other := by
  induction s with
  | nil => simp [RopeStates.set, RopeStates.get, Ne.symm hne]
  | cons e rest ih =>
    unfold RopeStates.set
    by_cases h : e.1 = id
    · have h2 : ¬ e.1 = other := fun h3 => hne (h3.symm.trans h)
      simp [h, RopeStates.get, Ne.symm hne, h2, List.find?_cons]
    · simp only [h, if_false]
      by_cases h2 : e.1 = other
      · simp [RopeStates.get, h2]
      · simpa [RopeStates.get, h2, List.find?_cons] using ih

theorem RopeStates.get_delete_self (s : RopeStates) (id : String) :
    RopeStates.get (RopeStates.delete s id) id = none := by
  unfold RopeStates.get RopeStates.delete
  rw [List.find?_filter]
  have hnone : List.find? (fun e : String × Chain =>
      decide (decide (e.1 ≠ id) = true ∧ decide (e.1 = id) = true)) s = none := by
    rw [List.find?_eq_none]
    intro e _
    by_cases h : e.1 = id <;> simp [h]
  rw [hnone]
  rfl

theorem RopeStates.get_delete_other (s : RopeStates) (id other : String) (hne : other ≠ id) :
    RopeStates.get (RopeStates.delete s id) other = RopeStates.get s other := by
  unfold RopeStates.get RopeStates.delete
  rw [List.find?_filter]
  have hfun : (fun e : String × Chain =>
      decide (decide (e.1 ≠ id) = true ∧ decide (e.1 = other) = true))
      = (fun e : String × Chain => decide (e.1 = other)) := by
    funext e
    by_cases h : e.1 = other
    · have h2 : e.1 ≠ id := fun h3 => hne (h.symm.trans h3)
      simp [h, h2, hne]
    · simp [h]
  rw [hfun]

/-- Whatever its arguments, a chain returned by `simulateRopePhysics` has
`ROPE_SEGMENTS + 1` points. -/
theorem simulateRopePhysics_length (fromNote toNote : Option Note) (cur : Option Chain)
    (deltaTime : ℚ) (newPoints : Chain)
    (h : simulateRopePhysics fromNote toNote cur deltaTime = .ok (some newPoints)) :
    newPoints.length = ROPE_SEGMENTS + 1 := by
  unfold simulateRopePhysics at h
  split at h
  · simp only [] at h
    split at h
    · rename_i pts hpts
      have hlen := pushLoop_ok_length _ _ _ _ hpts
      simp only [Except.ok.injEq, Option.some.injEq] at h
      rw [← h, hlen]
      simp
    · simp at h
  · simp at h

theorem tickConnection_writes (notes : List Note) (deltaTime : ℚ) (before : RopeStates)
    (acc acc1 : RopeStates × Bool) (connection : Connection)
    (hacc : WritesFullChains before acc.1)
    (h : tickConnection notes deltaTime acc connection = .ok acc1) :
    WritesFullChains before acc1.1 := by
  unfold tickConnection at h
  dsimp only at h
  split at h
  · split at h
    · simp at h
    · rename_i points hsim
      simp only [Except.ok.injEq] at h
      subst h
      intro id pts hget
      by_cases hid : id = connection.id
      · subst hid
        rw [RopeStates.get_set_self] at hget
        cases hget
        exact Or.inr (simulateRopePhysics_length _ _ _ _ _ hsim)
      · rw [RopeStates.get_set_other _ _ _ _ hid] at hget
        exact hacc id pts hget
    · simp only [Except.ok.injEq] at h
      subst h
      exact hacc
  · simp only [Except.ok.injEq] at h
    subst h
    intro id pts hget
    by_cases hid : id = connection.id
    · subst hid
      rw [RopeStates.get_delete_self] at hget
      cases hget
    · rw [RopeStates.get_delete_other _ _ _ hid] at hget
      exact hacc id pts hget

theorem forEachConnection_writes (notes : List Note) (deltaTime : ℚ) (before : RopeStates) :
    ∀ (connections : List Connection) (acc acc1 : RopeStates × Bool),
      WritesFullChains before acc.1 →
      forEachConnection notes deltaTime connections acc = .ok acc1 →
      WritesFullChains before acc1.1
  | [], acc, acc1, hacc, h => by
      simp only [forEachConnection, Except.ok.injEq] at h
      subst h
      exact hacc
  | connection :: rest, acc, acc1, hacc, h => by
      unfold forEachConnection at h
      split at h
      · rename_i acc2 htick
        exact forEachConnection_writes notes deltaTime before rest acc2 acc1
          (tickConnection_writes notes deltaTime before acc acc2 connection hacc htick) h
      · simp at h

theorem animate_writes (notes : List Note) (filteredConnections : List Connection)
    (s s1 : SchedulerState) (currentTime now : ℚ) (notified : List Notification)
    (h : animate notes filteredConnections s currentTime now = .ok (s1, notified)) :
    WritesFullChains s.ropeStates s1.ropeStates := by
  have hrefl : WritesFullChains s.ropeStates s.ropeStates := fun _ _ hget => Or.inl hget
  unfold animate at h
  dsimp only at h
  by_cases hacc : currentTime - s.lastFrameTime
      ≥ (if s.isDragging then DRAG_THROTTLE_MS else IDLE_THROTTLE_MS)
  · rw [if_pos hacc] at h
    by_cases hlen : filteredConnections.length > 0
    · rw [if_pos hlen] at h
      split at h
      · simp at h
      · rename_i ropeStates hasChanges hloop
        simp only [Except.ok.injEq, Prod.mk.injEq] at h
        rw [← h.1]
        exact forEachConnection_writes notes _ s.ropeStates filteredConnections _ _ hrefl hloop
    · rw [if_neg hlen] at h
      simp only [Except.ok.injEq, Prod.mk.injEq] at h
      rw [← h.1]
      exact hrefl
  · rw [if_neg hacc] at h
    simp only [Except.ok.injEq, Prod.mk.injEq] at h
    rw [← h.1]
    exact hrefl

/-- A connection whose two notes are found with positions, and whose stored chain
is absent or has at least `ROPE_SEGMENTS + 1` points: the callback stores the
chain of `stepChain` and raises `hasChanges`. -/
theorem tickConnection_resolved (notes : List Note) (deltaTime : ℚ)
    (acc : RopeStates × Bool) (connection : Connection) (fromNote toNote : Note)
    (pa pb : Position)
    (hfind1 : notes.find? (fun note => note.id = connection.fromNoteId) = some fromNote)
    (hfind2 : notes.find? (fun note => note.id = connection.toNoteId) = some toNote)
    (hfrom : fromNote.position = some pa) (hto : toNote.position = some pb)
    (hcur : ∀ pts, RopeStates.get acc.1 connection.id = some pts →
      ROPE_SEGMENTS + 1 ≤ pts.length) :
    tickConnection notes deltaTime acc connection
      = .ok (RopeStates.set acc.1 connection.id
          (stepChain (workingPoints (anchor pa) (anchor pb)
            (RopeStates.get acc.1 connection.id)) (anchor pa) (anchor pb)
            (min deltaTime 1)), true) := by
  unfold tickConnection
  simp only [hfind1, hfind2]
  rw [simulateRopePhysics_eq fromNote toNote pa pb hfrom hto _ hcur deltaTime]

/-- The sample tick: `animate` at time 50 from `sampleState`. -/
theorem animate_sample :
    animate sampleNotes [sampleConnection] sampleState 50 50 = .ok (sampleStateAfter, []) := by
  have htick := tickConnection_resolved sampleNotes (50 - 0) (sampleState.ropeStates, false)
    sampleConnection sampleNoteA sampleNoteB ⟨-140, -100⟩ ⟨140, -100⟩
    (by simp [sampleNotes, sampleConnection, sampleNoteA])
    (by simp [sampleNotes, sampleConnection, sampleNoteA, sampleNoteB])
    rfl rfl
    (by
      intro pts h
      simp [sampleState, RopeStates.get, sampleConnection] at h
      rw [← h]
      simp [sampleChain, ROPE_SEGMENTS])
  have hge : (50 : ℚ) - 0 ≥ IDLE_THROTTLE_MS := by
    unfold IDLE_THROTTLE_MS
    norm_num
  have hrec : (PerformanceMonitor.new 0).recordFrame 50
      = ({ PerformanceMonitor.new 0 with frameCount := 1 }, []) := by
    simp [PerformanceMonitor.recordFrame, PerformanceMonitor.new]
    norm_num
  unfold animate
  simp only [sampleState, Bool.false_eq_true, if_false, hge, if_true, List.length_singleton,
    Nat.lt_one_iff, gt_iff_lt, Nat.zero_lt_one, forEachConnection, hrec]
  simp only [sampleState] at htick
  rw [htick]
  simp only [RopeStates.get, RopeStates.set, sampleConnection, workingPoints, anchor,
    List.find?, decide_True, Option.map, if_true, sampleStateAfter]
  norm_num

/-- C3 (length invariant). For two positioned notes and a previous chain that is
absent or has 13 points, `simulateRopePhysics` returns a chain of exactly
`ROPE_SEGMENTS + 1 = 13` points, the length of the previous chain; and every
chain found in the rope store after a scheduler tick either was stored there
before the tick or has 13 points. -/
theorem C3_length_invariant :
    (∀ (fromNote toNote : Note) (pa pb : Position),
      fromNote.position = some pa → toNote.position = some pb →
      ∀ (cur : Option Chain), (∀ pts, cur = some pts → pts.length = 13) →
      ∀ deltaTime : ℚ, ∃ newPoints : Chain,
        simulateRopePhysics (some fromNote) (some toNote) cur deltaTime = .ok (some newPoints)
        ∧ newPoints.length = ROPE_SEGMENTS + 1 ∧ newPoints.length = 13
        ∧ ∀ pts, cur = some pts → newPoints.length = pts.length)
    ∧ (∀ (notes : List Note) (filteredConnections : List Connection)
        (s s1 : SchedulerState) (currentTime now : ℚ) (notified : List Notification),
        animate notes filteredConnections s currentTime now = .ok (s1, notified) →
        ∀ (id : String) (points : Chain), RopeStates.get s1.ropeStates id = some points →
          RopeStates.get s.ropeStates id = some points ∨ points.length = 13) := by
  constructor
  · intro fromNote toNote pa pb hfrom hto cur hcur deltaTime
    refine ⟨_, simulateRopePhysics_eq fromNote toNote pa pb hfrom hto cur ?_ deltaTime,
      stepChain_length _ _ _ _, stepChain_length _ _ _ _, ?_⟩
    · intro pts h
      rw [hcur pts h, ROPE_SEGMENTS]
    · intro pts h
      rw [hcur pts h]
      exact stepChain_length _ _ _ _
  · intro notes filteredConnections s s1 currentTime now notified h id points hget
    exact animate_writes notes filteredConnections s s1 currentTime now notified h id points hget

/-- Witness of C3: a step from a previous chain of 13 points, and the sample tick
at time 50. -/
theorem C3_length_invariant_witness :
    (∃ newPoints : Chain,
      simulateRopePhysics (some sampleNoteA) (some sampleNoteB) (some sampleChain) 5
        = .ok (some newPoints)
      ∧ newPoints.length = ROPE_SEGMENTS + 1 ∧ newPoints.length = 13
      ∧ ∀ pts, some sampleChain = some pts → newPoints.length = pts.length)
    ∧ (∀ (id : String) (points : Chain),
        RopeStates.get sampleStateAfter.ropeStates id = some points →
          RopeStates.get sampleState.ropeStates id = some points ∨ points.length = 13) :=
  ⟨C3_length_invariant.1 sampleNoteA sampleNoteB ⟨-140, -100⟩ ⟨140, -100⟩ rfl rfl
      (some sampleChain) (fun pts h => by cases h; rfl) 5,
    C3_length_invariant.2 sampleNotes [sampleConnection] sampleState sampleStateAfter 50 50 []
      animate_sample⟩

/-! ## Performance monitor: helper lemmas -/

theorem averageOf_eq_sum (h : List ℚ) : averageOf h = h.sum / (h.length : ℚ) := by
  unfold averageOf
  rw [List.sum_eq_foldl]

/-- The history after `measure`: the sample is pushed and, beyond
`maxHistorySize` samples, the oldest one is dropped. -/
theorem measure_fpsHistory (m : PerformanceMonitor) (fps currentTime : ℚ) :
    (m.measure fps currentTime).1.fpsHistory = pushSample m.fpsHistory fps := by
  unfold PerformanceMonitor.measure
  dsimp only
  split_ifs <;> rfl

/-- A measurement that sees a low average in normal mode enters performance mode
and notifies every subscriber. -/
theorem measure_enter (m : PerformanceMonitor) (fps currentTime : ℚ)
    (hmode : m.performanceMode = false)
    (havg : averageOf (pushSample m.fpsHistory fps) < lowPerformanceThreshold) :
    (m.measure fps currentTime).1.performanceMode = true
    ∧ (m.measure fps currentTime).2.map (fun n => (n.callback, n.event))
        = m.callbacks.map (fun callback => (callback, "performance-mode-enabled")) := by
  unfold PerformanceMonitor.measure
  dsimp only
  simp only [hmode, havg, decide_True, Bool.not_false, Bool.and_self, if_true]
  simp [PerformanceMonitor.notifyCallbacks, Function.comp_def]

/-- A measurement that sees a high average in performance mode leaves it and
notifies every subscriber. -/
theorem measure_exit (m : PerformanceMonitor) (fps currentTime : ℚ)
    (hmode : m.performanceMode = true)
    (havg : averageOf (pushSample m.fpsHistory fps) > lowPerformanceThreshold + 10) :
    (m.measure fps currentTime).1.performanceMode = false
    ∧ (m.measure fps currentTime).2.map (fun n => (n.callback, n.event))
        = m.callbacks.map (fun callback => (callback, "performance-mode-disabled")) := by
  unfold PerformanceMonitor.measure
  dsimp only
  simp only [hmode, havg, decide_True, Bool.not_true, Bool.and_false, Bool.and_self,
    Bool.false_eq_true, if_false, if_true]
  simp [PerformanceMonitor.notifyCallbacks, Function.comp_def]

/-- A measurement that sees neither condition keeps the mode and notifies
nobody. -/
theorem measure_quiet (m : PerformanceMonitor) (fps currentTime : ℚ)
    (hlow : m.performanceMode = false →
      lowPerformanceThreshold ≤ averageOf (pushSample m.fpsHistory fps))
    (hhigh : m.performanceMode = true →
      averageOf (pushSample m.fpsHistory fps) ≤ lowPerformanceThreshold + 10) :
    (m.measure fps currentTime).1.performanceMode = m.performanceMode
    ∧ (m.measure fps currentTime).2 = [] := by
  unfold PerformanceMonitor.measure
  dsimp only
  cases hmode : m.performanceMode with
  | false =>
    have h1 := not_lt.mpr (hlow hmode)
    simp only [h1, decide_False, Bool.false_and, Bool.and_false, Bool.false_eq_true, if_false]
    exact ⟨trivial, trivial⟩
  | true =>
    have h2 := not_lt.mpr (hhigh hmode)
    simp only [gt_iff_lt, h2, decide_False, Bool.false_and, Bool.and_false, Bool.not_true,
      Bool.false_eq_true, if_false]
    exact ⟨trivial, trivial⟩

theorem recordFrame_of_ge (m : PerformanceMonitor) (currentTime : ℚ)
    (h : currentTime - m.lastTime ≥ 1000) :
    m.recordFrame currentTime
      = ({ m with frameCount := m.frameCount + 1 }).measure
          (jsRound ((((m.frameCount + 1 : Nat) : ℚ) * 1000) / (currentTime - m.lastTime)))
          currentTime := by
  unfold PerformanceMonitor.recordFrame
  simp only [h, if_true]

theorem recordFrame_of_lt (m : PerformanceMonitor) (currentTime : ℚ)
    (h : currentTime - m.lastTime < 1000) :
    m.recordFrame currentTime = ({ m with frameCount := m.frameCount + 1 }, []) := by
  unfold PerformanceMonitor.recordFrame
  simp only [ge_iff_le, not_le.mpr h, if_false]

/-- C6 (mode transition rule of `recordFrame`). At every measurement
(`currentTime - lastTime ≥ 1000`), with `avg` the mean of the history after the
new sample is pushed, the new `performanceMode` is `true` if the old mode was
`false` and `avg < 30`; `false` if the old mode was `true` and `avg > 40`; and the
old mode in every other case, in particular whenever `30 ≤ avg ≤ 40`. -/
theorem C6_mode_transition (m : PerformanceMonitor) (currentTime : ℚ)
    (hmeasure : currentTime - m.lastTime ≥ 1000) :
    ∃ (fps : ℚ) (history : List ℚ),
      fps = jsRound ((((m.frameCount + 1 : Nat) : ℚ) * 1000) / (currentTime - m.lastTime))
      ∧ history = (if (m.fpsHistory ++ [fps]).length > 60 then (m.fpsHistory ++ [fps]).tail
                   else m.fpsHistory ++ [fps])
      ∧ (m.recordFrame currentTime).1.fpsHistory = history
      ∧ (m.performanceMode = false → history.sum / (history.length : ℚ) < 30 →
          (m.recordFrame currentTime).1.performanceMode = true)
      ∧ (m.performanceMode = true → history.sum / (history.length : ℚ) > 40 →
          (m.recordFrame currentTime).1.performanceMode = false)
      ∧ (¬ (m.performanceMode = false ∧ history.sum / (history.length : ℚ) < 30) →
          ¬ (m.performanceMode = true ∧ history.sum / (history.length : ℚ) > 40) →
          (m.recordFrame currentTime).1.performanceMode = m.performanceMode)
      ∧ (30 ≤ history.sum / (history.length : ℚ) → history.sum / (history.length : ℚ) ≤ 40 →
          (m.recordFrame currentTime).1.performanceMode = m.performanceMode) := by
  have hthr : lowPerformanceThreshold = 30 := rfl
  have hthr10 : lowPerformanceThreshold + 10 = 40 := by
    rw [hthr]
    norm_num
  rw [recordFrame_of_ge m currentTime hmeasure]
  generalize jsRound ((((m.frameCount + 1 : Nat) : ℚ) * 1000) / (currentTime - m.lastTime)) = fps
  have hquiet : ¬ (m.performanceMode = false
        ∧ (pushSample m.fpsHistory fps).sum / ((pushSample m.fpsHistory fps).length : ℚ) < 30) →
      ¬ (m.performanceMode = true
        ∧ (pushSample m.fpsHistory fps).sum / ((pushSample m.fpsHistory fps).length : ℚ) > 40) →
      (({ m with frameCount := m.frameCount + 1 }).measure fps currentTime).1.performanceMode
        = m.performanceMode := by
    intro hn1 hn2
    refine (measure_quiet { m with frameCount := m.frameCount + 1 } fps currentTime ?_ ?_).1
    · intro hmode
      rw [averageOf_eq_sum, hthr]
      exact not_lt.mp (fun hlt => hn1 ⟨hmode, hlt⟩)
    · intro hmode
      rw [averageOf_eq_sum, hthr10]
      exact not_lt.mp (fun hlt => hn2 ⟨hmode, hlt⟩)
  refine ⟨fps, pushSample m.fpsHistory fps, rfl, rfl, ?_, ?_, ?_, hquiet, ?_⟩
  · exact measure_fpsHistory _ fps currentTime
  · intro hmode havg
    refine (measure_enter { m with frameCount := m.frameCount + 1 } fps currentTime hmode ?_).1
    rw [averageOf_eq_sum, hthr]
    exact havg
  · intro hmode havg
    refine (measure_exit { m with frameCount := m.frameCount + 1 } fps currentTime hmode ?_).1
    rw [averageOf_eq_sum, hthr10]
    exact havg
  · intro h30 h40
    exact hquiet (fun h => absurd h30 (not_le.mpr h.2)) (fun h => absurd h40 (not_le.mpr h.2))

/-- Witness of C6: the 60th sample lifts the average above 40 in performance
mode. -/
theorem C6_mode_transition_witness :
    ∃ (fps : ℚ) (history : List ℚ),
      fps = jsRound ((((sampleMonitor.frameCount + 1 : Nat) : ℚ) * 1000)
        / (1000 - sampleMonitor.lastTime))
      ∧ history = (if (sampleMonitor.fpsHistory ++ [fps]).length > 60
                   then (sampleMonitor.fpsHistory ++ [fps]).tail
                   else sampleMonitor.fpsHistory ++ [fps])
      ∧ (sampleMonitor.recordFrame 1000).1.fpsHistory = history
      ∧ (sampleMonitor.performanceMode = false → history.sum / (history.length : ℚ) < 30 →
          (sampleMonitor.recordFrame 1000).1.performanceMode = true)
      ∧ (sampleMonitor.performanceMode = true → history.sum / (history.length : ℚ) > 40 →
          (sampleMonitor.recordFrame 1000).1.performanceMode = false)
      ∧ (¬ (sampleMonitor.performanceMode = false ∧ history.sum / (history.length : ℚ) < 30) →
          ¬ (sampleMonitor.performanceMode = true ∧ history.sum / (history.length : ℚ) > 40) →
          (sampleMonitor.recordFrame 1000).1.performanceMode = sampleMonitor.performanceMode)
      ∧ (30 ≤ history.sum / (history.length : ℚ) → history.sum / (history.length : ℚ) ≤ 40 →
          (sampleMonitor.recordFrame 1000).1.performanceMode = sampleMonitor.performanceMode) :=
  C6_mode_transition sampleMonitor 1000 (by norm_num [sampleMonitor])

theorem jsRound_natCast (n : Nat) : jsRound (n : ℚ) = (n : ℚ) := by
  unfold jsRound
  have h : ⌊(n : ℚ) + 1 / 2⌋ = (n : ℤ) := by
    rw [Int.floor_eq_iff]
    constructor
    · push_cast
      linarith
    · push_cast
      linarith
  rw [h]
  simp

theorem measure_frameCount (m : PerformanceMonitor) (fps currentTime : ℚ) :
    (m.measure fps currentTime).1.frameCount = 0 := by
  unfold PerformanceMonitor.measure
  rfl

theorem measure_lastTime (m : PerformanceMonitor) (fps currentTime : ℚ) :
    (m.measure fps currentTime).1.lastTime = currentTime := by
  unfold PerformanceMonitor.measure
  rfl

theorem measure_callbacks (m : PerformanceMonitor) (fps currentTime : ℚ) :
    (m.measure fps currentTime).1.callbacks = m.callbacks := by
  unfold PerformanceMonitor.measure
  dsimp only
  split_ifs <;> rfl

theorem recordFrames_cons (m : PerformanceMonitor) (t : ℚ) (ts : List ℚ) :
    m.recordFrames (t :: ts)
      = (((m.recordFrame t).1.recordFrames ts).1,
          (m.recordFrame t).2 ++ ((m.recordFrame t).1.recordFrames ts).2) := rfl

theorem recordFrames_append (m : PerformanceMonitor) (ts us : List ℚ) :
    m.recordFrames (ts ++ us)
      = ((((m.recordFrames ts).1).recordFrames us).1,
          (m.recordFrames ts).2 ++ (((m.recordFrames ts).1).recordFrames us).2) := by
  induction ts generalizing m with
  | nil => simp [PerformanceMonitor.recordFrames]
  | cons t ts ih =>
    rw [List.cons_append, recordFrames_cons, ih, recordFrames_cons]
    simp [List.append_assoc]

/-- The frames of a window up to its last one only count; the last one measures
the sample `frames`. -/
theorem recordFrames_frameTimes (start : ℚ) (frames : Nat) :
    ∀ (count k : Nat) (m : PerformanceMonitor), 0 < count → k + count = frames →
      m.frameCount = k → m.lastTime = start →
      m.recordFrames (frameTimes start frames k count)
        = ({ m with frameCount := frames }).measure (frames : ℚ) (start + 1000)
  | 0, _, _, h, _, _, _ => absurd h (Nat.lt_irrefl 0)
  | count + 1, k, m, _, hsum, hk, hstart => by
      have hframes : (0 : ℚ) < (frames : ℚ) := by
        have : 0 < frames := by omega
        exact_mod_cast this
      have hdelta : start + ((k : ℚ) + 1) * (1000 / (frames : ℚ)) - m.lastTime
          = ((k : ℚ) + 1) * 1000 / (frames : ℚ) := by
        rw [hstart]
        ring
      by_cases hc : count = 0
      · subst hc
        have hk1 : ((k : ℚ) + 1) = (frames : ℚ) := by
          have : k + 1 = frames := by omega
          exact_mod_cast this
        have hge : start + ((k : ℚ) + 1) * (1000 / (frames : ℚ)) - m.lastTime ≥ 1000 := by
          rw [hdelta, hk1]
          have hcancel : (frames : ℚ) * 1000 / (frames : ℚ) = 1000 := by field_simp
          rw [hcancel]
        simp only [frameTimes, PerformanceMonitor.recordFrames, List.append_nil]
        rw [recordFrame_of_ge m _ hge, hdelta]
        have hfc : m.frameCount + 1 = frames := by omega
        have hval : (((m.frameCount + 1 : Nat) : ℚ) * 1000) / (((k : ℚ) + 1) * 1000 / (frames : ℚ))
            = (frames : ℚ) := by
          rw [hfc, hk1]
          field_simp
        rw [hval, jsRound_natCast, hfc, hk1]
        have ht : start + (frames : ℚ) * (1000 / (frames : ℚ)) = start + 1000 := by
          field_simp
        rw [ht]
      · have hlt : start + ((k : ℚ) + 1) * (1000 / (frames : ℚ)) - m.lastTime < 1000 := by
          rw [hdelta, div_lt_iff₀ hframes]
          have : ((k : ℚ) + 1) < (frames : ℚ) := by
            have : k + 1 < frames := by omega
            exact_mod_cast this
          nlinarith
        simp only [frameTimes, PerformanceMonitor.recordFrames]
        rw [recordFrame_of_lt m _ hlt]
        simp only [List.nil_append]
        have ih := recordFrames_frameTimes start frames count (k + 1)
          { m with frameCount := m.frameCount + 1 } (by omega) (by omega)
          (by simp [hk]) hstart
        rw [ih]

theorem measureSteady_succ (fps windows : Nat) (m : PerformanceMonitor) :
    measureSteady fps (windows + 1) m
      = ((measureSteady fps windows
            (({ m with frameCount := fps }).measure (fps : ℚ) (m.lastTime + 1000)).1).1,
          (({ m with frameCount := fps }).measure (fps : ℚ) (m.lastTime + 1000)).2
            ++ (measureSteady fps windows
              (({ m with frameCount := fps }).measure (fps : ℚ) (m.lastTime + 1000)).1).2) :=
  rfl

/-- The run of `recordFrame` over `windows` windows of `fps` frames each makes
exactly `windows` measurements, each of the sample `fps`. -/
theorem recordFrames_steadyTimes (fps : Nat) (hfps : 0 < fps) :
    ∀ (windows : Nat) (m : PerformanceMonitor), m.frameCount = 0 →
      m.recordFrames (steadyTimes fps windows m.lastTime) = measureSteady fps windows m
  | 0, m, _ => rfl
  | windows + 1, m, h0 => by
      rw [steadyTimes, recordFrames_append, windowTimes,
        recordFrames_frameTimes m.lastTime fps fps 0 m hfps (by omega) h0 rfl,
        measureSteady_succ]
      have ih := recordFrames_steadyTimes fps hfps windows
        (({ m with frameCount := fps }).measure (fps : ℚ) (m.lastTime + 1000)).1
        (measure_frameCount _ _ _)
      rw [measure_lastTime] at ih
      rw [ih]

theorem measureSteady_add (fps : Nat) :
    ∀ (a b : Nat) (m : PerformanceMonitor),
      measureSteady fps (a + b) m
        = ((measureSteady fps b (measureSteady fps a m).1).1,
            (measureSteady fps a m).2 ++ (measureSteady fps b (measureSteady fps a m).1).2)
  | 0, b, m => by simp [measureSteady]
  | a + 1, b, m => by
      have e : a + 1 + b = (a + b) + 1 := by omega
      rw [e, measureSteady_succ, measureSteady_succ, measureSteady_add fps a b]
      simp [List.append_assoc]

theorem measureSteady_lastTime (fps : Nat) :
    ∀ (windows : Nat) (m : PerformanceMonitor),
      (measureSteady fps windows m).1.lastTime = m.lastTime + 1000 * (windows : ℚ)
  | 0, m => by simp [measureSteady]
  | windows + 1, m => by
      rw [measureSteady_succ]
      simp only []
      rw [measureSteady_lastTime fps windows, measure_lastTime]
      push_cast
      ring

theorem measureSteady_frameCount (fps : Nat) :
    ∀ (windows : Nat) (m : PerformanceMonitor), m.frameCount = 0 →
      (measureSteady fps windows m).1.frameCount = 0
  | 0, _, h => h
  | windows + 1, m, _ => by
      rw [measureSteady_succ]
      exact measureSteady_frameCount fps windows _ (measure_frameCount _ _ _)

theorem pushSample_of_lt (h : List ℚ) (fps : ℚ) (hlen : h.length < maxHistorySize) :
    pushSample h fps = h ++ [fps] := by
  unfold pushSample
  have hn : ¬ (h ++ [fps]).length > maxHistorySize := by
    rw [List.length_append, List.length_singleton]
    omega
  simp only [hn, if_false]

theorem pushSample_of_full (h : List ℚ) (fps : ℚ) (hlen : h.length = maxHistorySize) :
    pushSample h fps = h.tail ++ [fps] := by
  unfold pushSample
  have hn : (h ++ [fps]).length > maxHistorySize := by
    rw [List.length_append, List.length_singleton]
    omega
  simp only [hn, if_true]
  cases h with
  | nil => simp [maxHistorySize] at hlen
  | cons x xs => rfl

/-- While the history fills up with a sample not above 40, a monitor in
performance mode stays there silently. -/
theorem measureSteady_fill (fps : Nat) (hfps : (fps : ℚ) ≤ 40) :
    ∀ (windows b : Nat) (m : PerformanceMonitor),
      m.fpsHistory = List.replicate b (fps : ℚ) → 1 ≤ b → b + windows ≤ 60 →
      m.performanceMode = true →
      (measureSteady fps windows m).2 = []
      ∧ (measureSteady fps windows m).1.performanceMode = true
      ∧ (measureSteady fps windows m).1.fpsHistory = List.replicate (b + windows) (fps : ℚ)
      ∧ (measureSteady fps windows m).1.callbacks = m.callbacks
  | 0, b, m, hh, _, _, hmode => ⟨rfl, hmode, hh, rfl⟩
  | windows + 1, b, m, hh, hb, hbw, hmode => by
      have hpush : pushSample m.fpsHistory (fps : ℚ) = List.replicate (b + 1) (fps : ℚ) := by
        rw [pushSample_of_lt _ _ (by rw [hh, List.length_replicate, maxHistorySize]; omega), hh]
        exact (List.replicate_succ' _ _).symm
      have havg : averageOf (pushSample m.fpsHistory (fps : ℚ)) = (fps : ℚ) := by
        rw [hpush, averageOf_eq_sum, List.sum_replicate, List.length_replicate, nsmul_eq_mul]
        have : ((b + 1 : Nat) : ℚ) ≠ 0 := by positivity
        field_simp
      have hq := measure_quiet { m with frameCount := fps } (fps : ℚ) (m.lastTime + 1000)
        (fun hf => by rw [show m.performanceMode = true from hmode] at hf; cases hf)
        (fun _ => by
          rw [havg]
          unfold lowPerformanceThreshold
          linarith)
      have ih := measureSteady_fill fps hfps windows (b + 1)
        (({ m with frameCount := fps }).measure (fps : ℚ) (m.lastTime + 1000)).1
        (by rw [measure_fpsHistory]; exact hpush) (by omega) (by omega)
        (by rw [hq.1]; exact hmode)
      rw [measureSteady_succ]
      refine ⟨?_, ih.2.1, ?_, ?_⟩
      · simp only []
        rw [hq.2, ih.1]
        rfl
      · simp only []
        rw [ih.2.2.1]
        congr 1
        omega
      · simp only []
        rw [ih.2.2.2, measure_callbacks]

theorem averageOf_mix (a b : Nat) (hab : a + b = 60) :
    averageOf (List.replicate a (20 : ℚ) ++ List.replicate b (45 : ℚ))
      = (1200 + 25 * (b : ℚ)) / 60 := by
  rw [averageOf_eq_sum, List.sum_append, List.sum_replicate, List.sum_replicate,
    List.length_append, List.length_replicate, List.length_replicate, hab, nsmul_eq_mul,
    nsmul_eq_mul]
  have ha : (a : ℚ) = 60 - (b : ℚ) := by
    have : ((a + b : Nat) : ℚ) = 60 := by exact_mod_cast hab
    push_cast at this
    linarith
  rw [ha]
  push_cast
  ring

theorem pushSample_mix (a b : Nat) (ha : 1 ≤ a) (hab : a + b = 60) :
    pushSample (List.replicate a (20 : ℚ) ++ List.replicate b (45 : ℚ)) 45
      = List.replicate (a - 1) (20 : ℚ) ++ List.replicate (b + 1) (45 : ℚ) := by
  rw [pushSample_of_full _ _ (by
    rw [List.length_append, List.length_replicate, List.length_replicate, hab, maxHistorySize])]
  obtain ⟨a1, rfl⟩ : ∃ a1, a = a1 + 1 := ⟨a - 1, by omega⟩
  rw [List.replicate_succ, List.cons_append, List.tail_cons, Nat.add_sub_cancel,
    List.append_assoc, ← List.replicate_succ']

/-- While 45 FPS samples replace 20 FPS samples in a full history, the monitor is
silent and keeps its mode as long as, in performance mode, at most 48 samples of
45 are present after the push, and, in normal mode, at least 49 are. -/
theorem measureSteady_slide :
    ∀ (windows a b : Nat) (m : PerformanceMonitor),
      m.fpsHistory = List.replicate a (20 : ℚ) ++ List.replicate b (45 : ℚ) →
      a + b = 60 → windows ≤ a →
      (m.performanceMode = true → b + windows ≤ 48) →
      (m.performanceMode = false → 49 ≤ b) →
      (measureSteady 45 windows m).2 = []
      ∧ (measureSteady 45 windows m).1.performanceMode = m.performanceMode
      ∧ (measureSteady 45 windows m).1.fpsHistory
          = List.replicate (a - windows) (20 : ℚ) ++ List.replicate (b + windows) (45 : ℚ)
      ∧ (measureSteady 45 windows m).1.callbacks = m.callbacks
  | 0, a, b, m, hh, _, _, _, _ => ⟨rfl, rfl, hh, rfl⟩
  | windows + 1, a, b, m, hh, hab, hw, htrue, hfalse => by
      have hpush : pushSample m.fpsHistory ((45 : Nat) : ℚ)
          = List.replicate (a - 1) (20 : ℚ) ++ List.replicate (b + 1) (45 : ℚ) := by
        rw [hh]
        exact pushSample_mix a b (by omega) hab
      have havg : averageOf (pushSample m.fpsHistory ((45 : Nat) : ℚ))
          = (1200 + 25 * ((b + 1 : Nat) : ℚ)) / 60 := by
        rw [hpush]
        exact averageOf_mix (a - 1) (b + 1) (by omega)
      have hq := measure_quiet { m with frameCount := 45 } ((45 : Nat) : ℚ) (m.lastTime + 1000)
        (fun hf => by
          rw [havg]
          unfold lowPerformanceThreshold
          have hb : (49 : ℚ) ≤ (b : ℚ) := by exact_mod_cast hfalse hf
          push_cast
          linarith)
        (fun ht => by
          rw [havg]
          unfold lowPerformanceThreshold
          have hb : (b : ℚ) + ((windows : ℚ) + 1) ≤ 48 := by exact_mod_cast htrue ht
          have hwin : (0 : ℚ) ≤ (windows : ℚ) := Nat.cast_nonneg _
          push_cast
          linarith)
      have ih := measureSteady_slide windows (a - 1) (b + 1)
        (({ m with frameCount := 45 }).measure ((45 : Nat) : ℚ) (m.lastTime + 1000)).1
        (by rw [measure_fpsHistory]; exact hpush) (by omega) (by omega)
        (fun ht => by
          rw [hq.1] at ht
          have := htrue ht
          omega)
        (fun hf => by
          rw [hq.1] at hf
          have := hfalse hf
          omega)
      rw [measureSteady_succ]
      refine ⟨?_, ?_, ?_, ?_⟩
      · simp only []
        rw [hq.2, ih.1]
        rfl
      · simp only []
        rw [ih.2.1, hq.1]
      · simp only []
        rw [ih.2.2.1]
        congr 2 <;> omega
      · simp only []
        rw [ih.2.2.2, measure_callbacks]

/-- A run in which every rolling average lies between 32 and 38 notifies nobody
and keeps the mode. -/
theorem recordFrames_in_band :
    ∀ (ts : List ℚ) (m : PerformanceMonitor),
      (∀ avg ∈ m.averagesSeen ts, 32 ≤ avg ∧ avg ≤ 38) →
      (m.recordFrames ts).2 = [] ∧ (m.recordFrames ts).1.performanceMode = m.performanceMode
  | [], _, _ => ⟨rfl, rfl⟩
  | t :: ts, m, hband => by
      have hstep : (m.recordFrame t).2 = []
          ∧ (m.recordFrame t).1.performanceMode = m.performanceMode := by
        by_cases hge : t - m.lastTime ≥ 1000
        · have hmem : averageOf (m.recordFrame t).1.fpsHistory ∈ m.averagesSeen (t :: ts) := by
            simp [PerformanceMonitor.averagesSeen, hge]
          have hb := hband _ hmem
          rw [recordFrame_of_ge m t hge] at hb ⊢
          rw [measure_fpsHistory] at hb
          have hq := measure_quiet { m with frameCount := m.frameCount + 1 }
            (jsRound ((((m.frameCount + 1 : Nat) : ℚ) * 1000) / (t - m.lastTime))) t
            (fun _ => by
              unfold lowPerformanceThreshold
              linarith [hb.1])
            (fun _ => by
              unfold lowPerformanceThreshold
              linarith [hb.2])
          exact ⟨hq.2, hq.1⟩
        · rw [recordFrame_of_lt m t (not_le.mp hge)]
          exact ⟨rfl, rfl⟩
      have ih := recordFrames_in_band ts (m.recordFrame t).1 (fun avg havg => hband avg (by
        simp only [PerformanceMonitor.averagesSeen, List.mem_append]
        exact Or.inr havg))
      rw [recordFrames_cons]
      refine ⟨?_, ?_⟩
      · simp only []
        rw [hstep.1, ih.1]
        rfl
      · simp only []
        rw [ih.2, hstep.2]

theorem measureSteady_split_fst (fps n a b : Nat) (hn : n = a + b) (m : PerformanceMonitor) :
    (measureSteady fps n m).1 = (measureSteady fps b (measureSteady fps a m).1).1 := by
  rw [hn, measureSteady_add]

theorem measureSteady_split_snd (fps n a b : Nat) (hn : n = a + b) (m : PerformanceMonitor) :
    (measureSteady fps n m).2
      = (measureSteady fps a m).2 ++ (measureSteady fps b (measureSteady fps a m).1).2 := by
  rw [hn, measureSteady_add]

theorem measureSteady_one (fps : Nat) (m : PerformanceMonitor) :
    measureSteady fps 1 m
      = ({ m with frameCount := fps }).measure (fps : ℚ) (m.lastTime + 1000) := by
  rw [measureSteady_succ]
  simp [measureSteady]

theorem freshMonitor_fields (tc t0 : ℚ) (cb : Nat) :
    (freshMonitor tc t0 cb).frameCount = 0 ∧ (freshMonitor tc t0 cb).lastTime = t0
    ∧ (freshMonitor tc t0 cb).fpsHistory = [] ∧ (freshMonitor tc t0 cb).performanceMode = false
    ∧ (freshMonitor tc t0 cb).callbacks = [cb] := by
  simp [freshMonitor, PerformanceMonitor.new, PerformanceMonitor.start,
    PerformanceMonitor.subscribe]

/-- From a monitor in normal mode with an empty history, 60 steady measurements
of 20 FPS make one transition into performance mode, at the first one. -/
theorem measureSteady_low (m : PerformanceMonitor) (hh : m.fpsHistory = [])
    (hmode : m.performanceMode = false) :
    (measureSteady 20 60 m).2.map (fun n => (n.callback, n.event))
        = m.callbacks.map (fun callback => (callback, "performance-mode-enabled"))
    ∧ (measureSteady 20 60 m).1.performanceMode = true
    ∧ (measureSteady 20 60 m).1.fpsHistory = List.replicate 60 (20 : ℚ)
    ∧ (measureSteady 20 60 m).1.callbacks = m.callbacks := by
  have hpush : pushSample m.fpsHistory ((20 : Nat) : ℚ) = List.replicate 1 ((20 : Nat) : ℚ) := by
    rw [hh]
    simp [pushSample, maxHistorySize]
  have henter := measure_enter { m with frameCount := 20 } ((20 : Nat) : ℚ) (m.lastTime + 1000)
    hmode
    (by
      rw [show ({ m with frameCount := 20 } : PerformanceMonitor).fpsHistory = m.fpsHistory
        from rfl, hpush]
      simp [averageOf, lowPerformanceThreshold]
      norm_num)
  have hcb1 := measure_callbacks { m with frameCount := 20 } ((20 : Nat) : ℚ) (m.lastTime + 1000)
  have hh1 := measure_fpsHistory { m with frameCount := 20 } ((20 : Nat) : ℚ) (m.lastTime + 1000)
  rw [show ({ m with frameCount := 20 } : PerformanceMonitor).fpsHistory = m.fpsHistory
    from rfl, hpush] at hh1
  rw [← measureSteady_one] at henter hcb1 hh1
  have hfst := measureSteady_split_fst 20 60 1 59 rfl m
  have hsnd := measureSteady_split_snd 20 60 1 59 rfl m
  generalize measureSteady 20 1 m = r1 at henter hcb1 hh1 hfst hsnd
  have hfill := measureSteady_fill 20 (by norm_num) 59 1 r1.1 hh1 (by omega) (by omega) henter.1
  rw [hfst, hsnd]
  generalize measureSteady 20 59 r1.1 = r2 at hfill
  obtain ⟨hf1, hf2, hf3, hf4⟩ := hfill
  refine ⟨?_, hf2, ?_, ?_⟩
  · rw [hf1, List.append_nil]
    exact henter.2
  · rw [hf3]
    norm_num
  · rw [hf4]
    exact hcb1

/-- From a monitor in performance mode with 60 samples of 20 FPS, 60 steady
measurements of 45 FPS make one transition out of performance mode, at the 49th
one. -/
theorem measureSteady_high (m : PerformanceMonitor)
    (hh : m.fpsHistory = List.replicate 60 (20 : ℚ)) (hmode : m.performanceMode = true) :
    (measureSteady 45 60 m).2.map (fun n => (n.callback, n.event))
        = m.callbacks.map (fun callback => (callback, "performance-mode-disabled"))
    ∧ (measureSteady 45 60 m).1.performanceMode = false
    ∧ (measureSteady 45 60 m).1.fpsHistory = List.replicate 60 (45 : ℚ) := by
  have hslide1 := measureSteady_slide 48 60 0 m (by rw [hh]; simp) (by omega) (by omega)
    (fun _ => by omega) (fun hf => by rw [hmode] at hf; cases hf)
  have hfstA := measureSteady_split_fst 45 60 48 12 rfl m
  have hsndA := measureSteady_split_snd 45 60 48 12 rfl m
  rw [hmode] at hslide1
  generalize measureSteady 45 48 m = rA at hslide1 hfstA hsndA
  obtain ⟨hs1, hmode1, hhist1, hcb1⟩ := hslide1
  have hfstB := measureSteady_split_fst 45 12 1 11 rfl rA.1
  have hsndB := measureSteady_split_snd 45 12 1 11 rfl rA.1
  have hpush : pushSample rA.1.fpsHistory ((45 : Nat) : ℚ)
      = List.replicate 11 (20 : ℚ) ++ List.replicate 49 (45 : ℚ) := by
    rw [hhist1]
    exact pushSample_mix 12 48 (by omega) (by omega)
  have hexit := measure_exit { rA.1 with frameCount := 45 } ((45 : Nat) : ℚ)
    (rA.1.lastTime + 1000) hmode1
    (by
      rw [show ({ rA.1 with frameCount := 45 } : PerformanceMonitor).fpsHistory
        = rA.1.fpsHistory from rfl, hpush, averageOf_mix 11 49 (by omega)]
      unfold lowPerformanceThreshold
      norm_num)
  have hcbB := measure_callbacks { rA.1 with frameCount := 45 } ((45 : Nat) : ℚ)
    (rA.1.lastTime + 1000)
  have hhB := measure_fpsHistory { rA.1 with frameCount := 45 } ((45 : Nat) : ℚ)
    (rA.1.lastTime + 1000)
  rw [show ({ rA.1 with frameCount := 45 } : PerformanceMonitor).fpsHistory
    = rA.1.fpsHistory from rfl, hpush] at hhB
  rw [← measureSteady_one] at hexit hcbB hhB
  generalize measureSteady 45 1 rA.1 = rB at hexit hcbB hhB hfstB hsndB
  have hslide2 := measureSteady_slide 11 11 49 rB.1 hhB (by omega) (by omega)
    (fun ht => by rw [hexit.1] at ht; cases ht) (fun _ => by omega)
  rw [hfstA, hsndA, hfstB, hsndB]
  generalize measureSteady 45 11 rB.1 = rC at hslide2
  obtain ⟨hc1, hc2, hc3, _⟩ := hslide2
  refine ⟨?_, ?_, ?_⟩
  · rw [hs1, hc1, List.nil_append, List.append_nil, hexit.2]
    exact congrArg (fun l => List.map (fun callback => (callback, "performance-mode-disabled")) l)
      hcb1
  · rw [hc2]
    exact hexit.1
  · rw [hc3]
    norm_num

/-- The low phase: one transition into performance mode, at the first
measurement. -/
theorem lowPhase_spec (tc t0 : ℚ) (cb : Nat) :
    (lowPhase tc t0 cb).2.map (fun n => (n.callback, n.event))
        = [(cb, "performance-mode-enabled")]
    ∧ (lowPhase tc t0 cb).1.performanceMode = true
    ∧ (lowPhase tc t0 cb).1.fpsHistory = List.replicate 60 (20 : ℚ)
    ∧ (lowPhase tc t0 cb).1.callbacks = [cb]
    ∧ (lowPhase tc t0 cb).1.frameCount = 0
    ∧ (lowPhase tc t0 cb).1.lastTime = t0 + 60000 := by
  obtain ⟨hfc, hlt, hh, hmode, hcb⟩ := freshMonitor_fields tc t0 cb
  have hrun : lowPhase tc t0 cb = measureSteady 20 60 (freshMonitor tc t0 cb) := by
    have h := recordFrames_steadyTimes 20 (by decide) 60 (freshMonitor tc t0 cb) hfc
    rw [hlt] at h
    rw [lowPhase, h]
  have hlast := measureSteady_lastTime 20 60 (freshMonitor tc t0 cb)
  have hcount := measureSteady_frameCount 20 60 (freshMonitor tc t0 cb) hfc
  have hlow := measureSteady_low (freshMonitor tc t0 cb) hh hmode
  rw [hcb] at hlow
  rw [hlt] at hlast
  rw [hrun]
  generalize measureSteady 20 60 (freshMonitor tc t0 cb) = r at hlast hcount hlow
  refine ⟨hlow.1, hlow.2.1, hlow.2.2.1, hlow.2.2.2, hcount, ?_⟩
  rw [hlast]
  norm_num

/-- The high phase: one transition out of performance mode, at the 49th
measurement. -/
theorem highPhase_spec (tc t0 : ℚ) (cb : Nat) :
    (highPhase tc t0 cb).2.map (fun n => (n.callback, n.event))
        = [(cb, "performance-mode-disabled")]
    ∧ (highPhase tc t0 cb).1.performanceMode = false
    ∧ (highPhase tc t0 cb).1.fpsHistory = List.replicate 60 (45 : ℚ) := by
  obtain ⟨_, hmode, hhist, hcb, hcount, hlast⟩ := lowPhase_spec tc t0 cb
  have hrun : highPhase tc t0 cb = measureSteady 45 60 (lowPhase tc t0 cb).1 := by
    have h := recordFrames_steadyTimes 45 (by decide) 60 (lowPhase tc t0 cb).1 hcount
    rw [hlast] at h
    rw [highPhase, h]
  have hhigh := measureSteady_high (lowPhase tc t0 cb).1 hhist hmode
  rw [hcb] at hhigh
  rw [hrun]
  exact hhigh

/-- C7 (hysteresis scenario). From a freshly started monitor with one subscriber
`cb`, 60 consecutive measurement windows of 20 frames each end with 60 samples of
20 FPS, `performanceMode = true` and exactly one invocation of `cb`, for
`performance-mode-enabled`; 60 further windows of 45 frames each end with 60
samples of 45 FPS and exactly one invocation of `cb`, for
`performance-mode-disabled`; and over any run of `recordFrame` during which every
rolling average lies between 32 and 38 no callback is invoked and
`performanceMode` does not change. -/
theorem C7_hysteresis (tc t0 : ℚ) (cb : Nat) :
    ((lowPhase tc t0 cb).1.performanceMode = true
      ∧ (lowPhase tc t0 cb).1.fpsHistory = List.replicate 60 (20 : ℚ)
      ∧ (lowPhase tc t0 cb).2.map (fun n => (n.callback, n.event))
          = [(cb, "performance-mode-enabled")])
    ∧ ((highPhase tc t0 cb).1.performanceMode = false
      ∧ (highPhase tc t0 cb).1.fpsHistory = List.replicate 60 (45 : ℚ)
      ∧ (highPhase tc t0 cb).2.map (fun n => (n.callback, n.event))
          = [(cb, "performance-mode-disabled")])
    ∧ ∀ (m : PerformanceMonitor) (times : List ℚ),
        (∀ avg ∈ m.averagesSeen times, 32 ≤ avg ∧ avg ≤ 38) →
        (m.recordFrames times).2 = []
        ∧ (m.recordFrames times).1.performanceMode = m.performanceMode := by
  obtain ⟨hl1, hl2, hl3, _⟩ := lowPhase_spec tc t0 cb
  obtain ⟨hh1, hh2, hh3⟩ := highPhase_spec tc t0 cb
  exact ⟨⟨hl2, hl3, hl1⟩, ⟨hh2, hh3, hh1⟩, fun m times hband => recordFrames_in_band times m hband⟩

theorem bandMonitor_averagesSeen : bandMonitor.averagesSeen [500, 1000] = [71 / 2] := by
  have hlt : (500 : ℚ) - bandMonitor.lastTime < 1000 := by norm_num [bandMonitor]
  have hstep : (bandMonitor.recordFrame 500).1 = { bandMonitor with frameCount := 35 } := by
    rw [recordFrame_of_lt _ _ hlt]
    rfl
  have hge : (1000 : ℚ) - ({ bandMonitor with frameCount := 35 } : PerformanceMonitor).lastTime
      ≥ 1000 := by norm_num [bandMonitor]
  have hround : jsRound (36 : ℚ) = 36 := by
    have := jsRound_natCast 36
    exact_mod_cast this
  have hhist : (({ bandMonitor with frameCount := 35 } : PerformanceMonitor).recordFrame
      1000).1.fpsHistory = [35, 36] := by
    rw [recordFrame_of_ge _ _ hge, measure_fpsHistory]
    simp only [bandMonitor, pushSample, maxHistorySize]
    norm_num [hround]
  have hnot : ¬ ((500 : ℚ) - bandMonitor.lastTime ≥ 1000) := not_le.mpr hlt
  simp only [PerformanceMonitor.averagesSeen, hnot, if_false, hstep, hge, if_true, hhist,
    List.nil_append, List.append_nil]
  norm_num [averageOf]

/-- Witness of C7: a run of two frames whose only measurement sees the rolling
average 35.5. -/
theorem C7_hysteresis_witness :
    (∀ avg ∈ bandMonitor.averagesSeen [500, 1000], 32 ≤ avg ∧ avg ≤ 38)
    ∧ (bandMonitor.recordFrames [500, 1000]).2 = []
    ∧ (bandMonitor.recordFrames [500, 1000]).1.performanceMode = bandMonitor.performanceMode :=
  have hband : ∀ avg ∈ bandMonitor.averagesSeen [500, 1000], 32 ≤ avg ∧ avg ≤ 38 := by
    intro avg havg
    rw [bandMonitor_averagesSeen, List.mem_singleton] at havg
    rw [havg]
    norm_num
  ⟨hband, (C7_hysteresis 0 0 7).2.2 bandMonitor [500, 1000] hband⟩

theorem pushSample_length_le (h : List ℚ) (fps : ℚ) (hlen : h.length ≤ maxHistorySize) :
    (pushSample h fps).length ≤ maxHistorySize := by
  by_cases hfull : h.length = maxHistorySize
  · rw [pushSample_of_full h fps hfull, List.length_append, List.length_tail,
      List.length_singleton, hfull, maxHistorySize]
  · rw [pushSample_of_lt h fps (by omega), List.length_append, List.length_singleton]
    omega

theorem recordFrame_length_le (m : PerformanceMonitor) (currentTime : ℚ)
    (hlen : m.fpsHistory.length ≤ maxHistorySize) :
    (m.recordFrame currentTime).1.fpsHistory.length ≤ maxHistorySize := by
  by_cases hge : currentTime - m.lastTime ≥ 1000
  · rw [recordFrame_of_ge m currentTime hge, measure_fpsHistory]
    exact pushSample_length_le _ _ hlen
  · rw [recordFrame_of_lt m currentTime (not_le.mp hge)]
    exact hlen

theorem applyOp_length_le (m : PerformanceMonitor) (op : MonitorOp)
    (hlen : m.fpsHistory.length ≤ maxHistorySize) :
    (m.applyOp op).fpsHistory.length ≤ maxHistorySize := by
  cases op with
  | start now => simp [PerformanceMonitor.applyOp, PerformanceMonitor.start]
  | recordFrame now => exact recordFrame_length_le m now hlen
  | subscribe callback =>
    simp only [PerformanceMonitor.applyOp, PerformanceMonitor.subscribe]
    split_ifs <;> exact hlen
  | unsubscribe callback => exact hlen
  | getStats => exact hlen
  | shouldUsePerformanceMode => exact hlen
  | getRecommendedSettings => exact hlen

theorem applyOps_length_le :
    ∀ (ops : List MonitorOp) (m : PerformanceMonitor),
      m.fpsHistory.length ≤ maxHistorySize →
      (m.applyOps ops).fpsHistory.length ≤ maxHistorySize
  | [], _, hlen => hlen
  | op :: ops, m, hlen => by
      unfold PerformanceMonitor.applyOps
      rw [List.foldl_cons]
      exact applyOps_length_le ops (m.applyOp op) (applyOp_length_le m op hlen)

/-- C8 (bounded FIFO history). After any sequence of monitor operations on a newly
constructed monitor `fpsHistory` has at most 60 samples; and when `recordFrame`
pushes a sample `s` onto a history `h` of exactly 60 samples, the resulting history
is `h` without its first element followed by `s`. -/
theorem C8_bounded_history :
    (∀ (now : ℚ) (ops : List MonitorOp),
      ((PerformanceMonitor.new now).applyOps ops).fpsHistory.length ≤ 60)
    ∧ (∀ (m : PerformanceMonitor) (currentTime : ℚ),
        m.fpsHistory.length = 60 → currentTime - m.lastTime ≥ 1000 →
        ∃ fps : ℚ,
          fps = jsRound ((((m.frameCount + 1 : Nat) : ℚ) * 1000) / (currentTime - m.lastTime))
          ∧ (m.recordFrame currentTime).1.fpsHistory = m.fpsHistory.tail ++ [fps]
          ∧ (m.recordFrame currentTime).1.fpsHistory.length = 60)
    ∧ (∀ (h : List ℚ) (fps : ℚ), h.length = 60 →
        pushSample h fps = h.tail ++ [fps]) := by
  refine ⟨?_, ?_, ?_⟩
  · intro now ops
    exact applyOps_length_le ops (PerformanceMonitor.new now)
      (by simp [PerformanceMonitor.new])
  · intro m currentTime hlen hge
    refine ⟨_, rfl, ?_, ?_⟩
    · rw [recordFrame_of_ge m currentTime hge, measure_fpsHistory]
      exact pushSample_of_full _ _ hlen
    · rw [recordFrame_of_ge m currentTime hge, measure_fpsHistory,
        pushSample_of_full _ _ hlen, List.length_append, List.length_tail,
        List.length_singleton]
      rw [show ({ m with frameCount := m.frameCount + 1 } : PerformanceMonitor).fpsHistory
        = m.fpsHistory from rfl, hlen]
  · intro h fps hlen
    exact pushSample_of_full h fps hlen

/-- Witness of C8: a measurement on a history holding the samples `0, ..., 59`. -/
theorem C8_bounded_history_witness :
    (∃ fps : ℚ,
      fps = jsRound ((((fullMonitor.frameCount + 1 : Nat) : ℚ) * 1000)
        / (1000 - fullMonitor.lastTime))
      ∧ (fullMonitor.recordFrame 1000).1.fpsHistory = fullMonitor.fpsHistory.tail ++ [fps]
      ∧ (fullMonitor.recordFrame 1000).1.fpsHistory.length = 60)
    ∧ pushSample fullMonitor.fpsHistory 42 = fullMonitor.fpsHistory.tail ++ [42] :=
  ⟨C8_bounded_history.2.1 fullMonitor 1000 (by simp [fullMonitor])
      (by norm_num [fullMonitor]),
    C8_bounded_history.2.2 fullMonitor.fpsHistory 42 (by simp [fullMonitor])⟩

/-! ## Rope state cleanup -/

/-- The cleanup loop keeps the entries whose key is valid or is not among the
entries still to visit. -/
theorem pruneLoop_eq_filter (valid : List String) :
    ∀ (entries : List (String × Chain)) (s : RopeStates),
      pruneLoop valid entries s
        = s.filter (fun e => decide (e.1 ∈ valid) || !decide (e.1 ∈ entries.map Prod.fst))
  | [], s => by simp [pruneLoop]
  | e :: rest, s => by
      unfold pruneLoop
      by_cases hv : e.1 ∈ valid
      · rw [if_pos hv, pruneLoop_eq_filter valid rest s]
        apply List.filter_congr
        intro x _
        by_cases hx : x.1 = e.1
        · simp [hx, hv]
        · have hb : (x.1 == e.1) = false := by simpa using hx
          simp [hx, hb]
      · rw [if_neg hv, pruneLoop_eq_filter valid rest (s.delete e.1)]
        unfold RopeStates.delete
        rw [List.filter_filter]
        apply List.filter_congr
        intro x _
        by_cases hx : x.1 = e.1
        · simp [hx, hv]
        · have hb : (x.1 == e.1) = false := by simpa using hx
          simp [hx, hb]

theorem cleanupRopeStates_eq_filter (filteredConnections : List Connection) (s : RopeStates) :
    cleanupRopeStates filteredConnections s
      = s.filter (fun e => decide (e.1 ∈ filteredConnections.map (fun conn => conn.id))) := by
  unfold cleanupRopeStates
  simp only []
  rw [pruneLoop_eq_filter]
  apply List.filter_congr
  intro x hx
  have hmem : x.1 ∈ s.map Prod.fst := List.mem_map_of_mem Prod.fst hx
  simp [hmem]

theorem get_filter_key (s : RopeStates) (valid : List String) (id : String) :
    RopeStates.get (s.filter (fun e => decide (e.1 ∈ valid))) id
      = if id ∈ valid then RopeStates.get s id else none := by
  unfold RopeStates.get
  rw [List.find?_filter]
  by_cases hid : id ∈ valid
  · rw [if_pos hid]
    have hfun : (fun e : String × Chain =>
        decide (decide (e.1 ∈ valid) = true ∧ decide (e.1 = id) = true))
        = (fun e : String × Chain => decide (e.1 = id)) := by
      funext e
      by_cases he : e.1 = id
      · simp [he, hid]
      · simp [he]
    rw [hfun]
  · rw [if_neg hid]
    have hnone : List.find? (fun e : String × Chain =>
        decide (decide (e.1 ∈ valid) = true ∧ decide (e.1 = id) = true)) s = none := by
      rw [List.find?_eq_none]
      intro e _
      by_cases he : e.1 = id
      · simp [he, hid]
      · simp [he]
    rw [hnone]
    rfl

/-- C9 (prune). After the rope state cleanup runs with the set `V` of the ids of
the tracked connections, the store consists of exactly the prior entries whose id
is in `V`, in their order and with their chains unchanged; so `get` returns the
prior chain for an id in `V` and absent for an id not in `V`, and after a cleanup
with no tracked connection `get` returns absent for every id. -/
theorem C9_prune (filteredConnections : List Connection) (s : RopeStates) :
    cleanupRopeStates filteredConnections s
        = s.filter (fun e => decide (e.1 ∈ filteredConnections.map (fun conn => conn.id)))
    ∧ (∀ id : String, id ∈ filteredConnections.map (fun conn => conn.id) →
        RopeStates.get (cleanupRopeStates filteredConnections s) id = RopeStates.get s id)
    ∧ (∀ id : String, id ∉ filteredConnections.map (fun conn => conn.id) →
        RopeStates.get (cleanupRopeStates filteredConnections s) id = none)
    ∧ (∀ id : String, RopeStates.get (cleanupRopeStates [] s) id = none) := by
  refine ⟨cleanupRopeStates_eq_filter filteredConnections s, ?_, ?_, ?_⟩
  · intro id hid
    rw [cleanupRopeStates_eq_filter, get_filter_key, if_pos hid]
  · intro id hid
    rw [cleanupRopeStates_eq_filter, get_filter_key, if_neg hid]
  · intro id
    rw [cleanupRopeStates_eq_filter, get_filter_key, if_neg (by simp)]

/-- Witness of C9: the connection `c` stays tracked, the entry of `d` goes. -/
theorem C9_prune_witness :
    ("c" ∈ [sampleConnection].map (fun conn => conn.id)
      → RopeStates.get (cleanupRopeStates [sampleConnection] sampleStore) "c"
          = RopeStates.get sampleStore "c")
    ∧ ("d" ∉ [sampleConnection].map (fun conn => conn.id)
      → RopeStates.get (cleanupRopeStates [sampleConnection] sampleStore) "d" = none)
    ∧ "c" ∈ [sampleConnection].map (fun conn => conn.id)
    ∧ "d" ∉ [sampleConnection].map (fun conn => conn.id)
    ∧ RopeStates.get sampleStore "d" = some [samplePoint 3] :=
  ⟨(C9_prune [sampleConnection] sampleStore).2.1 "c",
    (C9_prune [sampleConnection] sampleStore).2.2.1 "d",
    by decide, by decide, by decide⟩

/-! ## Scheduler tick: connections whose anchors do not resolve -/

theorem simulateRopePhysics_no_position (fromNote toNote : Note) (cur : Option Chain)
    (deltaTime : ℚ) (h : fromNote.position = none ∨ toNote.position = none) :
    simulateRopePhysics (some fromNote) (some toNote) cur deltaTime = .ok none := by
  unfold simulateRopePhysics
  rcases h with h | h
  · simp [h]
  · cases hf : fromNote.position <;> simp [h, hf]

/-- On a store of full chains the callback raises no error, keeps the chains
full, leaves the other keys alone and stores `storedAfterTick` under the id of
the connection. -/
theorem tickConnection_ok (notes : List Note) (deltaTime : ℚ) (acc : RopeStates × Bool)
    (connection : Connection) (hfull : FullChains acc.1) :
    ∃ acc1 : RopeStates × Bool,
      tickConnection notes deltaTime acc connection = .ok acc1
      ∧ FullChains acc1.1
      ∧ RopeStates.get acc1.1 connection.id
          = storedAfterTick notes deltaTime (RopeStates.get acc.1 connection.id) connection
      ∧ ∀ id : String, id ≠ connection.id →
          RopeStates.get acc1.1 id = RopeStates.get acc.1 id := by
  unfold tickConnection storedAfterTick
  dsimp only
  cases hf : notes.find? (fun note => note.id = connection.fromNoteId) with
  | none =>
    refine ⟨_, rfl, ?_, RopeStates.get_delete_self _ _, fun id hid =>
      RopeStates.get_delete_other _ _ _ hid⟩
    intro id points hget
    by_cases hid : id = connection.id
    · rw [hid, RopeStates.get_delete_self] at hget
      cases hget
    · rw [RopeStates.get_delete_other _ _ _ hid] at hget
      exact hfull id points hget
  | some fromNote =>
    cases ht : notes.find? (fun note => note.id = connection.toNoteId) with
    | none =>
      refine ⟨_, rfl, ?_, RopeStates.get_delete_self _ _, fun id hid =>
        RopeStates.get_delete_other _ _ _ hid⟩
      intro id points hget
      by_cases hid : id = connection.id
      · rw [hid, RopeStates.get_delete_self] at hget
        cases hget
      · rw [RopeStates.get_delete_other _ _ _ hid] at hget
        exact hfull id points hget
    | some toNote =>
      dsimp only
      cases hpa : fromNote.position with
      | none =>
        rw [simulateRopePhysics_no_position fromNote toNote _ _ (Or.inl hpa)]
        exact ⟨acc, rfl, hfull, rfl, fun _ _ => rfl⟩
      | some pa =>
        cases hpb : toNote.position with
        | none =>
          rw [simulateRopePhysics_no_position fromNote toNote _ _ (Or.inr hpb)]
          exact ⟨acc, rfl, hfull, rfl, fun _ _ => rfl⟩
        | some pb =>
          rw [simulateRopePhysics_eq fromNote toNote pa pb hpa hpb _
            (fun pts hpts => le_of_eq (hfull _ pts hpts).symm) deltaTime]
          refine ⟨_, rfl, ?_, RopeStates.get_set_self _ _ _, fun id hid =>
            RopeStates.get_set_other _ _ _ _ hid⟩
          intro id points hget
          by_cases hid : id = connection.id
          · rw [hid, RopeStates.get_set_self] at hget
            cases hget
            exact stepChain_length _ _ _ _
          · rw [RopeStates.get_set_other _ _ _ _ hid] at hget
            exact hfull id points hget

/-- On a store of full chains and over connections with pairwise distinct ids,
the loop raises no error, and afterwards the store holds `storedAfterTick` of the
previous entry for every connection and the previous entry for every other id. -/
theorem forEachConnection_ok (notes : List Note) (deltaTime : ℚ) :
    ∀ (connections : List Connection) (acc : RopeStates × Bool),
      FullChains acc.1 → (connections.map (fun conn => conn.id)).Nodup →
      ∃ acc1 : RopeStates × Bool,
        forEachConnection notes deltaTime connections acc = .ok acc1
        ∧ FullChains acc1.1
        ∧ (∀ connection ∈ connections, RopeStates.get acc1.1 connection.id
            = storedAfterTick notes deltaTime (RopeStates.get acc.1 connection.id) connection)
        ∧ ∀ id : String, id ∉ connections.map (fun conn => conn.id) →
            RopeStates.get acc1.1 id = RopeStates.get acc.1 id
  | [], acc, hfull, _ => ⟨acc, rfl, hfull, fun _ h => absurd h (List.not_mem_nil _), fun _ _ => rfl⟩
  | connection :: rest, acc, hfull, hnodup => by
      rw [List.map_cons, List.nodup_cons] at hnodup
      obtain ⟨acc1, htick, hfull1, hself, hother⟩ :=
        tickConnection_ok notes deltaTime acc connection hfull
      obtain ⟨acc2, hloop, hfull2, hmem, hrest⟩ :=
        forEachConnection_ok notes deltaTime rest acc1 hfull1 hnodup.2
      refine ⟨acc2, ?_, hfull2, ?_, ?_⟩
      · unfold forEachConnection
        rw [htick]
        exact hloop
      · intro conn hconn
        rcases List.mem_cons.mp hconn with heq | hin
        · rw [heq, hrest connection.id hnodup.1, hself]
        · have hne : conn.id ≠ connection.id := by
            intro h
            exact hnodup.1 (h ▸ List.mem_map_of_mem (fun conn => conn.id) hin)
          rw [hmem conn hin, hother conn.id hne]
      · intro id hid
        rw [List.map_cons, List.mem_cons, not_or] at hid
        rw [hrest id hid.2, hother id hid.1]

/-- An accepted tick over at least one connection, on a store of full chains and
connections with pairwise distinct ids: `animate` raises no error and stores
`storedAfterTick` for every connection. -/
theorem animate_accepted (notes : List Note) (filteredConnections : List Connection)
    (s : SchedulerState) (currentTime now : ℚ)
    (haccept : currentTime - s.lastFrameTime
      ≥ (if s.isDragging then DRAG_THROTTLE_MS else IDLE_THROTTLE_MS))
    (hfull : FullChains s.ropeStates)
    (hnodup : (filteredConnections.map (fun conn => conn.id)).Nodup)
    (hne : filteredConnections.length > 0) :
    ∃ (s1 : SchedulerState) (notified : List Notification),
      animate notes filteredConnections s currentTime now = .ok (s1, notified)
      ∧ FullChains s1.ropeStates
      ∧ ∀ connection ∈ filteredConnections, RopeStates.get s1.ropeStates connection.id
          = storedAfterTick notes (currentTime - s.lastFrameTime)
              (RopeStates.get s.ropeStates connection.id) connection := by
  obtain ⟨acc1, hloop, hfull1, hmem, _⟩ :=
    forEachConnection_ok notes (currentTime - s.lastFrameTime) filteredConnections
      (s.ropeStates, false) hfull hnodup
  unfold animate
  dsimp only
  rw [if_pos haccept, if_pos hne, hloop]
  exact ⟨_, _, rfl, hfull1, hmem⟩

theorem sampleState_accepts (currentTime : ℚ) (h : 33 ≤ currentTime) :
    currentTime - sampleState.lastFrameTime
      ≥ (if sampleState.isDragging then DRAG_THROTTLE_MS else IDLE_THROTTLE_MS) := by
  simp only [sampleState, Bool.false_eq_true, if_false, IDLE_THROTTLE_MS, sub_zero]
  exact h

theorem sampleState_fullChains : FullChains sampleState.ropeStates := by
  intro id points hget
  simp only [sampleState, RopeStates.get, List.find?] at hget
  by_cases hid : "c" = id
  · simp [hid] at hget
    rw [← hget]
    rfl
  · simp [hid] at hget

/-- C10, as amended. In an accepted scheduler tick on a store whose chains all have
13 points and over tracked connections with pairwise distinct ids, no error is
raised, and for every tracked connection: if its from-note or its to-note is not
in the notes list, no chain is computed for it and after the tick the store holds
no entry for its id; if both notes are in the list but one of them has no
position, `simulateRopePhysics` returns null for it, the callback changes nothing
and after the tick the store holds for its id what it held before the tick. -/
theorem C10_missing_anchor_amended (notes : List Note) (filteredConnections : List Connection)
    (s : SchedulerState) (currentTime now : ℚ)
    (haccept : currentTime - s.lastFrameTime
      ≥ (if s.isDragging then DRAG_THROTTLE_MS else IDLE_THROTTLE_MS))
    (hfull : ∀ (id : String) (points : Chain),
      RopeStates.get s.ropeStates id = some points → points.length = 13)
    (hnodup : (filteredConnections.map (fun conn => conn.id)).Nodup)
    (connection : Connection) (hmem : connection ∈ filteredConnections) :
    ∃ (s1 : SchedulerState) (notified : List Notification),
      animate notes filteredConnections s currentTime now = .ok (s1, notified)
      ∧ ((notes.find? (fun note => note.id = connection.fromNoteId) = none
            ∨ notes.find? (fun note => note.id = connection.toNoteId) = none) →
          (∀ acc : RopeStates × Bool,
            tickConnection notes (currentTime - s.lastFrameTime) acc connection
              = .ok (RopeStates.delete acc.1 connection.id, acc.2))
          ∧ RopeStates.get s1.ropeStates connection.id = none)
      ∧ (∀ fromNote toNote : Note,
          notes.find? (fun note => note.id = connection.fromNoteId) = some fromNote →
          notes.find? (fun note => note.id = connection.toNoteId) = some toNote →
          (fromNote.position = none ∨ toNote.position = none) →
          (∀ (cur : Option Chain) (deltaTime : ℚ),
            simulateRopePhysics (some fromNote) (some toNote) cur deltaTime = .ok none)
          ∧ (∀ acc : RopeStates × Bool,
            tickConnection notes (currentTime - s.lastFrameTime) acc connection = .ok acc)
          ∧ RopeStates.get s1.ropeStates connection.id
              = RopeStates.get s.ropeStates connection.id) := by
  have hne : filteredConnections.length > 0 := List.length_pos_of_mem hmem
  obtain ⟨s1, notified, hrun, _, hstored⟩ :=
    animate_accepted notes filteredConnections s currentTime now haccept hfull hnodup hne
  refine ⟨s1, notified, hrun, ?_, ?_⟩
  · intro hmissing
    constructor
    · intro acc
      unfold tickConnection
      dsimp only
      rcases hmissing with h | h
      · rw [h]
      · rw [h]
        cases notes.find? (fun note => note.id = connection.fromNoteId) <;> rfl
    · rw [hstored connection hmem]
      unfold storedAfterTick
      rcases hmissing with h | h
      · rw [h]
      · rw [h]
        cases notes.find? (fun note => note.id = connection.fromNoteId) <;> rfl
  · intro fromNote toNote hf ht hpos
    refine ⟨fun cur deltaTime => simulateRopePhysics_no_position fromNote toNote cur deltaTime hpos,
      ?_, ?_⟩
    · intro acc
      unfold tickConnection
      dsimp only
      rw [hf, ht]
      dsimp only
      rw [simulateRopePhysics_no_position fromNote toNote _ _ hpos]
    · rw [hstored connection hmem]
      unfold storedAfterTick
      rw [hf, ht]
      dsimp only
      rw [simulateRopePhysics_no_position fromNote toNote _ _ hpos]

/-- Witness of C10 as amended: the tick at time 50 over a connection whose
from-note is not in the notes list, with a chain stored for it. -/
theorem C10_missing_anchor_amended_witness :
    ∃ (s1 : SchedulerState) (notified : List Notification),
      animate sampleNotes [sampleConnectionOrphan] sampleState 50 50 = .ok (s1, notified)
      ∧ ((sampleNotes.find? (fun note => note.id = sampleConnectionOrphan.fromNoteId) = none
            ∨ sampleNotes.find? (fun note => note.id = sampleConnectionOrphan.toNoteId) = none) →
          (∀ acc : RopeStates × Bool,
            tickConnection sampleNotes (50 - sampleState.lastFrameTime) acc sampleConnectionOrphan
              = .ok (RopeStates.delete acc.1 sampleConnectionOrphan.id, acc.2))
          ∧ RopeStates.get s1.ropeStates sampleConnectionOrphan.id = none)
      ∧ (∀ fromNote toNote : Note,
          sampleNotes.find? (fun note => note.id = sampleConnectionOrphan.fromNoteId)
            = some fromNote →
          sampleNotes.find? (fun note => note.id = sampleConnectionOrphan.toNoteId)
            = some toNote →
          (fromNote.position = none ∨ toNote.position = none) →
          (∀ (cur : Option Chain) (deltaTime : ℚ),
            simulateRopePhysics (some fromNote) (some toNote) cur deltaTime = .ok none)
          ∧ (∀ acc : RopeStates × Bool,
            tickConnection sampleNotes (50 - sampleState.lastFrameTime) acc
              sampleConnectionOrphan = .ok acc)
          ∧ RopeStates.get s1.ropeStates sampleConnectionOrphan.id
              = RopeStates.get sampleState.ropeStates sampleConnectionOrphan.id) :=
  C10_missing_anchor_amended sampleNotes [sampleConnectionOrphan] sampleState 50 50
    (sampleState_accepts 50 (by norm_num)) sampleState_fullChains
    (by simp) sampleConnectionOrphan (List.mem_singleton_self _)

/-- Counterexample to C10 as stated. In the accepted tick at time 50 over the one
connection `c` from note `a` to the note `n`, which is in the notes list and has
no position, the chain stored for `c` before the tick is still stored after it.
And when two tracked connections share the id `c`, the first with a from-note
missing from the notes list and the second with both anchors resolving, the store
holds an entry for `c` after the tick. -/
theorem C10_missing_anchor_counterexample :
    (∃ (s1 : SchedulerState) (notified : List Notification),
      animate sampleNotes [sampleConnectionNoPosition] sampleState 50 50 = .ok (s1, notified)
      ∧ sampleNotes.find? (fun note => note.id = sampleConnectionNoPosition.toNoteId)
          = some sampleNoteNoPosition
      ∧ sampleNoteNoPosition.position = none
      ∧ RopeStates.get s1.ropeStates sampleConnectionNoPosition.id = some sampleChain
      ∧ RopeStates.get s1.ropeStates sampleConnectionNoPosition.id ≠ none)
    ∧ (∃ (s1 : SchedulerState) (notified : List Notification),
      animate sampleNotes [sampleConnectionOrphan, sampleConnection] sampleState 50 50
        = .ok (s1, notified)
      ∧ sampleNotes.find? (fun note => note.id = sampleConnectionOrphan.fromNoteId) = none
      ∧ RopeStates.get s1.ropeStates sampleConnectionOrphan.id ≠ none) := by
  constructor
  · obtain ⟨s1, notified, hrun, _, hstored⟩ :=
      animate_accepted sampleNotes [sampleConnectionNoPosition] sampleState 50 50
        (sampleState_accepts 50 (by norm_num)) sampleState_fullChains (by simp) (by simp)
    have hfindN : sampleNotes.find? (fun note => note.id = sampleConnectionNoPosition.toNoteId)
        = some sampleNoteNoPosition := by
      simp [sampleNotes, sampleConnectionNoPosition, sampleNoteA, sampleNoteB,
        sampleNoteNoPosition]
    have hfindA : sampleNotes.find? (fun note => note.id = sampleConnectionNoPosition.fromNoteId)
        = some sampleNoteA := by
      simp [sampleNotes, sampleConnectionNoPosition, sampleNoteA]
    have hget : RopeStates.get s1.ropeStates sampleConnectionNoPosition.id
        = some sampleChain := by
      rw [hstored sampleConnectionNoPosition (List.mem_singleton_self _)]
      unfold storedAfterTick
      rw [hfindA, hfindN]
      dsimp only
      rw [simulateRopePhysics_no_position sampleNoteA sampleNoteNoPosition _ _ (Or.inr rfl)]
      simp [sampleState, RopeStates.get, sampleConnectionNoPosition]
    refine ⟨s1, notified, hrun, hfindN, rfl, hget, ?_⟩
    rw [hget]
    exact Option.some_ne_none _
  · have hfindZ : sampleNotes.find? (fun note => note.id = sampleConnectionOrphan.fromNoteId)
        = none := by
      simp [sampleNotes, sampleConnectionOrphan, sampleNoteA, sampleNoteB,
        sampleNoteNoPosition]
    have htick1 : tickConnection sampleNotes (50 - 0) (sampleState.ropeStates, false)
        sampleConnectionOrphan
        = .ok (RopeStates.delete sampleState.ropeStates sampleConnectionOrphan.id, false) := by
      unfold tickConnection
      dsimp only
      rw [hfindZ]
    have htick2 := tickConnection_resolved sampleNotes (50 - 0)
      (RopeStates.delete sampleState.ropeStates sampleConnectionOrphan.id, false)
      sampleConnection sampleNoteA sampleNoteB ⟨-140, -100⟩ ⟨140, -100⟩
      (by simp [sampleNotes, sampleConnection, sampleNoteA])
      (by simp [sampleNotes, sampleConnection, sampleNoteA, sampleNoteB])
      rfl rfl
      (by
        intro pts h
        rw [show sampleConnection.id = sampleConnectionOrphan.id from rfl,
          RopeStates.get_delete_self] at h
        cases h)
    have hge : (50 : ℚ) - sampleState.lastFrameTime
        ≥ (if sampleState.isDragging then DRAG_THROTTLE_MS else IDLE_THROTTLE_MS) :=
      sampleState_accepts 50 (by norm_num)
    have hzero : (50 : ℚ) - sampleState.lastFrameTime = 50 - 0 := rfl
    have hrun : animate sampleNotes [sampleConnectionOrphan, sampleConnection] sampleState 50 50
        = .ok ({ sampleState with
            lastFrameTime := 50
            monitor := (sampleState.monitor.recordFrame 50).1
            ropeStates := RopeStates.set
              (RopeStates.delete sampleState.ropeStates sampleConnectionOrphan.id)
              sampleConnection.id
              (stepChain (workingPoints (anchor ⟨-140, -100⟩) (anchor ⟨140, -100⟩)
                (RopeStates.get
                  (RopeStates.delete sampleState.ropeStates sampleConnectionOrphan.id)
                  sampleConnection.id)) (anchor ⟨-140, -100⟩) (anchor ⟨140, -100⟩)
                (min (50 - 0) 1))
            forceUpdate := sampleState.forceUpdate + 1 },
          (sampleState.monitor.recordFrame 50).2) := by
      unfold animate
      dsimp only
      rw [if_pos hge, if_pos (by simp), hzero]
      unfold forEachConnection
      rw [htick1]
      dsimp only
      unfold forEachConnection
      rw [htick2]
      dsimp only
      unfold forEachConnection
      rfl
    refine ⟨_, _, hrun, hfindZ, ?_⟩
    dsimp only
    rw [show sampleConnectionOrphan.id = sampleConnection.id from rfl, RopeStates.get_set_self]
    exact Option.some_ne_none _

/-! ## Frame scheduler: throttle -/

/-- On a store of full chains the loop raises no error and keeps the chains full,
whatever the ids of the connections. -/
theorem forEachConnection_total (notes : List Note) (deltaTime : ℚ) :
    ∀ (connections : List Connection) (acc : RopeStates × Bool), FullChains acc.1 →
      ∃ acc1 : RopeStates × Bool,
        forEachConnection notes deltaTime connections acc = .ok acc1 ∧ FullChains acc1.1
  | [], acc, hfull => ⟨acc, rfl, hfull⟩
  | connection :: rest, acc, hfull => by
      obtain ⟨acc1, htick, hfull1, _, _⟩ :=
        tickConnection_ok notes deltaTime acc connection hfull
      obtain ⟨acc2, hloop, hfull2⟩ := forEachConnection_total notes deltaTime rest acc1 hfull1
      refine ⟨acc2, ?_, hfull2⟩
      unfold forEachConnection
      rw [htick]
      exact hloop

/-- A tick below the throttle gap returns the state it was given and invokes no
callback. -/
theorem animate_skipped (notes : List Note) (filteredConnections : List Connection)
    (s : SchedulerState) (currentTime now : ℚ)
    (hskip : currentTime - s.lastFrameTime
      < (if s.isDragging then DRAG_THROTTLE_MS else IDLE_THROTTLE_MS)) :
    animate notes filteredConnections s currentTime now = .ok (s, []) := by
  unfold animate
  dsimp only
  rw [if_neg (not_le.mpr hskip)]

/-- An accepted tick on a store of full chains: the fields of the state it
returns. -/
theorem animate_accepted_fields (notes : List Note) (filteredConnections : List Connection)
    (s : SchedulerState) (currentTime now : ℚ)
    (haccept : currentTime - s.lastFrameTime
      ≥ (if s.isDragging then DRAG_THROTTLE_MS else IDLE_THROTTLE_MS))
    (hfull : FullChains s.ropeStates) :
    ∃ (s1 : SchedulerState) (notified : List Notification),
      animate notes filteredConnections s currentTime now = .ok (s1, notified)
      ∧ s1.lastFrameTime = currentTime
      ∧ s1.monitor = (s.monitor.recordFrame now).1
      ∧ notified = (s.monitor.recordFrame now).2
      ∧ s1.isDragging = s.isDragging
      ∧ FullChains s1.ropeStates := by
  unfold animate
  dsimp only
  rw [if_pos haccept]
  by_cases hlen : filteredConnections.length > 0
  · rw [if_pos hlen]
    obtain ⟨acc1, hloop, hfull1⟩ := forEachConnection_total notes
      (currentTime - s.lastFrameTime) filteredConnections (s.ropeStates, false) hfull
    rw [hloop]
    exact ⟨_, _, rfl, rfl, rfl, rfl, rfl, hfull1⟩
  · rw [if_neg hlen]
    exact ⟨_, _, rfl, rfl, rfl, rfl, rfl, hfull⟩

theorem recordFrame_ne (m : PerformanceMonitor) (currentTime : ℚ) :
    (m.recordFrame currentTime).1 ≠ m := by
  intro h
  by_cases hge : currentTime - m.lastTime ≥ 1000
  · have hlast := congrArg PerformanceMonitor.lastTime h
    rw [recordFrame_of_ge m currentTime hge, measure_lastTime] at hlast
    rw [hlast] at hge
    norm_num at hge
  · have hcount := congrArg PerformanceMonitor.frameCount h
    rw [recordFrame_of_lt m currentTime (not_le.mp hge)] at hcount
    simp at hcount

/-- C11 (throttle). With `gap = 16` while dragging and `gap = 33` while idle: a
tick at time `t` with `t - lastFrameTime < gap` is skipped, it returns the state
unchanged (rope store, `lastFrameTime`, monitor) and invokes nothing; a tick with
`t - lastFrameTime ≥ gap` is accepted, it runs `recordFrame` on the monitor, which
changes it, and sets `lastFrameTime` to `t`; and in idle mode the tick at time
`t + 10` that follows an accepted tick at time `t` is skipped. -/
theorem C11_throttle (notes : List Note) (filteredConnections : List Connection)
    (s : SchedulerState) (currentTime now : ℚ) :
    (DRAG_THROTTLE_MS = 16 ∧ IDLE_THROTTLE_MS = 33)
    ∧ (currentTime - s.lastFrameTime < (if s.isDragging then 16 else 33) →
        animate notes filteredConnections s currentTime now = .ok (s, []))
    ∧ (currentTime - s.lastFrameTime ≥ (if s.isDragging then 16 else 33) →
        (∀ (id : String) (points : Chain),
          RopeStates.get s.ropeStates id = some points → points.length = 13) →
        ∃ (s1 : SchedulerState) (notified : List Notification),
          animate notes filteredConnections s currentTime now = .ok (s1, notified)
          ∧ s1.lastFrameTime = currentTime
          ∧ s1.monitor = (s.monitor.recordFrame now).1
          ∧ notified = (s.monitor.recordFrame now).2
          ∧ s1.monitor ≠ s.monitor
          ∧ s1 ≠ s
          ∧ (s.isDragging = false →
              ∀ (notes2 : List Note) (connections2 : List Connection) (now2 : ℚ),
                animate notes2 connections2 s1 (currentTime + 10) now2 = .ok (s1, []))) := by
  have hgap : (if s.isDragging then DRAG_THROTTLE_MS else IDLE_THROTTLE_MS)
      = (if s.isDragging then (16 : ℚ) else 33) := rfl
  refine ⟨⟨rfl, rfl⟩, ?_, ?_⟩
  · intro hskip
    exact animate_skipped notes filteredConnections s currentTime now (by rw [hgap]; exact hskip)
  · intro haccept hfull
    obtain ⟨s1, notified, hrun, hlast, hmon, hnot, hdrag, _⟩ :=
      animate_accepted_fields notes filteredConnections s currentTime now
        (by rw [hgap]; exact haccept) hfull
    have hmne : s1.monitor ≠ s.monitor := by
      rw [hmon]
      exact recordFrame_ne s.monitor now
    refine ⟨s1, notified, hrun, hlast, hmon, hnot, hmne, ?_, ?_⟩
    · intro h
      exact hmne (congrArg SchedulerState.monitor h)
    · intro hidle notes2 connections2 now2
      apply animate_skipped
      rw [hdrag, hidle, hlast]
      simp only [Bool.false_eq_true, if_false, IDLE_THROTTLE_MS]
      norm_num

/-- Witness of C11: from the idle `sampleState`, whose last accepted tick was at
time 0, the tick at time 10 is skipped and the tick at time 50 is accepted. -/
theorem C11_throttle_witness :
    animate sampleNotes [sampleConnection] sampleState 10 10 = .ok (sampleState, [])
    ∧ ∃ (s1 : SchedulerState) (notified : List Notification),
        animate sampleNotes [sampleConnection] sampleState 50 50 = .ok (s1, notified)
        ∧ s1.lastFrameTime = 50
        ∧ s1.monitor = (sampleState.monitor.recordFrame 50).1
        ∧ notified = (sampleState.monitor.recordFrame 50).2
        ∧ s1.monitor ≠ sampleState.monitor
        ∧ s1 ≠ sampleState
        ∧ (sampleState.isDragging = false →
            ∀ (notes2 : List Note) (connections2 : List Connection) (now2 : ℚ),
              animate notes2 connections2 s1 (50 + 10) now2 = .ok (s1, [])) :=
  ⟨(C11_throttle sampleNotes [sampleConnection] sampleState 10 10).2.1
      (by norm_num [sampleState]),
    (C11_throttle sampleNotes [sampleConnection] sampleState 50 50).2.2
      (by norm_num [sampleState]) sampleState_fullChains⟩

/-! ## Performance monitor: notifications -/

/-- The result of a measurement, field by field. -/
theorem measure_eq (m : PerformanceMonitor) (fps currentTime : ℚ) :
    m.measure fps currentTime
      = ({ frameCount := 0, lastTime := currentTime
           fpsHistory := pushSample m.fpsHistory fps
           performanceMode := modeAfter m.performanceMode
             (averageOf (pushSample m.fpsHistory fps))
           callbacks := m.callbacks },
         if modeAfter m.performanceMode (averageOf (pushSample m.fpsHistory fps))
              = m.performanceMode then []
         else ({ m with
                 fpsHistory := pushSample m.fpsHistory fps
                 performanceMode := modeAfter m.performanceMode
                   (averageOf (pushSample m.fpsHistory fps)) }).notifyCallbacks
               (transitionEvent (modeAfter m.performanceMode
                 (averageOf (pushSample m.fpsHistory fps))))) := by
  unfold PerformanceMonitor.measure modeAfter transitionEvent
  dsimp only
  generalize pushSample m.fpsHistory fps = hist
  generalize averageOf hist = avg
  cases hmode : m.performanceMode with
  | false =>
    by_cases h1 : avg < lowPerformanceThreshold
    · simp [h1]
    · simp [h1]
  | true =>
    by_cases h2 : avg > lowPerformanceThreshold + 10
    · simp [h2]
    · simp [h2]

theorem pushSample_ne_nil (h : List ℚ) (fps : ℚ) : pushSample h fps ≠ [] := by
  unfold pushSample
  dsimp only
  split_ifs with hlen
  · intro hnil
    have hl := congrArg List.length hnil
    rw [List.length_tail] at hl
    simp only [List.length_nil] at hl
    unfold maxHistorySize at hlen
    omega
  · simp

theorem pushSample_getLast (h : List ℚ) (fps : ℚ) :
    (pushSample h fps).getLast? = some fps := by
  unfold pushSample
  dsimp only
  split_ifs with hlen
  · cases h with
    | nil => simp [maxHistorySize] at hlen
    | cons x xs => simp
  · simp

/-- The stats snapshot taken by `notifyCallbacks` inside a measurement: the sample
just pushed, the rounded average and the length of the new history, the new mode
and the frame counter before its reset. -/
theorem getStats_in_measure (m : PerformanceMonitor) (fps : ℚ) (mode : Bool) :
    ({ m with fpsHistory := pushSample m.fpsHistory fps, performanceMode := mode }
        : PerformanceMonitor).getStats
      = { currentFps := fps
          averageFps := jsRound ((pushSample m.fpsHistory fps).sum
            / ((pushSample m.fpsHistory fps).length : ℚ))
          performanceMode := mode
          frameCount := m.frameCount
          historySize := (pushSample m.fpsHistory fps).length } := by
  unfold PerformanceMonitor.getStats
  dsimp only
  have hpos : (pushSample m.fpsHistory fps).length > 0 :=
    List.length_pos.mpr (pushSample_ne_nil _ _)
  rw [if_pos hpos, pushSample_getLast, averageOf_eq_sum]
  rfl

/-- C12 (notification on transition). Whenever `recordFrame` changes
`performanceMode`, it is a measurement (`currentTime - lastTime ≥ 1000`) and the
invocations it makes are exactly one per subscribed callback, in subscription
order, each with the event name of the new mode (`performance-mode-enabled` for
`true`, `performance-mode-disabled` for `false`) and the stats snapshot in which
`currentFps` is the sample just pushed (the last element of the new history),
`averageFps` the rounded average of the new history, `performanceMode` the new
mode, `frameCount` the frames counted in the window including this one, and
`historySize` the length of the new history; whenever `recordFrame` leaves
`performanceMode` unchanged it invokes no callback. -/
theorem C12_notification (m : PerformanceMonitor) (currentTime : ℚ) :
    ((m.recordFrame currentTime).1.performanceMode ≠ m.performanceMode →
      currentTime - m.lastTime ≥ 1000
      ∧ (m.recordFrame currentTime).2 = m.callbacks.map (fun callback =>
          { callback := callback
            event := if (m.recordFrame currentTime).1.performanceMode
              then "performance-mode-enabled" else "performance-mode-disabled"
            stats :=
              { currentFps := jsRound ((((m.frameCount + 1 : Nat) : ℚ) * 1000)
                  / (currentTime - m.lastTime))
                averageFps := jsRound ((m.recordFrame currentTime).1.fpsHistory.sum
                  / ((m.recordFrame currentTime).1.fpsHistory.length : ℚ))
                performanceMode := (m.recordFrame currentTime).1.performanceMode
                frameCount := m.frameCount + 1
                historySize := (m.recordFrame currentTime).1.fpsHistory.length } })
      ∧ (m.recordFrame currentTime).1.fpsHistory.getLast?
          = some (jsRound ((((m.frameCount + 1 : Nat) : ℚ) * 1000) / (currentTime - m.lastTime)))
      ∧ (m.recordFrame currentTime).2.map (fun n => n.callback) = m.callbacks
      ∧ (m.callbacks.Nodup → ∀ callback ∈ m.callbacks,
          ((m.recordFrame currentTime).2.map (fun n => n.callback)).count callback = 1)
      ∧ (∀ callback, callback ∉ m.callbacks →
          ((m.recordFrame currentTime).2.map (fun n => n.callback)).count callback = 0))
    ∧ ((m.recordFrame currentTime).1.performanceMode = m.performanceMode →
        (m.recordFrame currentTime).2 = []) := by
  by_cases hge : currentTime - m.lastTime ≥ 1000
  · have hrec := recordFrame_of_ge m currentTime hge
    rw [measure_eq] at hrec
    generalize jsRound ((((m.frameCount + 1 : Nat) : ℚ) * 1000) / (currentTime - m.lastTime))
      = fps at hrec ⊢
    rw [hrec]
    dsimp only
    generalize hmode : modeAfter m.performanceMode (averageOf (pushSample m.fpsHistory fps))
      = mode
    constructor
    · intro hne
      rw [if_neg hne]
      have hnotify : ({ m with
              frameCount := m.frameCount + 1
              fpsHistory := pushSample m.fpsHistory fps
              performanceMode := mode } : PerformanceMonitor).notifyCallbacks
            (transitionEvent mode)
          = m.callbacks.map (fun callback =>
              { callback := callback
                event := if mode then "performance-mode-enabled"
                  else "performance-mode-disabled"
                stats :=
                  { currentFps := fps
                    averageFps := jsRound ((pushSample m.fpsHistory fps).sum
                      / ((pushSample m.fpsHistory fps).length : ℚ))
                    performanceMode := mode
                    frameCount := m.frameCount + 1
                    historySize := (pushSample m.fpsHistory fps).length } }) := by
        unfold PerformanceMonitor.notifyCallbacks transitionEvent
        have hstats := getStats_in_measure { m with frameCount := m.frameCount + 1 } fps mode
        dsimp only at hstats ⊢
        rw [hstats]
      have hmap : (m.callbacks.map (fun callback =>
              ({ callback := callback
                 event := if mode then "performance-mode-enabled"
                   else "performance-mode-disabled"
                 stats :=
                   { currentFps := fps
                     averageFps := jsRound ((pushSample m.fpsHistory fps).sum
                       / ((pushSample m.fpsHistory fps).length : ℚ))
                     performanceMode := mode
                     frameCount := m.frameCount + 1
                     historySize := (pushSample m.fpsHistory fps).length } }
                : Notification))).map (fun n => n.callback) = m.callbacks := by
        rw [List.map_map]
        exact List.map_id _
      rw [hnotify, hmap]
      refine ⟨hge, rfl, pushSample_getLast _ _, rfl, ?_, ?_⟩
      · intro hnodup callback hmem
        exact List.count_eq_one_of_mem hnodup hmem
      · intro callback hmem
        exact List.count_eq_zero_of_not_mem hmem
    · intro heq
      rw [if_pos heq]
  · have hrec := recordFrame_of_lt m currentTime (not_le.mp hge)
    rw [hrec]
    exact ⟨fun hne => absurd rfl hne, fun _ => rfl⟩

/-- The measurement of `sampleMonitor` at time 1000 pushes the sample 42, which
lifts the average to `2461 / 60 > 40`, and leaves performance mode. -/
theorem sampleMonitor_transition :
    (sampleMonitor.recordFrame 1000).1.performanceMode = false := by
  have hge : (1000 : ℚ) - sampleMonitor.lastTime ≥ 1000 := by norm_num [sampleMonitor]
  rw [recordFrame_of_ge sampleMonitor 1000 hge]
  refine (measure_exit _ _ _ rfl ?_).1
  have hfps : jsRound ((((sampleMonitor.frameCount + 1 : Nat) : ℚ) * 1000)
      / (1000 - sampleMonitor.lastTime)) = ((42 : Nat) : ℚ) := by
    rw [← jsRound_natCast 42]
    congr 1
    norm_num [sampleMonitor]
  rw [hfps]
  have hpush : pushSample (List.replicate 59 (41 : ℚ)) ((42 : Nat) : ℚ)
      = List.replicate 59 (41 : ℚ) ++ [((42 : Nat) : ℚ)] :=
    pushSample_of_lt _ _ (by rw [List.length_replicate, maxHistorySize]; omega)
  rw [show ({ sampleMonitor with frameCount := sampleMonitor.frameCount + 1 }
      : PerformanceMonitor).fpsHistory = List.replicate 59 (41 : ℚ) from rfl, hpush,
    averageOf_eq_sum, List.sum_append, List.sum_replicate, List.length_append,
    List.length_replicate]
  unfold lowPerformanceThreshold
  norm_num

/-- Witness of C12: the measurement of `sampleMonitor` at time 1000 leaves
performance mode. -/
theorem C12_notification_witness :
    (sampleMonitor.recordFrame 1000).1.performanceMode ≠ sampleMonitor.performanceMode
    ∧ (1000 : ℚ) - sampleMonitor.lastTime ≥ 1000
    ∧ (sampleMonitor.recordFrame 1000).2 = sampleMonitor.callbacks.map (fun callback =>
        { callback := callback
          event := if (sampleMonitor.recordFrame 1000).1.performanceMode
            then "performance-mode-enabled" else "performance-mode-disabled"
          stats :=
            { currentFps := jsRound ((((sampleMonitor.frameCount + 1 : Nat) : ℚ) * 1000)
                / (1000 - sampleMonitor.lastTime))
              averageFps := jsRound ((sampleMonitor.recordFrame 1000).1.fpsHistory.sum
                / ((sampleMonitor.recordFrame 1000).1.fpsHistory.length : ℚ))
              performanceMode := (sampleMonitor.recordFrame 1000).1.performanceMode
              frameCount := sampleMonitor.frameCount + 1
              historySize := (sampleMonitor.recordFrame 1000).1.fpsHistory.length } })
    ∧ (sampleMonitor.recordFrame 1000).1.fpsHistory.getLast?
        = some (jsRound ((((sampleMonitor.frameCount + 1 : Nat) : ℚ) * 1000)
            / (1000 - sampleMonitor.lastTime)))
    ∧ (sampleMonitor.recordFrame 1000).2.map (fun n => n.callback) = sampleMonitor.callbacks
    ∧ (sampleMonitor.callbacks.Nodup → ∀ callback ∈ sampleMonitor.callbacks,
        ((sampleMonitor.recordFrame 1000).2.map (fun n => n.callback)).count callback = 1)
    ∧ (∀ callback, callback ∉ sampleMonitor.callbacks →
        ((sampleMonitor.recordFrame 1000).2.map (fun n => n.callback)).count callback = 0) :=
  have hne : (sampleMonitor.recordFrame 1000).1.performanceMode
      ≠ sampleMonitor.performanceMode := by
    rw [sampleMonitor_transition]
    exact Bool.noConfusion
  ⟨hne, (C12_notification sampleMonitor 1000).1 hne⟩

/-- The callbacks invoked by `recordFrame` and the event names they receive: every
subscriber with the event of the new mode when the mode changes, nobody
otherwise. -/
theorem recordFrame_notified (m : PerformanceMonitor) (currentTime : ℚ) :
    (m.recordFrame currentTime).2.map (fun n => (n.callback, n.event))
      = if (m.recordFrame currentTime).1.performanceMode = m.performanceMode then []
        else m.callbacks.map (fun callback =>
          (callback, transitionEvent (m.recordFrame currentTime).1.performanceMode)) := by
  by_cases hge : currentTime - m.lastTime ≥ 1000
  · have hrec := recordFrame_of_ge m currentTime hge
    rw [measure_eq] at hrec
    generalize jsRound ((((m.frameCount + 1 : Nat) : ℚ) * 1000) / (currentTime - m.lastTime))
      = fps at hrec
    rw [hrec]
    dsimp only
    generalize modeAfter m.performanceMode (averageOf (pushSample m.fpsHistory fps)) = mode
    by_cases hmode : mode = m.performanceMode
    · rw [if_pos hmode, if_pos hmode]
      rfl
    · rw [if_neg hmode, if_neg hmode]
      unfold PerformanceMonitor.notifyCallbacks
      rw [List.map_map]
      rfl
  · rw [recordFrame_of_lt m currentTime (not_le.mp hge)]
    simp

/-- C13, as amended. For every monitor operation other than `start` and every
state, if `performanceMode` after the operation differs from `performanceMode`
before it, then the operation is a `recordFrame` and during it every subscriber
was invoked with the event of the new mode; `start` sets `performanceMode` to
`false` and invokes no subscriber. -/
theorem C13_mode_changes_amended (m : PerformanceMonitor) (op : MonitorOp) :
    ((∀ now : ℚ, op ≠ MonitorOp.start now) →
      (m.runOp op).1.performanceMode ≠ m.performanceMode →
      (∃ now : ℚ, op = MonitorOp.recordFrame now)
      ∧ (m.runOp op).2.map (fun n => (n.callback, n.event))
          = m.callbacks.map (fun callback =>
              (callback, transitionEvent (m.runOp op).1.performanceMode)))
    ∧ (∀ now : ℚ, (m.runOp (MonitorOp.start now)).1.performanceMode = false
        ∧ (m.runOp (MonitorOp.start now)).2 = [])
    ∧ (m.runOp op).1 = m.applyOp op := by
  refine ⟨?_, fun now => ⟨rfl, rfl⟩, ?_⟩
  · intro hstart hne
    cases op with
    | start now => exact absurd rfl (hstart now)
    | recordFrame now =>
      refine ⟨⟨now, rfl⟩, ?_⟩
      have hne2 : (m.recordFrame now).1.performanceMode ≠ m.performanceMode := hne
      have h := recordFrame_notified m now
      rw [if_neg hne2] at h
      exact h
    | subscribe callback =>
      exfalso
      apply hne
      simp only [PerformanceMonitor.runOp, PerformanceMonitor.applyOp,
        PerformanceMonitor.subscribe]
      split_ifs <;> rfl
    | unsubscribe callback => exact absurd rfl hne
    | getStats => exact absurd rfl hne
    | shouldUsePerformanceMode => exact absurd rfl hne
    | getRecommendedSettings => exact absurd rfl hne
  · cases op <;> rfl

/-- Witness of C13 as amended: the measurement of `sampleMonitor` at time 1000. -/
theorem C13_mode_changes_amended_witness :
    (∃ now : ℚ, MonitorOp.recordFrame 1000 = MonitorOp.recordFrame now)
    ∧ (sampleMonitor.runOp (MonitorOp.recordFrame 1000)).2.map (fun n => (n.callback, n.event))
        = sampleMonitor.callbacks.map (fun callback =>
            (callback, transitionEvent
              (sampleMonitor.runOp (MonitorOp.recordFrame 1000)).1.performanceMode)) :=
  (C13_mode_changes_amended sampleMonitor (MonitorOp.recordFrame 1000)).1
    (fun now h => MonitorOp.noConfusion h)
    (by
      show (sampleMonitor.recordFrame 1000).1.performanceMode ≠ sampleMonitor.performanceMode
      rw [sampleMonitor_transition]
      exact Bool.noConfusion)

/-- Counterexample to C13 as stated. On `sampleMonitor`, which is in performance
mode and has the subscriber 7, `start` changes `performanceMode` to `false` and
invokes no callback. -/
theorem C13_mode_changes_counterexample :
    sampleMonitor.performanceMode = true
    ∧ sampleMonitor.callbacks = [7]
    ∧ (sampleMonitor.runOp (MonitorOp.start 5)).1.performanceMode = false
    ∧ (sampleMonitor.runOp (MonitorOp.start 5)).1.performanceMode
        ≠ sampleMonitor.performanceMode
    ∧ (sampleMonitor.runOp (MonitorOp.start 5)).2 = [] :=
  ⟨rfl, rfl, rfl, Bool.noConfusion, rfl⟩

/-! ## Performance monitor: subscribers that throw -/

/-- The notification loop raises no exception whatever the subscribers do: it
invokes every callback once, in order, and logs what the throwing ones threw. -/
theorem notifyCallbacksWith_eq (behaviour : CallbackBehaviour) (m : PerformanceMonitor)
    (event : String) :
    ∀ callbacks : List Nat,
      m.notifyCallbacksWith behaviour event callbacks
        = .ok (callbacks.map (fun callback =>
              { callback := callback, event := event, stats := m.getStats }),
            loggedErrors behaviour event m.getStats callbacks)
  | [] => rfl
  | callback :: rest => by
      unfold PerformanceMonitor.notifyCallbacksWith
      rw [notifyCallbacksWith_eq behaviour m event rest]
      dsimp only
      cases hb : behaviour callback event m.getStats with
      | ok u => simp [loggedErrors, hb]
      | error e => simp [loggedErrors, hb]

theorem loggedErrors_quiet (event : String) (stats : Stats) (callbacks : List Nat) :
    loggedErrors quietBehaviour event stats callbacks = [] := by
  induction callbacks with
  | nil => rfl
  | cons callback rest ih =>
    unfold loggedErrors at ih ⊢
    rw [List.filterMap_cons]
    simp only [quietBehaviour]
    exact ih

/-- Whatever the subscribers do, a measurement ends in the monitor and with the
invocations of `measure`. -/
theorem measureWith_eq (behaviour : CallbackBehaviour) (m : PerformanceMonitor)
    (fps currentTime : ℚ) :
    ∃ logged : List String,
      m.measureWith behaviour fps currentTime
        = .ok ((m.measure fps currentTime).1, (m.measure fps currentTime).2, logged)
      ∧ (behaviour = quietBehaviour → logged = []) := by
  unfold PerformanceMonitor.measureWith PerformanceMonitor.measure
  dsimp only
  generalize (decide (averageOf (pushSample m.fpsHistory fps) < lowPerformanceThreshold)
    && !m.performanceMode) = enter
  generalize (decide (averageOf (pushSample m.fpsHistory fps) > lowPerformanceThreshold + 10)
    && m.performanceMode) = leave
  cases enter with
  | true =>
    simp only [if_true]
    rw [notifyCallbacksWith_eq]
    refine ⟨_, rfl, ?_⟩
    intro hq
    rw [hq]
    exact loggedErrors_quiet _ _ _
  | false =>
    cases leave with
    | true =>
      simp only [Bool.false_eq_true, if_false, if_true]
      rw [notifyCallbacksWith_eq]
      refine ⟨_, rfl, ?_⟩
      intro hq
      rw [hq]
      exact loggedErrors_quiet _ _ _
    | false =>
      simp only [Bool.false_eq_true, if_false]
      exact ⟨[], rfl, fun _ => rfl⟩

/-- Whatever the subscribers do, `recordFrame` raises no exception and ends in the
monitor and with the invocations of the model without behaviours. -/
theorem recordFrameWith_eq (behaviour : CallbackBehaviour) (m : PerformanceMonitor)
    (currentTime : ℚ) :
    ∃ logged : List String,
      m.recordFrameWith behaviour currentTime
        = .ok ((m.recordFrame currentTime).1, (m.recordFrame currentTime).2, logged)
      ∧ (behaviour = quietBehaviour → logged = []) := by
  unfold PerformanceMonitor.recordFrameWith PerformanceMonitor.recordFrame
  dsimp only
  by_cases hge : currentTime - m.lastTime ≥ 1000
  · rw [if_pos hge, if_pos hge]
    exact measureWith_eq behaviour _ _ _
  · rw [if_neg hge, if_neg hge]
    exact ⟨[], rfl, fun _ => rfl⟩

theorem getStats_callbacks (m : PerformanceMonitor) (callbacks : List Nat) :
    ({ m with callbacks := callbacks } : PerformanceMonitor).getStats = m.getStats := rfl

/-- The set of subscribers does not influence the monitor `recordFrame`
reaches, up to that field. -/
theorem recordFrame_callbacks_fst (m : PerformanceMonitor) (callbacks : List Nat)
    (currentTime : ℚ) :
    (({ m with callbacks := callbacks } : PerformanceMonitor).recordFrame currentTime).1
      = { (m.recordFrame currentTime).1 with callbacks := callbacks } := by
  by_cases hge : currentTime - m.lastTime ≥ 1000
  · have hrec := recordFrame_of_ge m currentTime hge
    have hrec2 := recordFrame_of_ge { m with callbacks := callbacks } currentTime hge
    rw [measure_eq] at hrec hrec2
    rw [hrec, hrec2]
  · rw [recordFrame_of_lt m currentTime (not_le.mp hge),
      recordFrame_of_lt { m with callbacks := callbacks } currentTime (not_le.mp hge)]

/-- The invocations of `recordFrame` are uniform in the set of subscribers: when
the mode changes every subscriber receives the same event and the same stats
snapshot, otherwise nobody is invoked. -/
theorem recordFrame_callbacks_snd (m : PerformanceMonitor) (currentTime : ℚ) :
    ∃ stats : Stats, ∀ callbacks : List Nat,
      (({ m with callbacks := callbacks } : PerformanceMonitor).recordFrame currentTime).2
        = if (m.recordFrame currentTime).1.performanceMode = m.performanceMode then []
          else callbacks.map (fun callback =>
            { callback := callback
              event := transitionEvent (m.recordFrame currentTime).1.performanceMode
              stats := stats }) := by
  by_cases hge : currentTime - m.lastTime ≥ 1000
  · have hrec := recordFrame_of_ge m currentTime hge
    rw [measure_eq] at hrec
    refine ⟨({ m with
        frameCount := m.frameCount + 1
        fpsHistory := pushSample m.fpsHistory
          (jsRound ((((m.frameCount + 1 : Nat) : ℚ) * 1000) / (currentTime - m.lastTime)))
        performanceMode := modeAfter m.performanceMode (averageOf (pushSample m.fpsHistory
          (jsRound ((((m.frameCount + 1 : Nat) : ℚ) * 1000) / (currentTime - m.lastTime)))))
        } : PerformanceMonitor).getStats, ?_⟩
    intro callbacks
    have hrec2 := recordFrame_of_ge { m with callbacks := callbacks } currentTime hge
    rw [measure_eq] at hrec2
    rw [hrec, hrec2]
    rfl
  · refine ⟨m.getStats, ?_⟩
    intro callbacks
    rw [recordFrame_of_lt m currentTime (not_le.mp hge),
      recordFrame_of_lt { m with callbacks := callbacks } currentTime (not_le.mp hge)]
    simp

/-- When `recordFrame` changes the mode, the callbacks it invokes are the
subscribers, in order. -/
theorem recordFrame_invoked_callbacks (m : PerformanceMonitor) (currentTime : ℚ)
    (hne : (m.recordFrame currentTime).1.performanceMode ≠ m.performanceMode) :
    (m.recordFrame currentTime).2.map (fun n => n.callback) = m.callbacks := by
  have h := recordFrame_notified m currentTime
  rw [if_neg hne] at h
  have h2 := congrArg (List.map Prod.fst) h
  rw [List.map_map, List.map_map] at h2
  have hid : (m.callbacks.map (Prod.fst ∘ fun callback =>
      (callback, transitionEvent (m.recordFrame currentTime).1.performanceMode)))
      = m.callbacks := List.map_id _
  rw [hid] at h2
  exact h2

/-- A mode change happens only at a measurement, which resets the frame counter,
sets `lastTime` and pushes a sample. -/
theorem recordFrame_transition_fields (m : PerformanceMonitor) (currentTime : ℚ)
    (hne : (m.recordFrame currentTime).1.performanceMode ≠ m.performanceMode) :
    (m.recordFrame currentTime).1.frameCount = 0
    ∧ (m.recordFrame currentTime).1.lastTime = currentTime
    ∧ (m.recordFrame currentTime).1.fpsHistory = pushSample m.fpsHistory
        (jsRound ((((m.frameCount + 1 : Nat) : ℚ) * 1000) / (currentTime - m.lastTime))) := by
  by_cases hge : currentTime - m.lastTime ≥ 1000
  · rw [recordFrame_of_ge m currentTime hge]
    exact ⟨measure_frameCount _ _ _, measure_lastTime _ _ _, measure_fpsHistory _ _ _⟩
  · rw [recordFrame_of_lt m currentTime (not_le.mp hge)] at hne
    exact absurd rfl hne

/-- C14 (subscriber failure isolation). Whatever each subscriber does when it is
invoked (return or throw), `recordFrame` raises no exception and ends in the
monitor state, and with the invocations, that it has when no subscriber throws;
at a transition every subscriber, the throwing ones and the others, is invoked
exactly once, the mode is toggled, the history holds the new sample, the frame
counter is 0 and `lastTime` is the current time. -/
theorem C14_subscriber_failure (behaviour : CallbackBehaviour) (m : PerformanceMonitor)
    (currentTime : ℚ) :
    ∃ (m1 : PerformanceMonitor) (invoked : List Notification) (logged : List String),
      m.recordFrameWith behaviour currentTime = .ok (m1, invoked, logged)
      ∧ m.recordFrameWith quietBehaviour currentTime = .ok (m1, invoked, [])
      ∧ (m1.performanceMode ≠ m.performanceMode →
          invoked.map (fun n => n.callback) = m.callbacks
          ∧ (m.callbacks.Nodup → ∀ callback ∈ m.callbacks,
              (invoked.map (fun n => n.callback)).count callback = 1)
          ∧ m1.frameCount = 0
          ∧ m1.lastTime = currentTime
          ∧ m1.fpsHistory = pushSample m.fpsHistory
              (jsRound ((((m.frameCount + 1 : Nat) : ℚ) * 1000)
                / (currentTime - m.lastTime)))) := by
  obtain ⟨logged, hrun, _⟩ := recordFrameWith_eq behaviour m currentTime
  obtain ⟨loggedQuiet, hquiet, hnil⟩ := recordFrameWith_eq quietBehaviour m currentTime
  rw [hnil rfl] at hquiet
  refine ⟨_, _, logged, hrun, hquiet, ?_⟩
  intro hne
  have hcb := recordFrame_invoked_callbacks m currentTime hne
  obtain ⟨hcount, hlast, hhist⟩ := recordFrame_transition_fields m currentTime hne
  refine ⟨hcb, ?_, hcount, hlast, hhist⟩
  intro hnodup callback hmem
  rw [hcb]
  exact List.count_eq_one_of_mem hnodup hmem

theorem sampleMonitorTwo_transition :
    (sampleMonitorTwo.recordFrame 1000).1.performanceMode = false := by
  have h := recordFrame_callbacks_fst sampleMonitor [7, 8] 1000
  have h2 := congrArg PerformanceMonitor.performanceMode h
  rw [show ({ sampleMonitor with callbacks := [7, 8] } : PerformanceMonitor)
    = sampleMonitorTwo from rfl] at h2
  rw [h2]
  exact sampleMonitor_transition

/-- Witness of C14: the subscriber 7 throws at the transition of a monitor with
the subscribers 7 and 8; both are invoked once and the run does not throw. -/
theorem C14_subscriber_failure_witness :
    throwingBehaviour 7 "performance-mode-disabled"
        (sampleMonitorTwo.recordFrame 1000).1.getStats = .error "subscriber failed"
    ∧ ∃ (m1 : PerformanceMonitor) (invoked : List Notification) (logged : List String),
      sampleMonitorTwo.recordFrameWith throwingBehaviour 1000 = .ok (m1, invoked, logged)
      ∧ sampleMonitorTwo.recordFrameWith quietBehaviour 1000 = .ok (m1, invoked, [])
      ∧ invoked.map (fun n => n.callback) = [7, 8]
      ∧ m1.performanceMode = false
      ∧ m1.frameCount = 0
      ∧ m1.lastTime = 1000 := by
  obtain ⟨m1, invoked, logged, hrun, hquiet, htrans⟩ :=
    C14_subscriber_failure throwingBehaviour sampleMonitorTwo 1000
  obtain ⟨loggedQuiet, hq, _⟩ := recordFrameWith_eq quietBehaviour sampleMonitorTwo 1000
  have hm1 : m1 = (sampleMonitorTwo.recordFrame 1000).1 := by
    rw [hquiet] at hq
    simp only [Except.ok.injEq, Prod.mk.injEq] at hq
    exact hq.1
  have hmode : m1.performanceMode = false := by
    rw [hm1]
    exact sampleMonitorTwo_transition
  have hne : m1.performanceMode ≠ sampleMonitorTwo.performanceMode := by
    rw [hmode]
    exact Bool.noConfusion
  obtain ⟨hcb, _, hcount, hlast, _⟩ := htrans hne
  exact ⟨rfl, m1, invoked, logged, hrun, hquiet, hcb, hmode, hcount, hlast⟩

/-! ## Performance monitor: recommended settings -/

theorem jsRound_lt_iff (x : ℚ) (n : ℤ) : jsRound x < (n : ℚ) ↔ x < (n : ℚ) - 1 / 2 := by
  unfold jsRound
  rw [Int.cast_lt, Int.floor_lt]
  constructor <;> intro h <;> linarith

theorem getStats_averageFps (m : PerformanceMonitor) :
    m.getStats.averageFps = jsRound (historyAverage m.fpsHistory) := rfl

/-- The settings `getRecommendedSettings` returns, by the position of the history
average with respect to 19.5 and 39.5. -/
theorem getRecommendedSettings_eq (m : PerformanceMonitor) :
    m.getRecommendedSettings
      = if historyAverage m.fpsHistory < 39 / 2 then minimalSettings
        else if historyAverage m.fpsHistory < 79 / 2 then mediumSettings
        else fullSettings := by
  have h20 := jsRound_lt_iff (historyAverage m.fpsHistory) 20
  have h40 := jsRound_lt_iff (historyAverage m.fpsHistory) 40
  have e20 : ((20 : ℤ) : ℚ) - 1 / 2 = 39 / 2 := by norm_num
  have e40 : ((40 : ℤ) : ℚ) - 1 / 2 = 79 / 2 := by norm_num
  have c20 : ((20 : ℤ) : ℚ) = 20 := by norm_num
  have c40 : ((40 : ℤ) : ℚ) = 40 := by norm_num
  rw [e20, c20] at h20
  rw [e40, c40] at h40
  unfold PerformanceMonitor.getRecommendedSettings
  dsimp only
  rw [getStats_averageFps]
  by_cases h1 : historyAverage m.fpsHistory < 39 / 2
  · rw [if_pos (h20.mpr h1), if_pos h1]
    rfl
  · rw [if_neg (fun h => h1 (h20.mp h)), if_neg h1]
    by_cases h2 : historyAverage m.fpsHistory < 79 / 2
    · rw [if_pos (h40.mpr h2), if_pos h2]
      rfl
    · rw [if_neg (fun h => h2 (h40.mp h)), if_neg h2]
      rfl

/-- C15, as amended. `getRecommendedSettings` is a function of the average FPS of
the history only (an empty history counting as average 0), rounded to the nearest
integer, and does not change the monitor: it returns the minimal settings when
the rounded average is below 20, that is for every history whose average is below
19.5; the medium settings when the rounded average is at least 20 and below 40,
that is for an average of at least 19.5 and below 39.5; and full fidelity when the
rounded average is at least 40, that is for an average of at least 39.5. -/
theorem C15_recommended_settings_amended (m : PerformanceMonitor) :
    (historyAverage m.fpsHistory
        = if m.fpsHistory = [] then 0
          else m.fpsHistory.sum / (m.fpsHistory.length : ℚ))
    ∧ (jsRound (historyAverage m.fpsHistory) < 20 ↔ historyAverage m.fpsHistory < 39 / 2)
    ∧ (jsRound (historyAverage m.fpsHistory) < 40 ↔ historyAverage m.fpsHistory < 79 / 2)
    ∧ (historyAverage m.fpsHistory < 39 / 2 →
        m.getRecommendedSettings
          = { ropeSegments := 8, enableShadows := false, enableTexture := false,
              showTension := false, animationSpeed := "slow" })
    ∧ (39 / 2 ≤ historyAverage m.fpsHistory → historyAverage m.fpsHistory < 79 / 2 →
        m.getRecommendedSettings
          = { ropeSegments := 10, enableShadows := false, enableTexture := true,
              showTension := false, animationSpeed := "normal" })
    ∧ (79 / 2 ≤ historyAverage m.fpsHistory →
        m.getRecommendedSettings
          = { ropeSegments := 12, enableShadows := true, enableTexture := true,
              showTension := true, animationSpeed := "normal" })
    ∧ (∀ m2 : PerformanceMonitor,
        historyAverage m2.fpsHistory = historyAverage m.fpsHistory →
        m2.getRecommendedSettings = m.getRecommendedSettings)
    ∧ m.applyOp MonitorOp.getRecommendedSettings = m := by
  have h20 := jsRound_lt_iff (historyAverage m.fpsHistory) 20
  have h40 := jsRound_lt_iff (historyAverage m.fpsHistory) 40
  have e20 : ((20 : ℤ) : ℚ) - 1 / 2 = 39 / 2 := by norm_num
  have e40 : ((40 : ℤ) : ℚ) - 1 / 2 = 79 / 2 := by norm_num
  have c20 : ((20 : ℤ) : ℚ) = 20 := by norm_num
  have c40 : ((40 : ℤ) : ℚ) = 40 := by norm_num
  rw [e20, c20] at h20
  rw [e40, c40] at h40
  refine ⟨?_, h20, h40, ?_, ?_, ?_, ?_, rfl⟩
  · unfold historyAverage
    cases hh : m.fpsHistory with
    | nil => simp
    | cons x xs =>
      rw [if_pos (by simp), if_neg (by simp), averageOf_eq_sum]
  · intro h1
    rw [getRecommendedSettings_eq, if_pos h1]
    rfl
  · intro h1 h2
    rw [getRecommendedSettings_eq, if_neg (not_lt.mpr h1), if_pos h2]
    rfl
  · intro h2
    have h1 : ¬ historyAverage m.fpsHistory < 39 / 2 := by
      intro h
      linarith
    rw [getRecommendedSettings_eq, if_neg h1, if_neg (not_lt.mpr h2)]
    rfl
  · intro m2 heq
    rw [getRecommendedSettings_eq, getRecommendedSettings_eq, heq]

theorem halfwayMonitor_average : historyAverage halfwayMonitor.fpsHistory = 39 / 2 := by
  unfold historyAverage halfwayMonitor
  rw [if_pos (by simp), averageOf_eq_sum]
  norm_num

/-- Witness of C15 as amended: the history `[19, 20]`, of average 19.5, gets the
medium settings. -/
theorem C15_recommended_settings_amended_witness :
    (39 : ℚ) / 2 ≤ historyAverage halfwayMonitor.fpsHistory
    ∧ historyAverage halfwayMonitor.fpsHistory < 79 / 2
    ∧ halfwayMonitor.getRecommendedSettings
        = { ropeSegments := 10, enableShadows := false, enableTexture := true,
            showTension := false, animationSpeed := "normal" } :=
  have h1 : (39 : ℚ) / 2 ≤ historyAverage halfwayMonitor.fpsHistory := by
    rw [halfwayMonitor_average]
  have h2 : historyAverage halfwayMonitor.fpsHistory < 79 / 2 := by
    rw [halfwayMonitor_average]
    norm_num
  ⟨h1, h2, (C15_recommended_settings_amended halfwayMonitor).2.2.2.2.1 h1 h2⟩

/-- Counterexample to C15 as stated. The history `[19, 20]` has the average 19.5,
which is below 20, and `getRecommendedSettings` returns the medium settings, not
the minimal ones. -/
theorem C15_recommended_settings_counterexample :
    halfwayMonitor.fpsHistory.sum / (halfwayMonitor.fpsHistory.length : ℚ) = 39 / 2
    ∧ (39 : ℚ) / 2 < 20
    ∧ halfwayMonitor.getRecommendedSettings
        = { ropeSegments := 10, enableShadows := false, enableTexture := true,
            showTension := false, animationSpeed := "normal" }
    ∧ halfwayMonitor.getRecommendedSettings
        ≠ { ropeSegments := 8, enableShadows := false, enableTexture := false,
            showTension := false, animationSpeed := "slow" } := by
  have hset : halfwayMonitor.getRecommendedSettings = mediumSettings := by
    rw [getRecommendedSettings_eq, halfwayMonitor_average, if_neg (lt_irrefl _),
      if_pos (by norm_num)]
  refine ⟨by norm_num [halfwayMonitor], by norm_num, hset, ?_⟩
  rw [hset]
  intro h
  have := congrArg RecommendedSettings.ropeSegments h
  simp [mediumSettings] at this

/-! ## Performance monitor: the FPS sample -/

/-- The value `Math.round` returns is the integer `n` with `n - 1/2 ≤ x < n + 1/2`. -/
theorem jsRound_spec (x : ℚ) :
    ∃ n : ℤ, jsRound x = (n : ℚ) ∧ (n : ℚ) - 1 / 2 ≤ x ∧ x < (n : ℚ) + 1 / 2 := by
  refine ⟨⌊x + 1 / 2⌋, rfl, ?_, ?_⟩
  · have h := Int.floor_le (x + 1 / 2)
    linarith
  · have h := Int.lt_floor_add_one (x + 1 / 2)
    linarith

theorem jsRound_two_thirds : jsRound (2 / 3) = 1 := by
  unfold jsRound
  have h : ⌊(2 : ℚ) / 3 + 1 / 2⌋ = 1 := by
    rw [Int.floor_eq_iff]
    constructor <;> norm_num
  rw [h]
  norm_num

/-- C16, as amended. `recordFrame` at clock time `t` increments the frame counter;
if `t - lastTime < 1000` nothing else in the monitor changes and nobody is
notified; otherwise the sample pushed onto the history is
`frames * 1000 / (t - lastTime)` rounded to the nearest integer (`Math.round`),
where `frames` is the counter including the current frame, after which the frame
counter is 0 and `lastTime = t`. -/
theorem C16_fps_sample_amended (m : PerformanceMonitor) (currentTime : ℚ) :
    (currentTime - m.lastTime < 1000 →
      m.recordFrame currentTime = ({ m with frameCount := m.frameCount + 1 }, []))
    ∧ (currentTime - m.lastTime ≥ 1000 →
      (m.recordFrame currentTime).1.fpsHistory = pushSample m.fpsHistory
          (jsRound ((((m.frameCount + 1 : Nat) : ℚ) * 1000) / (currentTime - m.lastTime)))
      ∧ (m.recordFrame currentTime).1.fpsHistory.getLast?
          = some (jsRound ((((m.frameCount + 1 : Nat) : ℚ) * 1000)
              / (currentTime - m.lastTime)))
      ∧ (∃ n : ℤ,
          jsRound ((((m.frameCount + 1 : Nat) : ℚ) * 1000) / (currentTime - m.lastTime))
            = (n : ℚ)
          ∧ (n : ℚ) - 1 / 2
            ≤ (((m.frameCount + 1 : Nat) : ℚ) * 1000) / (currentTime - m.lastTime)
          ∧ (((m.frameCount + 1 : Nat) : ℚ) * 1000) / (currentTime - m.lastTime)
            < (n : ℚ) + 1 / 2)
      ∧ (m.recordFrame currentTime).1.frameCount = 0
      ∧ (m.recordFrame currentTime).1.lastTime = currentTime) := by
  constructor
  · intro hlt
    exact recordFrame_of_lt m currentTime hlt
  · intro hge
    rw [recordFrame_of_ge m currentTime hge]
    refine ⟨measure_fpsHistory _ _ _, ?_, jsRound_spec _, measure_frameCount _ _ _,
      measure_lastTime _ _ _⟩
    rw [measure_fpsHistory]
    exact pushSample_getLast _ _

/-- Witness of C16 as amended: a frame 500 ms and a frame 1500 ms after the
construction of the monitor. -/
theorem C16_fps_sample_amended_witness :
    (PerformanceMonitor.new 0).recordFrame 500
        = ({ PerformanceMonitor.new 0 with frameCount := (PerformanceMonitor.new 0).frameCount + 1 },
            [])
    ∧ ((PerformanceMonitor.new 0).recordFrame 1500).1.fpsHistory
        = pushSample (PerformanceMonitor.new 0).fpsHistory
          (jsRound (((((PerformanceMonitor.new 0).frameCount + 1 : Nat) : ℚ) * 1000)
            / (1500 - (PerformanceMonitor.new 0).lastTime)))
    ∧ ((PerformanceMonitor.new 0).recordFrame 1500).1.frameCount = 0
    ∧ ((PerformanceMonitor.new 0).recordFrame 1500).1.lastTime = 1500 :=
  have h := (C16_fps_sample_amended (PerformanceMonitor.new 0) 1500).2
    (by norm_num [PerformanceMonitor.new])
  ⟨(C16_fps_sample_amended (PerformanceMonitor.new 0) 500).1
      (by norm_num [PerformanceMonitor.new]),
    h.1, h.2.2.2.1, h.2.2.2.2⟩

/-- Counterexample to C16 as stated. The first frame recorded 1500 ms after the
construction of the monitor pushes the sample 1, whereas
`frames * 1000 / (t - lastTime) = 1 * 1000 / 1500 = 2/3`. -/
theorem C16_fps_sample_counterexample :
    ((PerformanceMonitor.new 0).recordFrame 1500).1.fpsHistory = [1]
    ∧ ((((PerformanceMonitor.new 0).frameCount + 1 : Nat) : ℚ) * 1000)
        / (1500 - (PerformanceMonitor.new 0).lastTime) = 2 / 3
    ∧ ((PerformanceMonitor.new 0).recordFrame 1500).1.fpsHistory ≠ [2 / 3] := by
  have hval : ((((PerformanceMonitor.new 0).frameCount + 1 : Nat) : ℚ) * 1000)
      / (1500 - (PerformanceMonitor.new 0).lastTime) = 2 / 3 := by
    norm_num [PerformanceMonitor.new]
  have hhist : ((PerformanceMonitor.new 0).recordFrame 1500).1.fpsHistory = [1] := by
    rw [recordFrame_of_ge _ _ (by norm_num [PerformanceMonitor.new]), measure_fpsHistory,
      hval, jsRound_two_thirds]
    rfl
  refine ⟨hhist, hval, ?_⟩
  rw [hhist]
  norm_num

/-! ## Performance monitor: subscriptions -/

theorem recordFrame_callbacks (m : PerformanceMonitor) (currentTime : ℚ) :
    (m.recordFrame currentTime).1.callbacks = m.callbacks := by
  by_cases hge : currentTime - m.lastTime ≥ 1000
  · rw [recordFrame_of_ge m currentTime hge, measure_callbacks]
  · rw [recordFrame_of_lt m currentTime (not_le.mp hge)]

theorem subscribe_of_mem (m : PerformanceMonitor) (callback : Nat)
    (hmem : callback ∈ m.callbacks) : m.subscribe callback = m := by
  unfold PerformanceMonitor.subscribe
  rw [if_pos hmem]

theorem mem_subscribe (m : PerformanceMonitor) (callback : Nat) :
    callback ∈ (m.subscribe callback).callbacks := by
  unfold PerformanceMonitor.subscribe
  split_ifs with hmem
  · exact hmem
  · simp

theorem subscribe_nodup (m : PerformanceMonitor) (callback : Nat)
    (hnodup : m.callbacks.Nodup) : (m.subscribe callback).callbacks.Nodup := by
  unfold PerformanceMonitor.subscribe
  split_ifs with hmem
  · exact hnodup
  · dsimp only
    rw [List.nodup_append]
    refine ⟨hnodup, List.nodup_singleton _, ?_⟩
    intro x hx hx2
    rw [List.mem_singleton] at hx2
    exact hmem (hx2 ▸ hx)

theorem applyOp_nodup (m : PerformanceMonitor) (op : MonitorOp)
    (hnodup : m.callbacks.Nodup) : (m.applyOp op).callbacks.Nodup := by
  cases op with
  | start now => exact hnodup
  | recordFrame now =>
    show (m.recordFrame now).1.callbacks.Nodup
    rw [recordFrame_callbacks]
    exact hnodup
  | subscribe callback => exact subscribe_nodup m callback hnodup
  | unsubscribe callback => exact List.Nodup.filter _ hnodup
  | getStats => exact hnodup
  | shouldUsePerformanceMode => exact hnodup
  | getRecommendedSettings => exact hnodup

theorem applyOps_nodup :
    ∀ (ops : List MonitorOp) (m : PerformanceMonitor), m.callbacks.Nodup →
      (m.applyOps ops).callbacks.Nodup
  | [], _, h => h
  | op :: ops, m, h => by
      unfold PerformanceMonitor.applyOps
      rw [List.foldl_cons]
      exact applyOps_nodup ops (m.applyOp op) (applyOp_nodup m op h)

theorem subscribe_iterate (m : PerformanceMonitor) (callback : Nat) :
    ∀ n : Nat, (fun x : PerformanceMonitor => x.subscribe callback)^[n + 1] m
      = m.subscribe callback
  | 0 => rfl
  | n + 1 => by
      rw [Function.iterate_succ_apply', subscribe_iterate m callback n]
      exact subscribe_of_mem _ _ (mem_subscribe m callback)

/-- C19 (subscription set semantics). Subscribing the same callback reference two
or more times leaves the monitor in the state that subscribing it once leaves;
the subscribers of a monitor reached from the constructor by any operations are
without repetition; so at a transition after repeated subscriptions of `callback`
every subscriber, `callback` among them, is invoked exactly once. -/
theorem C19_subscription_set (m : PerformanceMonitor) (callback : Nat) :
    (m.subscribe callback).subscribe callback = m.subscribe callback
    ∧ (∀ n : Nat, (fun x : PerformanceMonitor => x.subscribe callback)^[n + 1] m
        = m.subscribe callback)
    ∧ (∀ (now : ℚ) (ops : List MonitorOp),
        ((PerformanceMonitor.new now).applyOps ops).callbacks.Nodup)
    ∧ (m.callbacks.Nodup →
        (m.subscribe callback).callbacks.Nodup
        ∧ (m.subscribe callback).callbacks.count callback = 1
        ∧ ∀ (n : Nat) (currentTime : ℚ),
            (((fun x : PerformanceMonitor => x.subscribe callback)^[n + 1] m).recordFrame
                currentTime).1.performanceMode
              ≠ ((fun x : PerformanceMonitor => x.subscribe callback)^[n + 1] m).performanceMode →
            ((((fun x : PerformanceMonitor => x.subscribe callback)^[n + 1] m).recordFrame
                currentTime).2.map (fun n => n.callback)).count callback = 1
            ∧ ∀ other ∈ m.callbacks,
                ((((fun x : PerformanceMonitor => x.subscribe callback)^[n + 1] m).recordFrame
                  currentTime).2.map (fun n => n.callback)).count other = 1) := by
  refine ⟨subscribe_of_mem _ _ (mem_subscribe m callback), subscribe_iterate m callback, ?_, ?_⟩
  · intro now ops
    exact applyOps_nodup ops (PerformanceMonitor.new now) List.nodup_nil
  · intro hnodup
    have hsub := subscribe_nodup m callback hnodup
    refine ⟨hsub, List.count_eq_one_of_mem hsub (mem_subscribe m callback), ?_⟩
    intro n currentTime hne
    rw [subscribe_iterate m callback n] at hne ⊢
    rw [recordFrame_invoked_callbacks _ _ hne]
    refine ⟨List.count_eq_one_of_mem hsub (mem_subscribe m callback), ?_⟩
    intro other hother
    refine List.count_eq_one_of_mem hsub ?_
    unfold PerformanceMonitor.subscribe
    split_ifs
    · exact hother
    · exact List.mem_append_left _ hother

/-- Witness of C19: the subscriber 8 is added three times to `sampleMonitor`, whose
measurement at time 1000 is a transition. -/
theorem C19_subscription_set_witness :
    (sampleMonitor.subscribe 8).callbacks.Nodup
    ∧ (sampleMonitor.subscribe 8).callbacks.count 8 = 1
    ∧ ∀ (n : Nat) (currentTime : ℚ),
        (((fun x : PerformanceMonitor => x.subscribe 8)^[n + 1] sampleMonitor).recordFrame
            currentTime).1.performanceMode
          ≠ ((fun x : PerformanceMonitor => x.subscribe 8)^[n + 1] sampleMonitor).performanceMode →
        ((((fun x : PerformanceMonitor => x.subscribe 8)^[n + 1] sampleMonitor).recordFrame
            currentTime).2.map (fun n => n.callback)).count 8 = 1
        ∧ ∀ other ∈ sampleMonitor.callbacks,
            ((((fun x : PerformanceMonitor => x.subscribe 8)^[n + 1] sampleMonitor).recordFrame
              currentTime).2.map (fun n => n.callback)).count other = 1 :=
  (C19_subscription_set sampleMonitor 8).2.2.2 (by simp [sampleMonitor])

theorem unsubscribe_eq (m : PerformanceMonitor) (callback : Nat) :
    m.unsubscribe callback
      = { m with callbacks := m.callbacks.filter (fun c => c ≠ callback) } := rfl

/-- One `recordFrame` after an unsubscription: the monitor reached is the one
reached without it, unsubscribed, and the invocations are those made without it
minus the ones of the unsubscribed callback. -/
theorem recordFrame_unsubscribe (m : PerformanceMonitor) (callback : Nat) (currentTime : ℚ) :
    (m.unsubscribe callback).recordFrame currentTime
      = ((m.recordFrame currentTime).1.unsubscribe callback,
          (m.recordFrame currentTime).2.filter (fun n => n.callback ≠ callback)) := by
  obtain ⟨stats, hsnd⟩ := recordFrame_callbacks_snd m currentTime
  have hfst := recordFrame_callbacks_fst m (m.callbacks.filter (fun c => c ≠ callback))
    currentTime
  have hfiltered := hsnd (m.callbacks.filter (fun c => c ≠ callback))
  have hown := hsnd m.callbacks
  rw [show ({ m with callbacks := m.callbacks } : PerformanceMonitor) = m from rfl] at hown
  rw [← unsubscribe_eq] at hfst hfiltered
  apply Prod.ext
  · rw [hfst, unsubscribe_eq, recordFrame_callbacks]
  · dsimp only
    rw [hfiltered, hown]
    split_ifs
    · rfl
    · rw [List.filter_map]
      rfl

/-- A run of `recordFrame` after an unsubscription. -/
theorem recordFrames_unsubscribe (callback : Nat) :
    ∀ (times : List ℚ) (m : PerformanceMonitor),
      (m.unsubscribe callback).recordFrames times
        = ((m.recordFrames times).1.unsubscribe callback,
            (m.recordFrames times).2.filter (fun n => n.callback ≠ callback))
  | [], _ => rfl
  | t :: ts, m => by
      rw [recordFrames_cons, recordFrames_cons, recordFrame_unsubscribe]
      dsimp only
      rw [recordFrames_unsubscribe callback ts (m.recordFrame t).1]
      dsimp only
      rw [List.filter_append]

/-- C20 (unsubscribe). After the function returned by `subscribe(callback)` has
been called, over every later run of `recordFrame` the callback is not invoked,
the invocations of every other subscriber are those made without the
unsubscription, in the same order and with the same event and stats, and the
monitor evolves as it does without the unsubscription; unsubscribing right after
a first subscription restores the monitor. -/
theorem C20_unsubscribe (m : PerformanceMonitor) (callback : Nat) (times : List ℚ) :
    callback ∉ (m.unsubscribe callback).callbacks
    ∧ ((m.unsubscribe callback).recordFrames times).2
        = (m.recordFrames times).2.filter (fun n => n.callback ≠ callback)
    ∧ (∀ n ∈ ((m.unsubscribe callback).recordFrames times).2, n.callback ≠ callback)
    ∧ (∀ other : Nat, other ≠ callback →
        ((m.unsubscribe callback).recordFrames times).2.filter (fun n => n.callback = other)
          = (m.recordFrames times).2.filter (fun n => n.callback = other))
    ∧ ((m.unsubscribe callback).recordFrames times).1
        = (m.recordFrames times).1.unsubscribe callback
    ∧ (callback ∉ m.callbacks → (m.subscribe callback).unsubscribe callback = m) := by
  have hrun := recordFrames_unsubscribe callback times m
  refine ⟨?_, ?_, ?_, ?_, ?_, ?_⟩
  · intro hmem
    rw [unsubscribe_eq] at hmem
    dsimp only at hmem
    rw [List.mem_filter] at hmem
    simp at hmem
  · rw [hrun]
  · intro n hn
    rw [hrun] at hn
    dsimp only at hn
    rw [List.mem_filter] at hn
    simpa using hn.2
  · intro other hother
    rw [hrun]
    dsimp only
    rw [List.filter_filter]
    apply List.filter_congr
    intro n _
    by_cases hn : n.callback = other
    · simp [hn, hother]
    · simp [hn]
  · rw [hrun]
  · intro hnot
    unfold PerformanceMonitor.subscribe
    rw [if_neg hnot, unsubscribe_eq]
    dsimp only
    have hfilter : (m.callbacks ++ [callback]).filter (fun c => c ≠ callback) = m.callbacks := by
      rw [List.filter_append]
      have h1 : m.callbacks.filter (fun c => c ≠ callback) = m.callbacks := by
        rw [List.filter_eq_self]
        intro x hx
        have : x ≠ callback := fun h => hnot (h ▸ hx)
        simpa using this
      rw [h1]
      simp
    rw [hfilter]

/-- Witness of C20: the subscriber 8 is added to `sampleMonitor` and removed
again. -/
theorem C20_unsubscribe_witness :
    8 ∉ sampleMonitor.callbacks
    ∧ (sampleMonitor.subscribe 8).unsubscribe 8 = sampleMonitor :=
  have h : 8 ∉ sampleMonitor.callbacks := by simp [sampleMonitor]
  ⟨h, (C20_unsubscribe sampleMonitor 8 [1000]).2.2.2.2.2 h⟩

/-! ## Path generator: tension -/

theorem tensionLoop_eq (sqrt : ℚ → ℚ) :
    ∀ (pts : Chain) (total : ℚ),
      tensionLoop sqrt pts total = total + (segmentLengths sqrt pts).sum
  | [], total => by simp [tensionLoop, segmentLengths]
  | [_], total => by simp [tensionLoop, segmentLengths]
  | p :: q :: rest, total => by
      rw [tensionLoop, segmentLengths, List.sum_cons, tensionLoop_eq sqrt (q :: rest)]
      ring

theorem segmentLengths_length (sqrt : ℚ → ℚ) :
    ∀ pts : Chain, (segmentLengths sqrt pts).length = pts.length - 1
  | [] => rfl
  | [_] => rfl
  | p :: q :: rest => by
      rw [segmentLengths, List.length_cons, segmentLengths_length sqrt (q :: rest)]
      simp

theorem segmentLengths_getElem (sqrt : ℚ → ℚ) :
    ∀ (pts : Chain) (i : Nat) (p q : MassPoint), pts[i]? = some p → pts[i + 1]? = some q →
      (segmentLengths sqrt pts)[i]?
        = some (sqrt ((q.x - p.x) * (q.x - p.x) + (q.y - p.y) * (q.y - p.y)))
  | [], i, p, q, hp, _ => by simp at hp
  | [_], i, p, q, _, hq => by simp at hq
  | a :: b :: rest, 0, p, q, hp, hq => by
      simp only [List.getElem?_cons_zero, Option.some.injEq, zero_add,
        List.getElem?_cons_succ] at hp hq
      rw [segmentLengths, ← hp, ← hq, List.getElem?_cons_zero]
  | a :: b :: rest, i + 1, p, q, hp, hq => by
      rw [List.getElem?_cons_succ] at hp hq
      rw [segmentLengths, List.getElem?_cons_succ]
      exact segmentLengths_getElem sqrt (b :: rest) i p q hp hq

theorem sum_eq_of_forall_eq (d : ℚ) :
    ∀ l : List ℚ, (∀ x ∈ l, x = d) → l.sum = (l.length : ℚ) * d
  | [], _ => by simp
  | x :: xs, h => by
      rw [List.sum_cons, h x (List.mem_cons_self _ _),
        sum_eq_of_forall_eq d xs (fun y hy => h y (List.mem_cons_of_mem _ hy)),
        List.length_cons]
      push_cast
      ring

/-- C17 (tension metric). With `sqrt` for `Math.sqrt`: `calculateTension` returns 0
for an absent chain and for a chain of fewer than 2 points; for a chain of at
least 2 points it returns the mean of the Euclidean distances between consecutive
points, `sqrt((x' - x)² + (y' - y)²)` for the points `i` and `i + 1`, rounded to
the nearest integer; and for a chain whose consecutive points are all at the same
distance `d` it returns `round(d)`. -/
theorem C17_tension (sqrt : ℚ → ℚ) :
    calculateTension sqrt none = 0
    ∧ (∀ pts : Chain, pts.length < 2 → calculateTension sqrt (some pts) = 0)
    ∧ (∀ pts : Chain, 2 ≤ pts.length →
        calculateTension sqrt (some pts)
          = jsRound ((segmentLengths sqrt pts).sum / ((segmentLengths sqrt pts).length : ℚ))
        ∧ (segmentLengths sqrt pts).length = pts.length - 1
        ∧ ∀ (i : Nat) (p q : MassPoint), pts[i]? = some p → pts[i + 1]? = some q →
            (segmentLengths sqrt pts)[i]?
              = some (sqrt ((q.x - p.x) * (q.x - p.x) + (q.y - p.y) * (q.y - p.y))))
    ∧ (∀ (pts : Chain) (d : ℚ), 2 ≤ pts.length →
        (∀ s ∈ segmentLengths sqrt pts, s = d) →
        calculateTension sqrt (some pts) = jsRound d) := by
  have hmean : ∀ pts : Chain, 2 ≤ pts.length →
      calculateTension sqrt (some pts)
        = jsRound ((segmentLengths sqrt pts).sum / ((segmentLengths sqrt pts).length : ℚ)) := by
    intro pts hlen
    unfold calculateTension
    dsimp only
    rw [if_neg (by omega), tensionLoop_eq, zero_add, segmentLengths_length,
      Nat.cast_sub (by omega)]
    simp
  refine ⟨rfl, ?_, ?_, ?_⟩
  · intro pts hlen
    unfold calculateTension
    dsimp only
    rw [if_pos hlen]
  · intro pts hlen
    exact ⟨hmean pts hlen, segmentLengths_length sqrt pts, segmentLengths_getElem sqrt pts⟩
  · intro pts d hlen hall
    rw [hmean pts hlen, sum_eq_of_forall_eq d _ hall]
    have hpos : ((segmentLengths sqrt pts).length : ℚ) ≠ 0 := by
      rw [segmentLengths_length]
      have : 0 < pts.length - 1 := by omega
      exact_mod_cast (Nat.pos_iff_ne_zero.mp this)
    rw [mul_comm, mul_div_assoc, div_self hpos, mul_one]

/-- Witness of C17: the chain `(0, 0), (3, 4), (6, 8)` has tension 5. -/
theorem C17_tension_witness :
    2 ≤ straightChain.length
    ∧ (∀ s ∈ segmentLengths sampleSqrt straightChain, s = 5)
    ∧ calculateTension sampleSqrt (some straightChain) = jsRound 5 :=
  have hall : ∀ s ∈ segmentLengths sampleSqrt straightChain, s = 5 := by
    intro s hs
    simp only [segmentLengths, straightChain, sampleSqrt] at hs
    norm_num at hs
    exact hs
  ⟨by decide, hall, (C17_tension sampleSqrt).2.2.2 straightChain 5 (by decide) hall⟩

/-! ## Path generator: the path -/

/-- The loop appends the text of the segments to the string built so far. -/
theorem pathLoop_eq (fmt : ℚ → String) :
    ∀ (rest : Chain) (i : Nat) (prev : MassPoint) (pathData : String),
      pathLoop fmt i prev rest pathData = renderPath fmt pathData (segmentsFrom i prev rest)
  | [], _, _, _ => rfl
  | cur :: rest, i, prev, pathData => by
      unfold pathLoop segmentsFrom renderPath
      rw [List.foldl_cons]
      by_cases hi : i = 1
      · rw [if_pos hi]
        dsimp only
        rw [pathLoop_eq fmt rest (i + 1) cur]
        unfold renderPath segmentCommand
        rw [if_pos hi]
        unfold PathCommand.render
        have hx : prev.x + (cur.x - prev.x) * (5 / 10) = (prev.x + cur.x) / 2 := by ring
        have hy : prev.y + (cur.y - prev.y) * (5 / 10) = (prev.y + cur.y) / 2 := by ring
        rw [hx, hy]
      · rw [if_neg hi]
        dsimp only
        rw [pathLoop_eq fmt rest (i + 1) cur]
        unfold renderPath segmentCommand
        rw [if_neg hi]
        unfold PathCommand.render
        have hx1 : prev.x + (cur.x - prev.x) * (3 / 10) = prev.x + (3 / 10) * (cur.x - prev.x) := by
          ring
        have hy1 : prev.y + (cur.y - prev.y) * (3 / 10) = prev.y + (3 / 10) * (cur.y - prev.y) := by
          ring
        have hx2 : prev.x + (cur.x - prev.x) * (7 / 10) = prev.x + (7 / 10) * (cur.x - prev.x) := by
          ring
        have hy2 : prev.y + (cur.y - prev.y) * (7 / 10) = prev.y + (7 / 10) * (cur.y - prev.y) := by
          ring
        rw [hx1, hy1, hx2, hy2]

theorem generateRopePath_eq (fmt : ℚ → String) (first : MassPoint) (rest : Chain) :
    generateRopePath fmt (some (first :: rest)) = renderPath fmt "" (pathCommands (first :: rest)) := by
  unfold generateRopePath pathCommands
  dsimp only
  rw [pathLoop_eq]
  unfold renderPath
  rw [List.foldl_cons]
  unfold PathCommand.render
  rw [String.empty_append]

theorem segmentsFrom_length :
    ∀ (rest : Chain) (i : Nat) (prev : MassPoint),
      (segmentsFrom i prev rest).length = rest.length
  | [], _, _ => rfl
  | cur :: rest, i, prev => by
      rw [segmentsFrom, List.length_cons, List.length_cons, segmentsFrom_length rest]

theorem segmentsFrom_getElem :
    ∀ (rest : Chain) (i : Nat) (prev : MassPoint) (k : Nat) (a b : MassPoint),
      (prev :: rest)[k]? = some a → (prev :: rest)[k + 1]? = some b →
      (segmentsFrom i prev rest)[k]? = some (segmentCommand (i + k) a b)
  | [], i, prev, k, a, b, _, hb => by simp at hb
  | cur :: rest, i, prev, 0, a, b, ha, hb => by
      simp only [List.getElem?_cons_zero, Option.some.injEq, zero_add,
        List.getElem?_cons_succ] at ha hb
      rw [segmentsFrom, List.getElem?_cons_zero, ← ha, ← hb, Nat.add_zero]
  | cur :: rest, i, prev, k + 1, a, b, ha, hb => by
      rw [List.getElem?_cons_succ] at ha hb
      rw [segmentsFrom, List.getElem?_cons_succ,
        segmentsFrom_getElem rest (i + 1) cur k a b ha hb]
      congr 2
      omega

theorem segmentCommand_endPoint (i : Nat) (prev cur : MassPoint) :
    (segmentCommand i prev cur).endPoint = (cur.x, cur.y) := by
  unfold segmentCommand
  split_ifs <;> rfl

/-- C18 (path structure). With `fmt` for the conversion of a number to text:
for an absent or empty chain `generateRopePath` returns the empty string; for a
chain `p[0..n]` with `n ≥ 1` the string it returns is the text, in chain order, of
`n + 1` commands: a move-to at `p[0]`, one quadratic segment with control point
`(p[0] + p[1]) / 2` ending at `p[1]`, and for each `i` in `2..n` one cubic segment
with control points `p[i-1] + 0.3 * (p[i] - p[i-1])` and
`p[i-1] + 0.7 * (p[i] - p[i-1])` ending at `p[i]`; so command `i` ends on the
chain point `p[i]`. -/
theorem C18_path_structure (fmt : ℚ → String) :
    generateRopePath fmt none = ""
    ∧ generateRopePath fmt (some []) = ""
    ∧ ∀ (p : Chain) (n : Nat), p.length = n + 1 → 1 ≤ n →
        ∃ commands : List PathCommand,
          generateRopePath fmt (some p) = renderPath fmt "" commands
          ∧ commands.length = n + 1
          ∧ (∀ first : MassPoint, p[0]? = some first →
              commands[0]? = some (PathCommand.moveTo first.x first.y))
          ∧ (∀ first second : MassPoint, p[0]? = some first → p[1]? = some second →
              commands[1]? = some (PathCommand.quadratic
                ((first.x + second.x) / 2) ((first.y + second.y) / 2) second.x second.y))
          ∧ (∀ (i : Nat) (prev cur : MassPoint), 2 ≤ i → i ≤ n →
              p[i - 1]? = some prev → p[i]? = some cur →
              commands[i]? = some (PathCommand.cubic
                (prev.x + 0.3 * (cur.x - prev.x)) (prev.y + 0.3 * (cur.y - prev.y))
                (prev.x + 0.7 * (cur.x - prev.x)) (prev.y + 0.7 * (cur.y - prev.y))
                cur.x cur.y))
          ∧ (∀ (i : Nat) (cur : MassPoint), i ≤ n → p[i]? = some cur →
              (commands[i]?).map PathCommand.endPoint = some (cur.x, cur.y)) := by
  refine ⟨rfl, rfl, ?_⟩
  intro p n hlen hn
  cases p with
  | nil => simp at hlen
  | cons first rest =>
    have hrest : rest.length = n := by
      rw [List.length_cons] at hlen
      omega
    refine ⟨pathCommands (first :: rest), generateRopePath_eq fmt first rest, ?_, ?_, ?_, ?_, ?_⟩
    · rw [pathCommands, List.length_cons, segmentsFrom_length, hrest]
    · intro p0 hp0
      simp only [List.getElem?_cons_zero, Option.some.injEq] at hp0
      rw [pathCommands, List.getElem?_cons_zero, hp0]
    · intro p0 p1 hp0 hp1
      rw [pathCommands, List.getElem?_cons_succ,
        segmentsFrom_getElem rest 1 first 0 p0 p1 hp0 hp1]
      rfl
    · intro i prev cur h2 hin hprev hcur
      obtain ⟨k, rfl⟩ : ∃ k, i = k + 1 := ⟨i - 1, by omega⟩
      rw [Nat.add_sub_cancel] at hprev
      rw [pathCommands, List.getElem?_cons_succ,
        segmentsFrom_getElem rest 1 first k prev cur hprev hcur]
      unfold segmentCommand
      rw [if_neg (by omega)]
      have e3 : (0.3 : ℚ) = 3 / 10 := by norm_num
      have e7 : (0.7 : ℚ) = 7 / 10 := by norm_num
      rw [e3, e7]
    · intro i cur hin hcur
      cases i with
      | zero =>
        simp only [List.getElem?_cons_zero, Option.some.injEq] at hcur
        rw [pathCommands, List.getElem?_cons_zero, hcur]
        rfl
      | succ k =>
        have hk : k < (first :: rest).length := by
          rw [List.length_cons]
          omega
        rw [pathCommands, List.getElem?_cons_succ,
          segmentsFrom_getElem rest 1 first k ((first :: rest)[k]) cur
            (List.getElem?_eq_getElem hk) hcur]
        rw [Option.map_some', segmentCommand_endPoint]

/-- Witness of C18: the path of the chain `(0, 0), (3, 4), (6, 8)`, with `n = 2`. -/
theorem C18_path_structure_witness :
    ∃ commands : List PathCommand,
      generateRopePath sampleFmt (some straightChain) = renderPath sampleFmt "" commands
      ∧ commands.length = 2 + 1
      ∧ (∀ first : MassPoint, straightChain[0]? = some first →
          commands[0]? = some (PathCommand.moveTo first.x first.y))
      ∧ (∀ first second : MassPoint, straightChain[0]? = some first →
          straightChain[1]? = some second →
          commands[1]? = some (PathCommand.quadratic
            ((first.x + second.x) / 2) ((first.y + second.y) / 2) second.x second.y))
      ∧ (∀ (i : Nat) (prev cur : MassPoint), 2 ≤ i → i ≤ 2 →
          straightChain[i - 1]? = some prev → straightChain[i]? = some cur →
          commands[i]? = some (PathCommand.cubic
            (prev.x + 0.3 * (cur.x - prev.x)) (prev.y + 0.3 * (cur.y - prev.y))
            (prev.x + 0.7 * (cur.x - prev.x)) (prev.y + 0.7 * (cur.y - prev.y))
            cur.x cur.y))
      ∧ (∀ (i : Nat) (cur : MassPoint), i ≤ 2 → straightChain[i]? = some cur →
          (commands[i]?).map PathCommand.endPoint = some (cur.x, cur.y)) :=
  (C18_path_structure sampleFmt).2.2 straightChain 2 rfl (by decide)

/-! ## Drag handlers -/

theorem RopeStates.get_map (s : RopeStates) (f : Chain → Chain) (id : String) :
    RopeStates.get (s.map (fun e => (e.1, f e.2))) id = (RopeStates.get s id).map f := by
  induction s with
  | nil => rfl
  | cons e rest ih =>
    unfold RopeStates.get at ih ⊢
    rw [List.map_cons, List.find?_cons, List.find?_cons]
    dsimp only
    by_cases h : e.1 = id
    · simp [h]
    · simp only [h, decide_False]
      exact ih

/-- C22 (drag-end settling). When a drag ends, the cadence mode becomes idle, the
store keeps its keys in their order, and for every stored chain every point keeps
its position and has `vx` and `vy` multiplied by 0.3, whatever note was
dragged. -/
theorem C22_drag_end (s : SchedulerState) :
    (handleDragEnd s).isDragging = false
    ∧ (handleDragEnd s).ropeStates.map Prod.fst = s.ropeStates.map Prod.fst
    ∧ (∀ id : String, RopeStates.get (handleDragEnd s).ropeStates id = none
        ↔ RopeStates.get s.ropeStates id = none)
    ∧ (∀ (id : String) (points : Chain), RopeStates.get s.ropeStates id = some points →
        ∃ damped : Chain,
          RopeStates.get (handleDragEnd s).ropeStates id = some damped
          ∧ damped.length = points.length
          ∧ ∀ (i : Nat) (point : MassPoint), points[i]? = some point →
              damped[i]? = some { x := point.x, y := point.y
                                  vx := 0.3 * point.vx, vy := 0.3 * point.vy })
    ∧ (handleDragEnd s).lastFrameTime = s.lastFrameTime
    ∧ (handleDragEnd s).monitor = s.monitor := by
  have hget : ∀ id : String, RopeStates.get (handleDragEnd s).ropeStates id
      = (RopeStates.get s.ropeStates id).map (List.map dampPoint) := by
    intro id
    exact RopeStates.get_map s.ropeStates (List.map dampPoint) id
  refine ⟨rfl, ?_, ?_, ?_, rfl, rfl⟩
  · unfold handleDragEnd
    dsimp only
    rw [List.map_map]
    rfl
  · intro id
    rw [hget id]
    cases RopeStates.get s.ropeStates id <;> simp
  · intro id points hpoints
    refine ⟨points.map dampPoint, ?_, List.length_map _ _, ?_⟩
    · rw [hget id, hpoints]
      rfl
    · intro i point hpoint
      rw [List.getElem?_map, hpoint]
      have e3 : (0.3 : ℚ) = 3 / 10 := by norm_num
      rw [e3]
      simp only [Option.map_some', dampPoint, Option.some.injEq, MassPoint.mk.injEq, true_and]
      constructor <;> ring

/-- Witness of C22: the end of a drag on `sampleState`, whose store holds one
chain. -/
theorem C22_drag_end_witness :
    RopeStates.get sampleState.ropeStates "c" = some sampleChain
    ∧ ∃ damped : Chain,
        RopeStates.get (handleDragEnd sampleState).ropeStates "c" = some damped
        ∧ damped.length = sampleChain.length
        ∧ ∀ (i : Nat) (point : MassPoint), sampleChain[i]? = some point →
            damped[i]? = some { x := point.x, y := point.y
                                vx := 0.3 * point.vx, vy := 0.3 * point.vy } :=
  have h : RopeStates.get sampleState.ropeStates "c" = some sampleChain := by
    simp [sampleState, RopeStates.get]
  ⟨h, (C22_drag_end sampleState).2.2.2.1 "c" sampleChain h⟩

/-- The perturbation keeps the length of a chain and moves every point by an
impulse of at most `1.5` per velocity component. -/
theorem perturbPoints_forall (random : Nat → ℚ)
    (hrandom : ∀ k, 0 ≤ random k ∧ random k < 1) :
    ∀ (points : Chain) (k : Nat),
      List.Forall₂ PerturbedFrom points (perturbPoints random k points).1
  | [], _ => List.Forall₂.nil
  | point :: rest, k => by
      unfold perturbPoints
      dsimp only
      refine List.Forall₂.cons ?_ (perturbPoints_forall random hrandom rest (k + 2))
      refine ⟨rfl, rfl, ?_, ?_⟩
      · dsimp only
        have h := hrandom k
        rw [abs_le]
        constructor <;> linarith [h.1, h.2]
      · dsimp only
        have h := hrandom (k + 1)
        rw [abs_le]
        constructor <;> linarith [h.1, h.2]

theorem forall₂_getElem {R : MassPoint → MassPoint → Prop} :
    ∀ (before after : Chain), List.Forall₂ R before after →
      before.length = after.length
      ∧ ∀ (i : Nat) (point : MassPoint), before[i]? = some point →
          ∃ moved : MassPoint, after[i]? = some moved ∧ R point moved
  | [], [], _ => ⟨rfl, fun i point h => by simp at h⟩
  | p :: ps, q :: qs, h => by
      cases h with
      | cons hpq hrest =>
        obtain ⟨hlen, hidx⟩ := forall₂_getElem ps qs hrest
        refine ⟨by rw [List.length_cons, List.length_cons, hlen], ?_⟩
        intro i point hpoint
        cases i with
        | zero =>
          simp only [List.getElem?_cons_zero, Option.some.injEq] at hpoint
          exact ⟨q, List.getElem?_cons_zero, hpoint ▸ hpq⟩
        | succ j =>
          rw [List.getElem?_cons_succ] at hpoint
          rw [List.getElem?_cons_succ]
          exact hidx j point hpoint

/-- The drag-start loop over connections with pairwise distinct ids: the chain of
every connection that involves the dragged note is perturbed once, and an id none
of whose connections involves it keeps its entry. -/
theorem dragStartLoop_spec (random : Nat → ℚ) (hrandom : ∀ k, 0 ≤ random k ∧ random k < 1)
    (draggedNoteId : String) :
    ∀ (connections : List Connection) (acc : RopeStates × Nat),
      (connections.map (fun conn => conn.id)).Nodup →
      (∀ connection ∈ connections,
        (connection.fromNoteId = draggedNoteId ∨ connection.toNoteId = draggedNoteId) →
        ∀ points : Chain, RopeStates.get acc.1 connection.id = some points →
          ∃ perturbed : Chain,
            RopeStates.get (dragStartLoop random draggedNoteId connections acc).1 connection.id
              = some perturbed
            ∧ List.Forall₂ PerturbedFrom points perturbed)
      ∧ ∀ id : String,
          (∀ connection ∈ connections, connection.id = id →
            ¬ (connection.fromNoteId = draggedNoteId ∨ connection.toNoteId = draggedNoteId)) →
          RopeStates.get (dragStartLoop random draggedNoteId connections acc).1 id
            = RopeStates.get acc.1 id
  | [], acc, _ => ⟨fun _ h => absurd h (List.not_mem_nil _), fun _ _ => rfl⟩
  | c0 :: rest, acc, hnodup => by
      rw [List.map_cons, List.nodup_cons] at hnodup
      have hfresh : ∀ acc1 : RopeStates × Nat,
          RopeStates.get (dragStartLoop random draggedNoteId rest acc1).1 c0.id
            = RopeStates.get acc1.1 c0.id := by
        intro acc1
        refine (dragStartLoop_spec random hrandom draggedNoteId rest acc1 hnodup.2).2 c0.id ?_
        intro connection hmem hid
        exact absurd (hid ▸ List.mem_map_of_mem (fun conn => conn.id) hmem) hnodup.1
      have hne_of_mem : ∀ connection ∈ rest, connection.id ≠ c0.id := by
        intro connection hmem hid
        exact hnodup.1 (hid ▸ List.mem_map_of_mem (fun conn => conn.id) hmem)
      by_cases hinv : c0.fromNoteId = draggedNoteId ∨ c0.toNoteId = draggedNoteId
      · cases hget : RopeStates.get acc.1 c0.id with
        | none =>
          have hstep : dragStartLoop random draggedNoteId (c0 :: rest) acc
              = dragStartLoop random draggedNoteId rest acc := by
            rw [dragStartLoop, if_pos hinv, hget]
          rw [hstep]
          obtain ⟨ih1, ih2⟩ := dragStartLoop_spec random hrandom draggedNoteId rest acc hnodup.2
          refine ⟨?_, ?_⟩
          · intro connection hmem hinvc points hpoints
            rcases List.mem_cons.mp hmem with heq | hin
            · rw [heq, hget] at hpoints
              cases hpoints
            · exact ih1 connection hin hinvc points hpoints
          · intro id hid
            exact ih2 id (fun connection hmem => hid connection (List.mem_cons_of_mem _ hmem))
        | some pts0 =>
          have hstep : dragStartLoop random draggedNoteId (c0 :: rest) acc
              = dragStartLoop random draggedNoteId rest
                  (RopeStates.set acc.1 c0.id (perturbPoints random acc.2 pts0).1,
                    (perturbPoints random acc.2 pts0).2) := by
            rw [dragStartLoop, if_pos hinv, hget]
          rw [hstep]
          obtain ⟨ih1, ih2⟩ := dragStartLoop_spec random hrandom draggedNoteId rest
            (RopeStates.set acc.1 c0.id (perturbPoints random acc.2 pts0).1,
              (perturbPoints random acc.2 pts0).2) hnodup.2
          refine ⟨?_, ?_⟩
          · intro connection hmem hinvc points hpoints
            rcases List.mem_cons.mp hmem with heq | hin
            · rw [heq] at hpoints ⊢
              rw [hget] at hpoints
              cases hpoints
              rw [hfresh]
              exact ⟨_, RopeStates.get_set_self _ _ _,
                perturbPoints_forall random hrandom pts0 acc.2⟩
            · refine ih1 connection hin hinvc points ?_
              dsimp only
              rw [RopeStates.get_set_other _ _ _ _ (hne_of_mem connection hin)]
              exact hpoints
          · intro id hid
            have hne : id ≠ c0.id := by
              intro h
              exact hid c0 (List.mem_cons_self _ _) h.symm hinv
            rw [ih2 id (fun connection hmem => hid connection (List.mem_cons_of_mem _ hmem))]
            dsimp only
            rw [RopeStates.get_set_other _ _ _ _ hne]
      · have hstep : dragStartLoop random draggedNoteId (c0 :: rest) acc
            = dragStartLoop random draggedNoteId rest acc := by
          rw [dragStartLoop, if_neg hinv]
        rw [hstep]
        obtain ⟨ih1, ih2⟩ := dragStartLoop_spec random hrandom draggedNoteId rest acc hnodup.2
        refine ⟨?_, ?_⟩
        · intro connection hmem hinvc points hpoints
          rcases List.mem_cons.mp hmem with heq | hin
          · rw [heq] at hinvc
            exact absurd hinvc hinv
          · exact ih1 connection hin hinvc points hpoints
        · intro id hid
          exact ih2 id (fun connection hmem => hid connection (List.mem_cons_of_mem _ hmem))

/-- C21, as amended. When a drag starts on a note `n` (a non-empty id) and the
tracked connections have pairwise distinct ids, the cadence mode becomes
dragging; for every stored chain of a tracked connection that has `n` as an
endpoint, every point of the chain, the pinned points 0 and 12 included, has each
velocity component changed by an impulse of magnitude at most 1.5 and keeps its
position; and the entry of every id none of whose tracked connections involves
`n` is unchanged. -/
theorem C21_drag_start_amended (random : Nat → ℚ)
    (hrandom : ∀ k, 0 ≤ random k ∧ random k < 1) (k : Nat)
    (filteredConnections : List Connection) (s : SchedulerState) (n : String)
    (hn : n ≠ "") (hnodup : (filteredConnections.map (fun conn => conn.id)).Nodup) :
    (handleDragStart random k filteredConnections s (some n)).1.isDragging = true
    ∧ (∀ connection ∈ filteredConnections,
        (connection.fromNoteId = n ∨ connection.toNoteId = n) →
        ∀ points : Chain, RopeStates.get s.ropeStates connection.id = some points →
          ∃ perturbed : Chain,
            RopeStates.get (handleDragStart random k filteredConnections s (some n)).1.ropeStates
              connection.id = some perturbed
            ∧ perturbed.length = points.length
            ∧ ∀ (i : Nat) (point : MassPoint), points[i]? = some point →
                ∃ moved : MassPoint, perturbed[i]? = some moved
                  ∧ moved.x = point.x ∧ moved.y = point.y
                  ∧ |moved.vx - point.vx| ≤ 1.5 ∧ |moved.vy - point.vy| ≤ 1.5)
    ∧ (∀ id : String,
        (∀ connection ∈ filteredConnections, connection.id = id →
          ¬ (connection.fromNoteId = n ∨ connection.toNoteId = n)) →
        RopeStates.get (handleDragStart random k filteredConnections s (some n)).1.ropeStates id
          = RopeStates.get s.ropeStates id) := by
  have hrun : handleDragStart random k filteredConnections s (some n)
      = ({ s with isDragging := true
                  ropeStates := (dragStartLoop random n filteredConnections
                    (s.ropeStates, k)).1 },
          (dragStartLoop random n filteredConnections (s.ropeStates, k)).2) := by
    unfold handleDragStart
    dsimp only
    rw [if_pos hn]
  obtain ⟨h1, h2⟩ := dragStartLoop_spec random hrandom n filteredConnections
    (s.ropeStates, k) hnodup
  rw [hrun]
  refine ⟨rfl, ?_, ?_⟩
  · intro connection hmem hinv points hpoints
    obtain ⟨perturbed, hget, hall⟩ := h1 connection hmem hinv points hpoints
    obtain ⟨hlen, hidx⟩ := forall₂_getElem points perturbed hall
    refine ⟨perturbed, hget, hlen.symm, ?_⟩
    intro i point hpoint
    obtain ⟨moved, hmoved, hx, hy, hvx, hvy⟩ := hidx i point hpoint
    have e15 : (1.5 : ℚ) = 3 / 2 := by norm_num
    rw [e15]
    exact ⟨moved, hmoved, hx, hy, hvx, hvy⟩
  · intro id hid
    exact h2 id hid

theorem zeroRandom_range : ∀ k, 0 ≤ zeroRandom k ∧ zeroRandom k < 1 := by
  intro k
  unfold zeroRandom
  norm_num

/-- Witness of C21 as amended: a drag starts on the note `a` of
`sampleConnection`. -/
theorem C21_drag_start_amended_witness :
    (handleDragStart zeroRandom 0 [sampleConnection] sampleState (some "a")).1.isDragging = true
    ∧ (∀ connection ∈ [sampleConnection],
        (connection.fromNoteId = "a" ∨ connection.toNoteId = "a") →
        ∀ points : Chain, RopeStates.get sampleState.ropeStates connection.id = some points →
          ∃ perturbed : Chain,
            RopeStates.get (handleDragStart zeroRandom 0 [sampleConnection] sampleState
              (some "a")).1.ropeStates connection.id = some perturbed
            ∧ perturbed.length = points.length
            ∧ ∀ (i : Nat) (point : MassPoint), points[i]? = some point →
                ∃ moved : MassPoint, perturbed[i]? = some moved
                  ∧ moved.x = point.x ∧ moved.y = point.y
                  ∧ |moved.vx - point.vx| ≤ 1.5 ∧ |moved.vy - point.vy| ≤ 1.5)
    ∧ (∀ id : String,
        (∀ connection ∈ [sampleConnection], connection.id = id →
          ¬ (connection.fromNoteId = "a" ∨ connection.toNoteId = "a")) →
        RopeStates.get (handleDragStart zeroRandom 0 [sampleConnection] sampleState
          (some "a")).1.ropeStates id = RopeStates.get sampleState.ropeStates id) :=
  C21_drag_start_amended zeroRandom zeroRandom_range 0 [sampleConnection] sampleState "a"
    (by decide) (by simp)

/-- Counterexample to C21 as stated. The store holds for connection `c`, between
the notes `a` and `b`, a chain whose pinned point 0 has zero velocity; after a
drag starts on `a`, with `Math.random()` returning 0, point 0 of the stored chain
has velocity `(-1.5, -1.5)`. -/
theorem C21_drag_start_counterexample :
    RopeStates.get pinnedState.ropeStates "c" = some pinnedChain
    ∧ pinnedChain[0]? = some { x := 0, y := 0, vx := 0, vy := 0 }
    ∧ pinnedChain.length = 13
    ∧ ∃ perturbed : Chain,
        RopeStates.get (handleDragStart zeroRandom 0 [sampleConnection] pinnedState
          (some "a")).1.ropeStates "c" = some perturbed
        ∧ perturbed[0]? = some { x := 0, y := 0, vx := -3 / 2, vy := -3 / 2 }
        ∧ perturbed[0]? ≠ some { x := 0, y := 0, vx := 0, vy := 0 } := by
  have hstore : RopeStates.get pinnedState.ropeStates "c" = some pinnedChain := by
    simp [pinnedState, RopeStates.get]
  have hrun : (handleDragStart zeroRandom 0 [sampleConnection] pinnedState
      (some "a")).1.ropeStates
      = RopeStates.set pinnedState.ropeStates "c" (perturbPoints zeroRandom 0 pinnedChain).1 := by
    unfold handleDragStart
    dsimp only
    rw [if_pos (by decide)]
    dsimp only
    have hinv : sampleConnection.fromNoteId = "a" ∨ sampleConnection.toNoteId = "a" :=
      Or.inl rfl
    rw [dragStartLoop, if_pos hinv]
    dsimp only
    rw [show sampleConnection.id = "c" from rfl, hstore]
    rfl
  have hzero : (perturbPoints zeroRandom 0 pinnedChain).1[0]?
      = some { x := 0, y := 0, vx := -3 / 2, vy := -3 / 2 } := by
    unfold pinnedChain
    rw [perturbPoints]
    dsimp only
    rw [List.getElem?_cons_zero]
    simp only [zeroRandom, Option.some.injEq, MassPoint.mk.injEq, true_and]
    constructor <;> norm_num
  refine ⟨hstore, rfl, rfl, (perturbPoints zeroRandom 0 pinnedChain).1, ?_, hzero, ?_⟩
  · rw [hrun, RopeStates.get_set_self]
  · rw [hzero]
    intro h
    have hvx := congrArg (fun q => q.map MassPoint.vx) h
    simp at hvx

/-! ## Scheduler tick: the changed flag -/

theorem connectionResolves_iff (notes : List Note) (connection : Connection) :
    connectionResolves notes connection = true
      ↔ ∃ (fromNote toNote : Note) (pa pb : Position),
          notes.find? (fun note => note.id = connection.fromNoteId) = some fromNote
          ∧ notes.find? (fun note => note.id = connection.toNoteId) = some toNote
          ∧ fromNote.position = some pa ∧ toNote.position = some pb := by
  unfold connectionResolves
  cases hf : notes.find? (fun note => note.id = connection.fromNoteId) with
  | none => simp
  | some fromNote =>
    cases ht : notes.find? (fun note => note.id = connection.toNoteId) with
    | none => simp
    | some toNote =>
      dsimp only
      constructor
      · intro h
        rw [Bool.and_eq_true, Option.isSome_iff_exists, Option.isSome_iff_exists] at h
        obtain ⟨⟨pa, hpa⟩, ⟨pb, hpb⟩⟩ := h
        exact ⟨fromNote, toNote, pa, pb, rfl, rfl, hpa, hpb⟩
      · rintro ⟨f, t, pa, pb, hf2, ht2, hpa, hpb⟩
        cases hf2
        cases ht2
        rw [hpa, hpb]
        rfl

/-- On a store of full chains the callback raises the flag exactly when the
connection resolves, and stores no chain when it does not. -/
theorem tickConnection_flag (notes : List Note) (deltaTime : ℚ) (acc : RopeStates × Bool)
    (connection : Connection) (hfull : FullChains acc.1) :
    ∃ acc1 : RopeStates × Bool,
      tickConnection notes deltaTime acc connection = .ok acc1
      ∧ FullChains acc1.1
      ∧ acc1.2 = (acc.2 || connectionResolves notes connection)
      ∧ (connectionResolves notes connection = false →
          ∀ (id : String) (points : Chain), RopeStates.get acc1.1 id = some points →
            RopeStates.get acc.1 id = some points) := by
  obtain ⟨acc1, htick, hfull1, _, _⟩ := tickConnection_ok notes deltaTime acc connection hfull
  refine ⟨acc1, htick, hfull1, ?_, ?_⟩
  · unfold tickConnection connectionResolves at *
    dsimp only at htick ⊢
    cases hf : notes.find? (fun note => note.id = connection.fromNoteId) with
    | none =>
      rw [hf] at htick
      simp only [Except.ok.injEq] at htick
      rw [← htick]
      simp
    | some fromNote =>
      cases ht : notes.find? (fun note => note.id = connection.toNoteId) with
      | none =>
        rw [hf, ht] at htick
        simp only [Except.ok.injEq] at htick
        rw [← htick]
        simp
      | some toNote =>
        rw [hf, ht] at htick
        dsimp only at htick ⊢
        cases hpa : fromNote.position with
        | none =>
          rw [simulateRopePhysics_no_position fromNote toNote _ _ (Or.inl hpa)] at htick
          simp only [Except.ok.injEq] at htick
          rw [← htick]
          simp
        | some pa =>
          cases hpb : toNote.position with
          | none =>
            rw [simulateRopePhysics_no_position fromNote toNote _ _ (Or.inr hpb)] at htick
            simp only [Except.ok.injEq] at htick
            rw [← htick]
            simp
          | some pb =>
            rw [simulateRopePhysics_eq fromNote toNote pa pb hpa hpb _
              (fun pts hpts => le_of_eq (hfull _ pts hpts).symm) deltaTime] at htick
            simp only [Except.ok.injEq] at htick
            rw [← htick]
            simp
  · intro hres id points hget
    unfold tickConnection connectionResolves at *
    dsimp only at htick hres
    cases hf : notes.find? (fun note => note.id = connection.fromNoteId) with
    | none =>
      rw [hf] at htick
      simp only [Except.ok.injEq] at htick
      rw [← htick] at hget
      by_cases hid : id = connection.id
      · rw [hid, RopeStates.get_delete_self] at hget
        cases hget
      · rw [RopeStates.get_delete_other _ _ _ hid] at hget
        exact hget
    | some fromNote =>
      cases ht : notes.find? (fun note => note.id = connection.toNoteId) with
      | none =>
        rw [hf, ht] at htick
        simp only [Except.ok.injEq] at htick
        rw [← htick] at hget
        by_cases hid : id = connection.id
        · rw [hid, RopeStates.get_delete_self] at hget
          cases hget
        · rw [RopeStates.get_delete_other _ _ _ hid] at hget
          exact hget
      | some toNote =>
        rw [hf, ht] at htick hres
        dsimp only at htick hres
        have hpos : fromNote.position = none ∨ toNote.position = none := by
          cases hpa : fromNote.position with
          | none => exact Or.inl rfl
          | some pa =>
            cases hpb : toNote.position with
            | none => exact Or.inr rfl
            | some pb =>
              rw [hpa, hpb] at hres
              simp at hres
        rw [simulateRopePhysics_no_position fromNote toNote _ _ hpos] at htick
        simp only [Except.ok.injEq] at htick
        rw [← htick] at hget
        exact hget

/-- On a store of full chains the loop raises the flag exactly when some
connection resolves, and stores no chain when none does. -/
theorem forEachConnection_flag (notes : List Note) (deltaTime : ℚ) :
    ∀ (connections : List Connection) (acc : RopeStates × Bool), FullChains acc.1 →
      ∃ acc1 : RopeStates × Bool,
        forEachConnection notes deltaTime connections acc = .ok acc1
        ∧ acc1.2 = (acc.2 || connections.any (connectionResolves notes))
        ∧ (connections.any (connectionResolves notes) = false →
            ∀ (id : String) (points : Chain), RopeStates.get acc1.1 id = some points →
              RopeStates.get acc.1 id = some points)
  | [], acc, _ => ⟨acc, rfl, by simp, fun _ _ _ h => h⟩
  | connection :: rest, acc, hfull => by
      obtain ⟨acc1, htick, hfull1, hflag1, hkeep1⟩ :=
        tickConnection_flag notes deltaTime acc connection hfull
      obtain ⟨acc2, hloop, hflag2, hkeep2⟩ :=
        forEachConnection_flag notes deltaTime rest acc1 hfull1
      refine ⟨acc2, ?_, ?_, ?_⟩
      · unfold forEachConnection
        rw [htick]
        exact hloop
      · rw [hflag2, hflag1, List.any_cons, Bool.or_assoc]
      · intro hnone id points hget
        rw [List.any_cons, Bool.or_eq_false_iff] at hnone
        exact hkeep1 hnone.1 id points (hkeep2 hnone.2 id points hget)

/-- The state an accepted tick returns: the loop result with the flag read out. -/
theorem animate_flag (notes : List Note) (filteredConnections : List Connection)
    (s : SchedulerState) (currentTime now : ℚ)
    (haccept : currentTime - s.lastFrameTime
      ≥ (if s.isDragging then DRAG_THROTTLE_MS else IDLE_THROTTLE_MS))
    (hfull : FullChains s.ropeStates) :
    ∃ (s1 : SchedulerState) (notified : List Notification),
      animate notes filteredConnections s currentTime now = .ok (s1, notified)
      ∧ s1.forceUpdate = (if filteredConnections.any (connectionResolves notes) = true
          then s.forceUpdate + 1 else s.forceUpdate)
      ∧ (filteredConnections.any (connectionResolves notes) = false →
          ∀ (id : String) (points : Chain), RopeStates.get s1.ropeStates id = some points →
            RopeStates.get s.ropeStates id = some points) := by
  by_cases hne : filteredConnections.length > 0
  · obtain ⟨acc1, hloop, hflag, hkeep⟩ :=
      forEachConnection_flag notes (currentTime - s.lastFrameTime) filteredConnections
        (s.ropeStates, false) hfull
    unfold animate
    dsimp only
    rw [if_pos haccept, if_pos hne, hloop]
    refine ⟨_, _, rfl, ?_, hkeep⟩
    dsimp only
    rw [hflag, Bool.false_or]
  · have hnil : filteredConnections = [] := by
      cases filteredConnections with
      | nil => rfl
      | cons c rest => exact absurd (Nat.succ_pos _) hne
    subst hnil
    unfold animate
    dsimp only
    rw [if_pos haccept, if_neg hne]
    refine ⟨_, _, rfl, ?_, fun _ _ _ h => h⟩
    simp

/-- Claim C23. An accepted tick on a store of full chains returns, and its
re-render counter `forceUpdate` is one more than before exactly when some tracked
connection has both notes in the notes list with positions; otherwise the counter
is unchanged. When no tracked connection resolves, in particular when the tracked
list is empty, every chain found in the store after the tick was stored under the
same id before it, and with an empty list the store is the same. -/
theorem C23_changed_flag (notes : List Note) (filteredConnections : List Connection)
    (s : SchedulerState) (currentTime now : ℚ)
    (haccept : currentTime - s.lastFrameTime
      ≥ (if s.isDragging then DRAG_THROTTLE_MS else IDLE_THROTTLE_MS))
    (hfull : ∀ (id : String) (points : Chain),
      RopeStates.get s.ropeStates id = some points → points.length = 13) :
    ∃ (s1 : SchedulerState) (notified : List Notification),
      animate notes filteredConnections s currentTime now = .ok (s1, notified)
      ∧ (s1.forceUpdate = s.forceUpdate + 1
          ↔ ∃ connection ∈ filteredConnections, ∃ (fromNote toNote : Note) (pa pb : Position),
              notes.find? (fun note => note.id = connection.fromNoteId) = some fromNote
              ∧ notes.find? (fun note => note.id = connection.toNoteId) = some toNote
              ∧ fromNote.position = some pa ∧ toNote.position = some pb)
      ∧ (s1.forceUpdate = s.forceUpdate ∨ s1.forceUpdate = s.forceUpdate + 1)
      ∧ ((¬ ∃ connection ∈ filteredConnections,
              ∃ (fromNote toNote : Note) (pa pb : Position),
              notes.find? (fun note => note.id = connection.fromNoteId) = some fromNote
              ∧ notes.find? (fun note => note.id = connection.toNoteId) = some toNote
              ∧ fromNote.position = some pa ∧ toNote.position = some pb) →
          s1.forceUpdate = s.forceUpdate
          ∧ ∀ (id : String) (points : Chain), RopeStates.get s1.ropeStates id = some points →
              RopeStates.get s.ropeStates id = some points)
      ∧ (filteredConnections = [] →
          s1.forceUpdate = s.forceUpdate ∧ s1.ropeStates = s.ropeStates) := by
  obtain ⟨s1, notified, hrun, hflag, hkeep⟩ :=
    animate_flag notes filteredConnections s currentTime now haccept hfull
  have hany : filteredConnections.any (connectionResolves notes) = true
      ↔ ∃ connection ∈ filteredConnections, ∃ (fromNote toNote : Note) (pa pb : Position),
          notes.find? (fun note => note.id = connection.fromNoteId) = some fromNote
          ∧ notes.find? (fun note => note.id = connection.toNoteId) = some toNote
          ∧ fromNote.position = some pa ∧ toNote.position = some pb := by
    rw [List.any_eq_true]
    constructor
    · rintro ⟨c, hc, hres⟩
      exact ⟨c, hc, (connectionResolves_iff notes c).1 hres⟩
    · rintro ⟨c, hc, hres⟩
      exact ⟨c, hc, (connectionResolves_iff notes c).2 hres⟩
  refine ⟨s1, notified, hrun, ?_, ?_, ?_, ?_⟩
  · rw [← hany, hflag]
    by_cases h : filteredConnections.any (connectionResolves notes) = true
    · rw [if_pos h]
      exact ⟨fun _ => h, fun _ => rfl⟩
    · rw [if_neg h]
      exact ⟨fun hEq => absurd hEq (by omega), fun h2 => absurd h2 h⟩
  · rw [hflag]
    by_cases h : filteredConnections.any (connectionResolves notes) = true
    · rw [if_pos h]
      exact Or.inr rfl
    · rw [if_neg h]
      exact Or.inl rfl
  · intro hnone
    have h : ¬ filteredConnections.any (connectionResolves notes) = true :=
      fun h => hnone (hany.1 h)
    refine ⟨by rw [hflag, if_neg h], hkeep (by simpa using h)⟩
  · intro hnil
    subst hnil
    have hne : ¬ (([] : List Connection).length > 0) := by simp
    unfold animate at hrun
    dsimp only at hrun
    rw [if_pos haccept, if_neg hne] at hrun
    simp only [Except.ok.injEq, Prod.mk.injEq] at hrun
    rw [← hrun.1]
    exact ⟨rfl, rfl⟩

/-- Witness of C23: the tick at time 50 from `sampleState` over the connection
`c`, whose two notes have positions. -/
theorem C23_changed_flag_witness :
    ∃ (s1 : SchedulerState) (notified : List Notification),
      animate sampleNotes [sampleConnection] sampleState 50 50 = .ok (s1, notified)
      ∧ (s1.forceUpdate = sampleState.forceUpdate + 1
          ↔ ∃ connection ∈ [sampleConnection],
              ∃ (fromNote toNote : Note) (pa pb : Position),
              sampleNotes.find? (fun note => note.id = connection.fromNoteId) = some fromNote
              ∧ sampleNotes.find? (fun note => note.id = connection.toNoteId) = some toNote
              ∧ fromNote.position = some pa ∧ toNote.position = some pb)
      ∧ (s1.forceUpdate = sampleState.forceUpdate
          ∨ s1.forceUpdate = sampleState.forceUpdate + 1)
      ∧ ((¬ ∃ connection ∈ [sampleConnection],
              ∃ (fromNote toNote : Note) (pa pb : Position),
              sampleNotes.find? (fun note => note.id = connection.fromNoteId) = some fromNote
              ∧ sampleNotes.find? (fun note => note.id = connection.toNoteId) = some toNote
              ∧ fromNote.position = some pa ∧ toNote.position = some pb) →
          s1.forceUpdate = sampleState.forceUpdate
          ∧ ∀ (id : String) (points : Chain), RopeStates.get s1.ropeStates id = some points →
              RopeStates.get sampleState.ropeStates id = some points)
      ∧ ([sampleConnection] = [] →
          s1.forceUpdate = sampleState.forceUpdate
          ∧ s1.ropeStates = sampleState.ropeStates) :=
  C23_changed_flag sampleNotes [sampleConnection] sampleState 50 50
    (sampleState_accepts 50 (by norm_num)) sampleState_fullChains

/-! ## Scheduler tick: independence of the chains -/

/-- Claim C24. In an accepted tick over connections with pairwise distinct ids, on
a store of full chains, the chain stored for a tracked connection whose two notes
are found with positions is the chain `simulateRopePhysics` returns for these two
notes, the chain stored for the connection before the tick and the elapsed time.
Any other accepted tick in which the connection is tracked, finds the same two
notes, has the same stored chain and the same elapsed time stores the same chain
for it, whatever the other notes, connections and stored chains are. -/
theorem C24_chain_independence (notes : List Note) (filteredConnections : List Connection)
    (s : SchedulerState) (currentTime now : ℚ)
    (haccept : currentTime - s.lastFrameTime
      ≥ (if s.isDragging then DRAG_THROTTLE_MS else IDLE_THROTTLE_MS))
    (hfull : ∀ (id : String) (points : Chain),
      RopeStates.get s.ropeStates id = some points → points.length = 13)
    (hnodup : (filteredConnections.map (fun conn => conn.id)).Nodup)
    (connection : Connection) (hmem : connection ∈ filteredConnections)
    (fromNote toNote : Note) (pa pb : Position)
    (hfindFrom : notes.find? (fun note => note.id = connection.fromNoteId) = some fromNote)
    (hfindTo : notes.find? (fun note => note.id = connection.toNoteId) = some toNote)
    (hfrom : fromNote.position = some pa) (hto : toNote.position = some pb) :
    ∃ (s1 : SchedulerState) (notified : List Notification) (chain : Chain),
      animate notes filteredConnections s currentTime now = .ok (s1, notified)
      ∧ simulateRopePhysics (some fromNote) (some toNote)
          (RopeStates.get s.ropeStates connection.id) (currentTime - s.lastFrameTime)
          = .ok (some chain)
      ∧ RopeStates.get s1.ropeStates connection.id = some chain
      ∧ ∀ (notes2 : List Note) (connections2 : List Connection) (s2 : SchedulerState)
          (currentTime2 now2 : ℚ),
          currentTime2 - s2.lastFrameTime
            ≥ (if s2.isDragging then DRAG_THROTTLE_MS else IDLE_THROTTLE_MS) →
          (∀ (id : String) (points : Chain),
            RopeStates.get s2.ropeStates id = some points → points.length = 13) →
          (connections2.map (fun conn => conn.id)).Nodup →
          connection ∈ connections2 →
          notes2.find? (fun note => note.id = connection.fromNoteId) = some fromNote →
          notes2.find? (fun note => note.id = connection.toNoteId) = some toNote →
          RopeStates.get s2.ropeStates connection.id
            = RopeStates.get s.ropeStates connection.id →
          currentTime2 - s2.lastFrameTime = currentTime - s.lastFrameTime →
          ∃ (s3 : SchedulerState) (notified3 : List Notification),
            animate notes2 connections2 s2 currentTime2 now2 = .ok (s3, notified3)
            ∧ RopeStates.get s3.ropeStates connection.id = some chain := by
  have hsim : ∀ cur : Option Chain, (∀ pts, cur = some pts → pts.length = 13) →
      ∀ deltaTime : ℚ, simulateRopePhysics (some fromNote) (some toNote) cur deltaTime
        = .ok (some (stepChain (workingPoints (anchor pa) (anchor pb) cur)
            (anchor pa) (anchor pb) (min deltaTime 1))) := by
    intro cur hcur deltaTime
    exact simulateRopePhysics_eq fromNote toNote pa pb hfrom hto cur
      (fun pts hpts => le_of_eq (hcur pts hpts).symm) deltaTime
  have hstored : ∀ (notesX : List Note) (cur : Option Chain) (deltaTime : ℚ),
      (∀ pts, cur = some pts → pts.length = 13) →
      notesX.find? (fun note => note.id = connection.fromNoteId) = some fromNote →
      notesX.find? (fun note => note.id = connection.toNoteId) = some toNote →
      storedAfterTick notesX deltaTime cur connection
        = some (stepChain (workingPoints (anchor pa) (anchor pb) cur)
            (anchor pa) (anchor pb) (min deltaTime 1)) := by
    intro notesX cur deltaTime hcur hf ht
    unfold storedAfterTick
    rw [hf, ht]
    dsimp only
    rw [hsim cur hcur deltaTime]
  have hne : filteredConnections.length > 0 := List.length_pos_of_mem hmem
  obtain ⟨s1, notified, hrun, _, hget⟩ :=
    animate_accepted notes filteredConnections s currentTime now haccept hfull hnodup hne
  refine ⟨s1, notified, _, hrun, hsim _ (fun pts hpts => hfull _ pts hpts) _, ?_, ?_⟩
  · rw [hget connection hmem]
    exact hstored notes _ _ (fun pts hpts => hfull _ pts hpts) hfindFrom hfindTo
  · intro notes2 connections2 s2 currentTime2 now2 haccept2 hfull2 hnodup2 hmem2 hf2 ht2
      hsame hdt
    have hne2 : connections2.length > 0 := List.length_pos_of_mem hmem2
    obtain ⟨s3, notified3, hrun3, _, hget3⟩ :=
      animate_accepted notes2 connections2 s2 currentTime2 now2 haccept2 hfull2 hnodup2 hne2
    refine ⟨s3, notified3, hrun3, ?_⟩
    rw [hget3 connection hmem2,
      hstored notes2 _ _ (fun pts hpts => hfull2 _ pts hpts) hf2 ht2, hsame, hdt]

/-- Witness of C24: the tick at time 50 from `sampleState` over the connection `c`
between the notes `a` and `b`. -/
theorem C24_chain_independence_witness :
    ∃ (s1 : SchedulerState) (notified : List Notification) (chain : Chain),
      animate sampleNotes [sampleConnection] sampleState 50 50 = .ok (s1, notified)
      ∧ simulateRopePhysics (some sampleNoteA) (some sampleNoteB)
          (RopeStates.get sampleState.ropeStates sampleConnection.id)
          (50 - sampleState.lastFrameTime)
          = .ok (some chain)
      ∧ RopeStates.get s1.ropeStates sampleConnection.id = some chain
      ∧ ∀ (notes2 : List Note) (connections2 : List Connection) (s2 : SchedulerState)
          (currentTime2 now2 : ℚ),
          currentTime2 - s2.lastFrameTime
            ≥ (if s2.isDragging then DRAG_THROTTLE_MS else IDLE_THROTTLE_MS) →
          (∀ (id : String) (points : Chain),
            RopeStates.get s2.ropeStates id = some points → points.length = 13) →
          (connections2.map (fun conn => conn.id)).Nodup →
          sampleConnection ∈ connections2 →
          notes2.find? (fun note => note.id = sampleConnection.fromNoteId)
            = some sampleNoteA →
          notes2.find? (fun note => note.id = sampleConnection.toNoteId)
            = some sampleNoteB →
          RopeStates.get s2.ropeStates sampleConnection.id
            = RopeStates.get sampleState.ropeStates sampleConnection.id →
          currentTime2 - s2.lastFrameTime = 50 - sampleState.lastFrameTime →
          ∃ (s3 : SchedulerState) (notified3 : List Notification),
            animate notes2 connections2 s2 currentTime2 now2 = .ok (s3, notified3)
            ∧ RopeStates.get s3.ropeStates sampleConnection.id = some chain :=
  C24_chain_independence sampleNotes [sampleConnection] sampleState 50 50
    (sampleState_accepts 50 (by norm_num)) sampleState_fullChains (by simp)
    sampleConnection (List.mem_singleton_self _) sampleNoteA sampleNoteB
    ⟨-140, -100⟩ ⟨140, -100⟩
    (by simp [sampleNotes, sampleConnection, sampleNoteA])
    (by simp [sampleNotes, sampleConnection, sampleNoteA, sampleNoteB])
    rfl rfl

/-! ## Scheduler tick: the effective time step -/

/-- The integrator reads its time argument only through `min deltaTime 1`. -/
theorem simulateRopePhysics_dt (fromNote toNote : Option Note) (cur : Option Chain)
    (d1 d2 : ℚ) (h : min d1 1 = min d2 1) :
    simulateRopePhysics fromNote toNote cur d1 = simulateRopePhysics fromNote toNote cur d2 := by
  unfold simulateRopePhysics
  rw [h]

theorem forEachConnection_dt (notes : List Note) (d1 d2 : ℚ) (h : min d1 1 = min d2 1) :
    ∀ (connections : List Connection) (acc : RopeStates × Bool),
      forEachConnection notes d1 connections acc = forEachConnection notes d2 connections acc
  | [], _ => rfl
  | connection :: rest, acc => by
      have htick : tickConnection notes d1 acc connection
          = tickConnection notes d2 acc connection := by
        unfold tickConnection
        dsimp only
        cases notes.find? (fun note => note.id = connection.fromNoteId) with
        | none => rfl
        | some fromNote =>
          cases notes.find? (fun note => note.id = connection.toNoteId) with
          | none => rfl
          | some toNote =>
            dsimp only
            rw [simulateRopePhysics_dt (some fromNote) (some toNote) _ d1 d2 h]
      unfold forEachConnection
      rw [htick]
      cases tickConnection notes d2 acc connection with
      | error e => rfl
      | ok acc1 => exact forEachConnection_dt notes d1 d2 h rest acc1

/-- Claim C29. In an accepted tick the elapsed time handed to
`simulateRopePhysics` is at least 16, so the clamped step `min elapsed 1` is 1 and
every call of the integrator with this elapsed time equals the call with time 1.
Two accepted ticks from the same state at different times return the same store
of chains and the same re-render counter, errors included. -/
theorem C29_effective_step (notes : List Note) (filteredConnections : List Connection)
    (s : SchedulerState) (currentTime now : ℚ)
    (haccept : currentTime - s.lastFrameTime
      ≥ (if s.isDragging then DRAG_THROTTLE_MS else IDLE_THROTTLE_MS)) :
    currentTime - s.lastFrameTime ≥ 16
    ∧ min (currentTime - s.lastFrameTime) 1 = 1
    ∧ (∀ (fromNote toNote : Option Note) (cur : Option Chain),
        simulateRopePhysics fromNote toNote cur (currentTime - s.lastFrameTime)
          = simulateRopePhysics fromNote toNote cur 1)
    ∧ forEachConnection notes (currentTime - s.lastFrameTime) filteredConnections
          (s.ropeStates, false)
        = forEachConnection notes 1 filteredConnections (s.ropeStates, false)
    ∧ ∀ (currentTime2 now2 : ℚ),
        currentTime2 - s.lastFrameTime
          ≥ (if s.isDragging then DRAG_THROTTLE_MS else IDLE_THROTTLE_MS) →
        (animate notes filteredConnections s currentTime now).map
            (fun r => (r.1.ropeStates, r.1.forceUpdate))
          = (animate notes filteredConnections s currentTime2 now2).map
            (fun r => (r.1.ropeStates, r.1.forceUpdate)) := by
  have hge : ∀ t : ℚ,
      t - s.lastFrameTime ≥ (if s.isDragging then DRAG_THROTTLE_MS else IDLE_THROTTLE_MS) →
      t - s.lastFrameTime ≥ 16 := by
    intro t ht
    by_cases hd : s.isDragging = true
    · rw [if_pos hd] at ht
      exact ht
    · rw [if_neg hd] at ht
      have : (IDLE_THROTTLE_MS : ℚ) ≥ 16 := by norm_num [IDLE_THROTTLE_MS]
      exact le_trans this ht
  have hmin : ∀ t : ℚ,
      t - s.lastFrameTime ≥ (if s.isDragging then DRAG_THROTTLE_MS else IDLE_THROTTLE_MS) →
      min (t - s.lastFrameTime) 1 = min 1 1 := by
    intro t ht
    have h16 := hge t ht
    rw [min_self, min_eq_right]
    linarith
  have hmap : ∀ t n : ℚ,
      t - s.lastFrameTime ≥ (if s.isDragging then DRAG_THROTTLE_MS else IDLE_THROTTLE_MS) →
      (animate notes filteredConnections s t n).map
            (fun r => (r.1.ropeStates, r.1.forceUpdate))
        = if filteredConnections.length > 0 then
            (forEachConnection notes 1 filteredConnections (s.ropeStates, false)).map
              (fun acc => (acc.1, if acc.2 then s.forceUpdate + 1 else s.forceUpdate))
          else .ok (s.ropeStates, s.forceUpdate) := by
    intro t n ht
    unfold animate
    dsimp only
    rw [if_pos ht, forEachConnection_dt notes _ 1 (hmin t ht)]
    by_cases hne : filteredConnections.length > 0
    · rw [if_pos hne, if_pos hne]
      cases forEachConnection notes 1 filteredConnections (s.ropeStates, false) with
      | error e => rfl
      | ok acc => rfl
    · rw [if_neg hne, if_neg hne]
      rfl
  refine ⟨hge currentTime haccept, ?_, ?_, ?_, ?_⟩
  · rw [hmin currentTime haccept, min_self]
  · intro fromNote toNote cur
    exact simulateRopePhysics_dt fromNote toNote cur _ 1 (hmin currentTime haccept)
  · exact forEachConnection_dt notes _ 1 (hmin currentTime haccept) filteredConnections _
  · intro currentTime2 now2 haccept2
    rw [hmap currentTime now haccept, hmap currentTime2 now2 haccept2]

/-- Witness of C29: the ticks at times 50 and 1000 from `sampleState`. -/
theorem C29_effective_step_witness :
    (50 : ℚ) - sampleState.lastFrameTime ≥ 16
    ∧ min ((50 : ℚ) - sampleState.lastFrameTime) 1 = 1
    ∧ (∀ (fromNote toNote : Option Note) (cur : Option Chain),
        simulateRopePhysics fromNote toNote cur (50 - sampleState.lastFrameTime)
          = simulateRopePhysics fromNote toNote cur 1)
    ∧ forEachConnection sampleNotes (50 - sampleState.lastFrameTime) [sampleConnection]
          (sampleState.ropeStates, false)
        = forEachConnection sampleNotes 1 [sampleConnection] (sampleState.ropeStates, false)
    ∧ ∀ (currentTime2 now2 : ℚ),
        currentTime2 - sampleState.lastFrameTime
          ≥ (if sampleState.isDragging then DRAG_THROTTLE_MS else IDLE_THROTTLE_MS) →
        (animate sampleNotes [sampleConnection] sampleState 50 50).map
            (fun r => (r.1.ropeStates, r.1.forceUpdate))
          = (animate sampleNotes [sampleConnection] sampleState currentTime2 now2).map
            (fun r => (r.1.ropeStates, r.1.forceUpdate)) :=
  C29_effective_step sampleNotes [sampleConnection] sampleState 50 50
    (sampleState_accepts 50 (by norm_num))

/-! ## Rope integrator: the equilibrium shape -/

theorem restingChain_length (a b : Position) :
    (restingChain a b).length = ROPE_SEGMENTS + 1 := by
  unfold restingChain
  rw [List.length_map, List.length_range]

theorem restingChain_getD (a b : Position) (i : Nat) (hi : i ≤ 12) :
    (restingChain a b).getD i ⟨0, 0, 0, 0⟩
      = { x := a.x + (b.x - a.x) * ((i : ℚ) / 12)
          y := a.y + (b.y - a.y) * ((i : ℚ) / 12) + (1 / 2) * (i : ℚ) * (12 - (i : ℚ))
          vx := 0, vy := 0 } := by
  have hlt : i < 13 := by omega
  simp [restingChain, List.getD, List.getElem?_map, List.getElem?_range, hlt, ROPE_SEGMENTS]

/-- At a free point of the resting chain the spring force is zero on the x axis
and `-0.15` on the y axis. -/
theorem restingChain_force (a b : Position) (i : Nat) (h1 : 1 ≤ i) (_h11 : i ≤ 11) :
    ((a.x + (b.x - a.x) * (((i - 1 : Nat) : ℚ) / 12))
        - (a.x + (b.x - a.x) * ((i : ℚ) / 12))
        + ((a.x + (b.x - a.x) * (((i + 1 : Nat) : ℚ) / 12))
        - (a.x + (b.x - a.x) * ((i : ℚ) / 12)))) * SPRING_STIFFNESS = 0
    ∧ ((a.y + (b.y - a.y) * (((i - 1 : Nat) : ℚ) / 12)
          + (1 / 2) * ((i - 1 : Nat) : ℚ) * (12 - ((i - 1 : Nat) : ℚ)))
        - (a.y + (b.y - a.y) * ((i : ℚ) / 12) + (1 / 2) * (i : ℚ) * (12 - (i : ℚ)))
        + ((a.y + (b.y - a.y) * (((i + 1 : Nat) : ℚ) / 12)
          + (1 / 2) * ((i + 1 : Nat) : ℚ) * (12 - ((i + 1 : Nat) : ℚ)))
        - (a.y + (b.y - a.y) * ((i : ℚ) / 12) + (1 / 2) * (i : ℚ) * (12 - (i : ℚ)))))
        * SPRING_STIFFNESS = -(15 / 100) := by
  have hc : ((i - 1 : Nat) : ℚ) = (i : ℚ) - 1 := by
    rw [Nat.cast_sub h1]
    simp
  rw [hc]
  unfold SPRING_STIFFNESS
  push_cast
  constructor <;> ring

/-- One step of the loop from the resting chain returns the resting chain. -/
theorem stepChain_restingChain (a b : Position) (dt : ℚ) :
    stepChain (restingChain a b) a b dt = restingChain a b := by
  apply List.ext_getElem?
  intro i
  by_cases hi : i ≤ 12
  · have hrest : (restingChain a b)[i]? = some ((restingChain a b).getD i ⟨0, 0, 0, 0⟩) :=
      getElem_opt_eq_getD _ i (by rw [restingChain_length]; simp only [ROPE_SEGMENTS]; omega) _
    rw [hrest, restingChain_getD a b i hi]
    by_cases h0 : i = 0
    · subst h0
      rw [stepChain_zero]
      simp
    · by_cases h12 : i = 12
      · subst h12
        rw [stepChain_last]
        congr 2
        · push_cast
          ring
        · push_cast
          ring
      · have h1 : 1 ≤ i := by omega
        have h11 : i ≤ 11 := by omega
        rw [stepChain_free _ _ _ _ i h1 h11, restingChain_getD _ _ _ (by omega),
          restingChain_getD _ _ _ hi, restingChain_getD _ _ _ (by omega)]
        obtain ⟨hfx, hfy⟩ := restingChain_force a b i h1 h11
        have hx : (0 : ℚ) + (((a.x + (b.x - a.x) * (((i - 1 : Nat) : ℚ) / 12))
            - (a.x + (b.x - a.x) * ((i : ℚ) / 12))
            + ((a.x + (b.x - a.x) * (((i + 1 : Nat) : ℚ) / 12))
            - (a.x + (b.x - a.x) * ((i : ℚ) / 12)))) * SPRING_STIFFNESS
            + -0 * SPRING_DAMPING) * dt = 0 := by
          rw [hfx]
          ring
        have hy : (0 : ℚ) + (((a.y + (b.y - a.y) * (((i - 1 : Nat) : ℚ) / 12)
              + (1 / 2) * ((i - 1 : Nat) : ℚ) * (12 - ((i - 1 : Nat) : ℚ)))
            - (a.y + (b.y - a.y) * ((i : ℚ) / 12) + (1 / 2) * (i : ℚ) * (12 - (i : ℚ)))
            + ((a.y + (b.y - a.y) * (((i + 1 : Nat) : ℚ) / 12)
              + (1 / 2) * ((i + 1 : Nat) : ℚ) * (12 - ((i + 1 : Nat) : ℚ)))
            - (a.y + (b.y - a.y) * ((i : ℚ) / 12) + (1 / 2) * (i : ℚ) * (12 - (i : ℚ)))))
            * SPRING_STIFFNESS + -0 * SPRING_DAMPING + GRAVITY) * dt = 0 := by
          rw [hfy]
          unfold SPRING_DAMPING GRAVITY
          ring
        simp only [freePoint, hx, hy, limitVelocity_zero, zero_mul, add_zero]
  · have hlen1 : (stepChain (restingChain a b) a b dt).length ≤ i := by
      rw [stepChain_length]
      simp only [ROPE_SEGMENTS]
      omega
    have hlen2 : (restingChain a b).length ≤ i := by
      rw [restingChain_length]
      simp only [ROPE_SEGMENTS]
      omega
    rw [List.getElem?_eq_none hlen1, List.getElem?_eq_none hlen2]

/-- Claim C28. For two notes with positions, `simulateRopePhysics` called with
time step 1 (and with any other time step) on the chain whose point `i` is at
`A + (B - A) * i/12 + (0, 0.5 * i * (12 - i))` with zero velocity returns this
very chain, positions and zero velocities alike. At every free point of it the
spring force is 0 on the x axis and `-0.15` on the y axis, which cancels the
gravity `0.15`, and its midpoint lies 18 below the midpoint of the anchors. -/
theorem C28_equilibrium (fromNote toNote : Note) (pa pb : Position)
    (hfrom : fromNote.position = some pa) (hto : toNote.position = some pb) :
    simulateRopePhysics (some fromNote) (some toNote)
        (some (restingChain (anchor pa) (anchor pb))) 1
      = .ok (some (restingChain (anchor pa) (anchor pb)))
    ∧ (∀ deltaTime : ℚ, simulateRopePhysics (some fromNote) (some toNote)
        (some (restingChain (anchor pa) (anchor pb))) deltaTime
      = .ok (some (restingChain (anchor pa) (anchor pb))))
    ∧ (∀ i : Nat, i ≤ 12 → (restingChain (anchor pa) (anchor pb))[i]? = some
        { x := (anchor pa).x + ((anchor pb).x - (anchor pa).x) * ((i : ℚ) / 12)
          y := (anchor pa).y + ((anchor pb).y - (anchor pa).y) * ((i : ℚ) / 12)
            + (1 / 2) * (i : ℚ) * (12 - (i : ℚ))
          vx := 0, vy := 0 })
    ∧ (∀ i : Nat, 1 ≤ i → i ≤ 11 →
        ∃ prevPoint point nextPoint : MassPoint,
          (restingChain (anchor pa) (anchor pb))[i - 1]? = some prevPoint
          ∧ (restingChain (anchor pa) (anchor pb))[i]? = some point
          ∧ (restingChain (anchor pa) (anchor pb))[i + 1]? = some nextPoint
          ∧ ((prevPoint.x - point.x) + (nextPoint.x - point.x)) * SPRING_STIFFNESS = 0
          ∧ ((prevPoint.y - point.y) + (nextPoint.y - point.y)) * SPRING_STIFFNESS
              = -(15 / 100)
          ∧ ((prevPoint.y - point.y) + (nextPoint.y - point.y)) * SPRING_STIFFNESS
              + GRAVITY = 0)
    ∧ (restingChain (anchor pa) (anchor pb))[6]? = some
        { x := ((anchor pa).x + (anchor pb).x) / 2
          y := ((anchor pa).y + (anchor pb).y) / 2 + 18
          vx := 0, vy := 0 } := by
  have hget : ∀ i : Nat, i ≤ 12 → (restingChain (anchor pa) (anchor pb))[i]? = some
        { x := (anchor pa).x + ((anchor pb).x - (anchor pa).x) * ((i : ℚ) / 12)
          y := (anchor pa).y + ((anchor pb).y - (anchor pa).y) * ((i : ℚ) / 12)
            + (1 / 2) * (i : ℚ) * (12 - (i : ℚ))
          vx := 0, vy := 0 } := by
    intro i hi
    rw [getElem_opt_eq_getD _ i
      (by rw [restingChain_length]; simp only [ROPE_SEGMENTS]; omega) ⟨0, 0, 0, 0⟩,
      restingChain_getD _ _ i hi]
  have hstep : ∀ deltaTime : ℚ, simulateRopePhysics (some fromNote) (some toNote)
        (some (restingChain (anchor pa) (anchor pb))) deltaTime
      = .ok (some (restingChain (anchor pa) (anchor pb))) := by
    intro deltaTime
    rw [simulateRopePhysics_eq fromNote toNote pa pb hfrom hto _
      (fun pts hpts => by
        cases hpts
        rw [restingChain_length]) deltaTime]
    rw [show workingPoints (anchor pa) (anchor pb)
        (some (restingChain (anchor pa) (anchor pb)))
      = restingChain (anchor pa) (anchor pb) from rfl, stepChain_restingChain]
  refine ⟨hstep 1, hstep, hget, ?_, ?_⟩
  · intro i h1 h11
    obtain ⟨hfx, hfy⟩ := restingChain_force (anchor pa) (anchor pb) i h1 h11
    refine ⟨_, _, _, hget (i - 1) (by omega), hget i (by omega), hget (i + 1) (by omega),
      hfx, hfy, ?_⟩
    rw [hfy]
    unfold GRAVITY
    norm_num
  · rw [hget 6 (by omega)]
    congr 2
    · push_cast
      ring
    · push_cast
      ring

/-- Witness of C28: the resting chain between the anchors of the notes `a` and
`b`. -/
theorem C28_equilibrium_witness :
    simulateRopePhysics (some sampleNoteA) (some sampleNoteB)
        (some (restingChain (anchor ⟨-140, -100⟩) (anchor ⟨140, -100⟩))) 1
      = .ok (some (restingChain (anchor ⟨-140, -100⟩) (anchor ⟨140, -100⟩)))
    ∧ (restingChain (anchor ⟨-140, -100⟩) (anchor ⟨140, -100⟩))[6]? = some
        { x := ((anchor ⟨-140, -100⟩).x + (anchor ⟨140, -100⟩).x) / 2
          y := ((anchor ⟨-140, -100⟩).y + (anchor ⟨140, -100⟩).y) / 2 + 18
          vx := 0, vy := 0 } :=
  ⟨(C28_equilibrium sampleNoteA sampleNoteB ⟨-140, -100⟩ ⟨140, -100⟩ rfl rfl).1,
    (C28_equilibrium sampleNoteA sampleNoteB ⟨-140, -100⟩ ⟨140, -100⟩ rfl rfl).2.2.2.2⟩

/-! ## Notes store: `addConnection` -/

/-- The outcome of `addConnection` when all four conditions hold. -/
theorem addConnection_of_ok (state : NotesState) (fromNoteId toNoteId : String)
    (type : Option String) (newId createdAt : String) (fromNote toNote : StoredNote)
    (hne : fromNoteId ≠ toNoteId)
    (hnew : ∀ conn ∈ state.connections,
      ¬ ((conn.fromNoteId = fromNoteId ∧ conn.toNoteId = toNoteId)
        ∨ (conn.fromNoteId = toNoteId ∧ conn.toNoteId = fromNoteId)))
    (hfrom : state.notes.find? (fun note => note.id = fromNoteId) = some fromNote)
    (hto : state.notes.find? (fun note => note.id = toNoteId) = some toNote)
    (hgroup : fromNote.groupId = toNote.groupId) :
    addConnection state fromNoteId toNoteId type newId createdAt
      = { state with connections := state.connections ++
            [{ id := newId, fromNoteId := fromNoteId, toNoteId := toNoteId,
               type := type.getD "related", groupId := fromNote.groupId,
               createdAt := createdAt }] } := by
  have hfind : state.connections.find? (fun conn =>
      decide ((conn.fromNoteId = fromNoteId ∧ conn.toNoteId = toNoteId)
        ∨ (conn.fromNoteId = toNoteId ∧ conn.toNoteId = fromNoteId))) = none := by
    rw [List.find?_eq_none]
    intro conn hconn
    simpa using hnew conn hconn
  unfold addConnection
  dsimp only
  rw [if_pos ⟨hfind, hne⟩, hfrom, hto]
  dsimp only
  rw [if_pos hgroup]

/-- The outcome of `addConnection` when one of the four conditions fails. -/
theorem addConnection_of_not (state : NotesState) (fromNoteId toNoteId : String)
    (type : Option String) (newId createdAt : String)
    (h : ¬ (fromNoteId ≠ toNoteId
      ∧ (∀ conn ∈ state.connections,
        ¬ ((conn.fromNoteId = fromNoteId ∧ conn.toNoteId = toNoteId)
          ∨ (conn.fromNoteId = toNoteId ∧ conn.toNoteId = fromNoteId)))
      ∧ ∃ fromNote toNote : StoredNote,
        state.notes.find? (fun note => note.id = fromNoteId) = some fromNote
        ∧ state.notes.find? (fun note => note.id = toNoteId) = some toNote
        ∧ fromNote.groupId = toNote.groupId)) :
    addConnection state fromNoteId toNoteId type newId createdAt = state := by
  unfold addConnection
  dsimp only
  by_cases hc : state.connections.find? (fun conn =>
      decide ((conn.fromNoteId = fromNoteId ∧ conn.toNoteId = toNoteId)
        ∨ (conn.fromNoteId = toNoteId ∧ conn.toNoteId = fromNoteId))) = none
      ∧ fromNoteId ≠ toNoteId
  · rw [if_pos hc]
    have hnew : ∀ conn ∈ state.connections,
        ¬ ((conn.fromNoteId = fromNoteId ∧ conn.toNoteId = toNoteId)
          ∨ (conn.fromNoteId = toNoteId ∧ conn.toNoteId = fromNoteId)) := by
      intro conn hconn
      have := List.find?_eq_none.1 hc.1 conn hconn
      simpa using this
    cases hf : state.notes.find? (fun note => note.id = fromNoteId) with
    | none => rfl
    | some fromNote =>
      cases ht : state.notes.find? (fun note => note.id = toNoteId) with
      | none => rfl
      | some toNote =>
        dsimp only
        by_cases hg : fromNote.groupId = toNote.groupId
        · exact absurd ⟨hc.2, hnew, fromNote, toNote, hf, ht, hg⟩ h
        · rw [if_neg hg]
  · rw [if_neg hc]

/-- Claim C25. `addConnection` appends one connection with the given two note
ids, the given type (or `'related'`) and the from-note's group id to the end of
`state.connections`, leaving every other field alone, when the two ids differ, no
stored connection joins them in either direction, both ids are found among the
notes and the notes found have the same `groupId`; when one of these fails the
state is returned unchanged. So the list grows by one exactly under these
conditions. If before the call no connection joins a note to itself and no two
connections join the same unordered pair of notes, the same holds after it. -/
theorem C25_add_connection (state : NotesState) (fromNoteId toNoteId : String)
    (type : Option String) (newId createdAt : String) :
    (∀ fromNote toNote : StoredNote,
      fromNoteId ≠ toNoteId →
      (∀ conn ∈ state.connections,
        ¬ ((conn.fromNoteId = fromNoteId ∧ conn.toNoteId = toNoteId)
          ∨ (conn.fromNoteId = toNoteId ∧ conn.toNoteId = fromNoteId))) →
      state.notes.find? (fun note => note.id = fromNoteId) = some fromNote →
      state.notes.find? (fun note => note.id = toNoteId) = some toNote →
      fromNote.groupId = toNote.groupId →
      addConnection state fromNoteId toNoteId type newId createdAt
        = { state with connections := state.connections ++
              [{ id := newId, fromNoteId := fromNoteId, toNoteId := toNoteId,
                 type := type.getD "related", groupId := fromNote.groupId,
                 createdAt := createdAt }] })
    ∧ (¬ (fromNoteId ≠ toNoteId
        ∧ (∀ conn ∈ state.connections,
          ¬ ((conn.fromNoteId = fromNoteId ∧ conn.toNoteId = toNoteId)
            ∨ (conn.fromNoteId = toNoteId ∧ conn.toNoteId = fromNoteId)))
        ∧ ∃ fromNote toNote : StoredNote,
          state.notes.find? (fun note => note.id = fromNoteId) = some fromNote
          ∧ state.notes.find? (fun note => note.id = toNoteId) = some toNote
          ∧ fromNote.groupId = toNote.groupId) →
      addConnection state fromNoteId toNoteId type newId createdAt = state)
    ∧ ((addConnection state fromNoteId toNoteId type newId createdAt).connections.length
          = state.connections.length + 1
        ↔ (fromNoteId ≠ toNoteId
          ∧ (∀ conn ∈ state.connections,
            ¬ ((conn.fromNoteId = fromNoteId ∧ conn.toNoteId = toNoteId)
              ∨ (conn.fromNoteId = toNoteId ∧ conn.toNoteId = fromNoteId)))
          ∧ (∃ note ∈ state.notes, note.id = fromNoteId)
          ∧ (∃ note ∈ state.notes, note.id = toNoteId)
          ∧ ∃ fromNote toNote : StoredNote,
            state.notes.find? (fun note => note.id = fromNoteId) = some fromNote
            ∧ state.notes.find? (fun note => note.id = toNoteId) = some toNote
            ∧ fromNote.groupId = toNote.groupId))
    ∧ (NoSelfConnection state.connections → NoDuplicatePair state.connections →
        NoSelfConnection
          (addConnection state fromNoteId toNoteId type newId createdAt).connections
        ∧ NoDuplicatePair
          (addConnection state fromNoteId toNoteId type newId createdAt).connections) := by
  refine ⟨?_, ?_, ?_, ?_⟩
  · intro fromNote toNote hne hnew hfrom hto hgroup
    exact addConnection_of_ok state fromNoteId toNoteId type newId createdAt fromNote toNote
      hne hnew hfrom hto hgroup
  · exact addConnection_of_not state fromNoteId toNoteId type newId createdAt
  · by_cases h : fromNoteId ≠ toNoteId
        ∧ (∀ conn ∈ state.connections,
          ¬ ((conn.fromNoteId = fromNoteId ∧ conn.toNoteId = toNoteId)
            ∨ (conn.fromNoteId = toNoteId ∧ conn.toNoteId = fromNoteId)))
        ∧ ∃ fromNote toNote : StoredNote,
          state.notes.find? (fun note => note.id = fromNoteId) = some fromNote
          ∧ state.notes.find? (fun note => note.id = toNoteId) = some toNote
          ∧ fromNote.groupId = toNote.groupId
    · obtain ⟨hne, hnew, fromNote, toNote, hfrom, hto, hgroup⟩ := h
      rw [addConnection_of_ok state fromNoteId toNoteId type newId createdAt fromNote toNote
        hne hnew hfrom hto hgroup]
      constructor
      · intro _
        refine ⟨hne, hnew, ⟨fromNote, List.mem_of_find?_eq_some hfrom, ?_⟩,
          ⟨toNote, List.mem_of_find?_eq_some hto, ?_⟩, fromNote, toNote, hfrom, hto, hgroup⟩
        · simpa using List.find?_some hfrom
        · simpa using List.find?_some hto
      · intro _
        simp
    · rw [addConnection_of_not state fromNoteId toNoteId type newId createdAt h]
      constructor
      · intro hlen
        omega
      · rintro ⟨hne, hnew, _, _, hex⟩
        exact absurd ⟨hne, hnew, hex⟩ h
  · intro hself hpair
    by_cases h : fromNoteId ≠ toNoteId
        ∧ (∀ conn ∈ state.connections,
          ¬ ((conn.fromNoteId = fromNoteId ∧ conn.toNoteId = toNoteId)
            ∨ (conn.fromNoteId = toNoteId ∧ conn.toNoteId = fromNoteId)))
        ∧ ∃ fromNote toNote : StoredNote,
          state.notes.find? (fun note => note.id = fromNoteId) = some fromNote
          ∧ state.notes.find? (fun note => note.id = toNoteId) = some toNote
          ∧ fromNote.groupId = toNote.groupId
    · obtain ⟨hne, hnew, fromNote, toNote, hfrom, hto, hgroup⟩ := h
      rw [addConnection_of_ok state fromNoteId toNoteId type newId createdAt fromNote toNote
        hne hnew hfrom hto hgroup]
      dsimp only
      constructor
      · intro conn hconn
        rw [List.mem_append, List.mem_singleton] at hconn
        rcases hconn with hconn | hconn
        · exact hself conn hconn
        · rw [hconn]
          exact hne
      · unfold NoDuplicatePair
        rw [List.pairwise_append]
        refine ⟨hpair, List.pairwise_singleton _ _, ?_⟩
        intro c hc d hd
        rw [List.mem_singleton] at hd
        rw [hd]
        exact hnew c hc
    · rw [addConnection_of_not state fromNoteId toNoteId type newId createdAt h]
      exact ⟨hself, hpair⟩

theorem sampleSlice_noSelf : NoSelfConnection sampleSlice.connections := by
  intro conn hconn
  simp only [sampleSlice, List.mem_singleton] at hconn
  rw [hconn]
  decide

theorem sampleSlice_noDuplicate : NoDuplicatePair sampleSlice.connections := by
  simp [NoDuplicatePair, sampleSlice]

/-- Witness of C25: adding the connection from `b` to `e` to `sampleSlice`, whose
only connection joins `a` and `b`. -/
theorem C25_add_connection_witness :
    addConnection sampleSlice "b" "e" none "k2" "t1"
        = { sampleSlice with connections := sampleSlice.connections ++
              [{ id := "k2", fromNoteId := "b", toNoteId := "e", type := "related",
                 groupId := .null, createdAt := "t1" }] }
    ∧ addConnection sampleSlice "b" "a" none "k2" "t1" = sampleSlice
    ∧ addConnection sampleSlice "b" "g" none "k2" "t1" = sampleSlice
    ∧ addConnection sampleSlice "b" "b" none "k2" "t1" = sampleSlice
    ∧ addConnection sampleSlice "b" "zz" none "k2" "t1" = sampleSlice
    ∧ NoSelfConnection (addConnection sampleSlice "b" "e" none "k2" "t1").connections
    ∧ NoDuplicatePair (addConnection sampleSlice "b" "e" none "k2" "t1").connections :=
  ⟨(C25_add_connection sampleSlice "b" "e" none "k2" "t1").1 ⟨"b", .null⟩ ⟨"e", .null⟩
      (by decide) (by decide) (by decide) (by decide) rfl,
    (C25_add_connection sampleSlice "b" "a" none "k2" "t1").2.1
      (fun h => h.2.1 ⟨"k", "a", "b", "related", .null, "t0"⟩ (List.mem_singleton_self _)
        (Or.inr ⟨rfl, rfl⟩)),
    by decide, by decide, by decide,
    ((C25_add_connection sampleSlice "b" "e" none "k2" "t1").2.2.2
      sampleSlice_noSelf sampleSlice_noDuplicate).1,
    ((C25_add_connection sampleSlice "b" "e" none "k2" "t1").2.2.2
      sampleSlice_noSelf sampleSlice_noDuplicate).2⟩

/-! ## Notes store: `deleteNote` -/

/-- Claim C26. After `deleteNote` with a note id the notes are the notes with
another id and the connections are the connections with this id neither as
`fromNoteId` nor as `toNoteId`, both in their original order: no note has the id,
no connection involves it, every other note and every connection not involving
it is kept. If every connection referenced two notes of the state before, every
remaining connection references two notes of the state after. -/
theorem C26_delete_note (state : NotesState) (noteId : String) :
    (deleteNote state noteId).notes = state.notes.filter (fun note => note.id ≠ noteId)
    ∧ (deleteNote state noteId).connections
        = state.connections.filter
            (fun conn => conn.fromNoteId ≠ noteId ∧ conn.toNoteId ≠ noteId)
    ∧ (∀ note ∈ (deleteNote state noteId).notes, note.id ≠ noteId)
    ∧ (∀ conn ∈ (deleteNote state noteId).connections,
        conn.fromNoteId ≠ noteId ∧ conn.toNoteId ≠ noteId)
    ∧ (∀ note ∈ state.notes, note.id ≠ noteId → note ∈ (deleteNote state noteId).notes)
    ∧ (∀ conn ∈ state.connections, conn.fromNoteId ≠ noteId → conn.toNoteId ≠ noteId →
        conn ∈ (deleteNote state noteId).connections)
    ∧ (deleteNote state noteId).notes.Sublist state.notes
    ∧ (deleteNote state noteId).connections.Sublist state.connections
    ∧ (ReferencesExist state → ReferencesExist (deleteNote state noteId)) := by
  have hnotes : ∀ note : StoredNote,
      note ∈ (deleteNote state noteId).notes ↔ note ∈ state.notes ∧ note.id ≠ noteId := by
    intro note
    simp [deleteNote, List.mem_filter]
  have hconns : ∀ conn : StoredConnection,
      conn ∈ (deleteNote state noteId).connections
        ↔ conn ∈ state.connections ∧ conn.fromNoteId ≠ noteId ∧ conn.toNoteId ≠ noteId := by
    intro conn
    simp [deleteNote, List.mem_filter]
  refine ⟨rfl, rfl, ?_, ?_, ?_, ?_, ?_, ?_, ?_⟩
  · intro note hnote
    exact ((hnotes note).1 hnote).2
  · intro conn hconn
    exact ((hconns conn).1 hconn).2
  · intro note hnote hne
    exact (hnotes note).2 ⟨hnote, hne⟩
  · intro conn hconn hf ht
    exact (hconns conn).2 ⟨hconn, hf, ht⟩
  · exact List.filter_sublist _
  · exact List.filter_sublist _
  · intro href conn hconn
    obtain ⟨hmem, hf, ht⟩ := (hconns conn).1 hconn
    obtain ⟨⟨n1, hn1, hid1⟩, ⟨n2, hn2, hid2⟩⟩ := href conn hmem
    refine ⟨⟨n1, (hnotes n1).2 ⟨hn1, ?_⟩, hid1⟩, ⟨n2, (hnotes n2).2 ⟨hn2, ?_⟩, hid2⟩⟩
    · rw [hid1]
      exact hf
    · rw [hid2]
      exact ht

/-- Witness of C26: deleting the note `a` from `sampleSlice` removes the note and
the connection `k` between `a` and `b`; deleting the note `e` keeps the
connection. -/
theorem C26_delete_note_witness :
    (deleteNote sampleSlice "a").notes = [⟨"b", .null⟩, ⟨"e", .null⟩, ⟨"g", .group "1"⟩]
    ∧ (deleteNote sampleSlice "a").connections = []
    ∧ (deleteNote sampleSlice "e").connections = sampleSlice.connections
    ∧ ReferencesExist sampleSlice
    ∧ ReferencesExist (deleteNote sampleSlice "a")
    ∧ ReferencesExist (deleteNote sampleSlice "e") :=
  ⟨by decide, by decide, by decide, by unfold ReferencesExist; decide,
    (C26_delete_note sampleSlice "a").2.2.2.2.2.2.2.2 (by unfold ReferencesExist; decide),
    (C26_delete_note sampleSlice "e").2.2.2.2.2.2.2.2 (by unfold ReferencesExist; decide)⟩

/-! ## Idle cadence and the measured frame rate -/

theorem jsRound_le_of_lt (x : ℚ) (n : ℤ) (h : x < (n : ℚ) + 1 / 2) : jsRound x ≤ (n : ℚ) := by
  unfold jsRound
  have hlt : ⌊x + 1 / 2⌋ < n + 1 := by
    rw [Int.floor_lt]
    push_cast
    linarith
  exact Int.cast_le.2 (Int.lt_add_one_iff.1 hlt)

/-- A sample over a window whose frames are at least 33 ms apart is at most 30. -/
theorem sample_le_thirty (frames : Nat) (elapsed : ℚ) (hframes : 1 ≤ frames)
    (hgap : 33 * (frames : ℚ) ≤ elapsed) :
    jsRound (((frames : ℚ) * 1000) / elapsed) ≤ 30 := by
  have hpos : (1 : ℚ) ≤ (frames : ℚ) := by exact_mod_cast hframes
  have helapsed : 0 < elapsed := by linarith
  have h := jsRound_le_of_lt (((frames : ℚ) * 1000) / elapsed) 30 (by
    rw [div_lt_iff₀ helapsed]
    push_cast
    nlinarith)
  simpa using h

theorem mem_pushSample (h : List ℚ) (fps x : ℚ) (hx : x ∈ pushSample h fps) :
    x ∈ h ∨ x = fps := by
  unfold pushSample at hx
  dsimp only at hx
  have hmem : x ∈ h ++ [fps] := by
    split_ifs at hx
    · exact List.mem_of_mem_tail hx
    · exact hx
  rw [List.mem_append, List.mem_singleton] at hmem
  exact hmem

/-- The average of a non-empty history of samples not above a bound is not above
the bound. -/
theorem averageOf_le (h : List ℚ) (bound : ℚ) (hne : h ≠ [])
    (hall : ∀ x ∈ h, x ≤ bound) : averageOf h ≤ bound := by
  rw [averageOf_eq_sum]
  have hlen : (0 : ℚ) < (h.length : ℚ) := by
    have : 0 < h.length := List.length_pos.2 hne
    exact_mod_cast this
  rw [div_le_iff₀ hlen]
  have hsum := List.sum_le_card_nsmul h bound hall
  rw [nsmul_eq_mul] at hsum
  linarith

/-- With an average not above 40 the mode can only change to performance mode. -/
theorem modeAfter_of_le (performanceMode : Bool) (avgFps : ℚ) (h : avgFps ≤ 40) :
    (performanceMode = true → modeAfter performanceMode avgFps = true)
    ∧ (modeAfter performanceMode avgFps ≠ performanceMode →
        modeAfter performanceMode avgFps = true) := by
  have hhigh : ¬ (avgFps > lowPerformanceThreshold + 10 ∧ performanceMode = true) := by
    rintro ⟨h40, _⟩
    unfold lowPerformanceThreshold at h40
    linarith
  unfold modeAfter
  rw [if_neg hhigh]
  constructor
  · intro hmode
    by_cases hlow : avgFps < lowPerformanceThreshold ∧ performanceMode = false
    · rw [if_pos hlow]
    · rw [if_neg hlow]
      exact hmode
  · intro hne
    by_cases hlow : avgFps < lowPerformanceThreshold ∧ performanceMode = false
    · rw [if_pos hlow]
    · rw [if_neg hlow] at hne
      exact absurd rfl hne

/-- One `recordFrame` at a time at least 33 ms after the frames counted so far:
the history stays at samples not above 30, the new window keeps the cadence, no
subscriber is told `performance-mode-disabled`, and a monitor in performance mode
stays there silently. -/
theorem recordFrame_idle (m : PerformanceMonitor) (currentTime : ℚ)
    (hhist : ∀ x ∈ m.fpsHistory, x ≤ 30)
    (hgap : m.lastTime + 33 * ((m.frameCount + 1 : Nat) : ℚ) ≤ currentTime) :
    (∀ x ∈ (m.recordFrame currentTime).1.fpsHistory, x ≤ 30)
    ∧ (m.recordFrame currentTime).1.lastTime
        + 33 * ((m.recordFrame currentTime).1.frameCount : ℚ) ≤ currentTime
    ∧ (∀ n ∈ (m.recordFrame currentTime).2, n.event ≠ "performance-mode-disabled")
    ∧ (m.performanceMode = true →
        (m.recordFrame currentTime).1.performanceMode = true
        ∧ (m.recordFrame currentTime).2 = [])
    ∧ (currentTime - m.lastTime ≥ 1000 →
        jsRound ((((m.frameCount + 1 : Nat) : ℚ) * 1000) / (currentTime - m.lastTime)) ≤ 30
        ∧ (m.recordFrame currentTime).1.fpsHistory = pushSample m.fpsHistory
            (jsRound ((((m.frameCount + 1 : Nat) : ℚ) * 1000) / (currentTime - m.lastTime)))
        ∧ averageOf (m.recordFrame currentTime).1.fpsHistory ≤ 30) := by
  by_cases hge : currentTime - m.lastTime ≥ 1000
  · have hfps : jsRound ((((m.frameCount + 1 : Nat) : ℚ) * 1000)
        / (currentTime - m.lastTime)) ≤ 30 :=
      sample_le_thirty (m.frameCount + 1) (currentTime - m.lastTime) (by omega) (by linarith)
    have hrec := recordFrame_of_ge m currentTime hge
    rw [measure_eq] at hrec
    generalize jsRound ((((m.frameCount + 1 : Nat) : ℚ) * 1000) / (currentTime - m.lastTime))
      = fps at hrec hfps
    have hpush : ∀ x ∈ pushSample m.fpsHistory fps, x ≤ 30 := by
      intro x hx
      rcases mem_pushSample _ _ _ hx with hx | hx
      · exact hhist x hx
      · rw [hx]
        exact hfps
    have havg : averageOf (pushSample m.fpsHistory fps) ≤ 30 :=
      averageOf_le _ 30 (pushSample_ne_nil _ _) hpush
    have hmode := modeAfter_of_le m.performanceMode (averageOf (pushSample m.fpsHistory fps))
      (by linarith)
    rw [hrec]
    dsimp only
    rw [show ({ m with frameCount := m.frameCount + 1 } : PerformanceMonitor).fpsHistory
      = m.fpsHistory from rfl,
      show ({ m with frameCount := m.frameCount + 1 } : PerformanceMonitor).performanceMode
      = m.performanceMode from rfl] at *
    refine ⟨hpush, ?_, ?_, ?_, fun _ => ⟨hfps, rfl, havg⟩⟩
    · push_cast
      linarith
    · intro n hn
      by_cases hsame : modeAfter m.performanceMode (averageOf (pushSample m.fpsHistory fps))
          = m.performanceMode
      · rw [if_pos hsame] at hn
        cases hn
      · rw [if_neg hsame, hmode.2 hsame] at hn
        unfold PerformanceMonitor.notifyCallbacks at hn
        rw [List.mem_map] at hn
        obtain ⟨cb, _, hcb⟩ := hn
        rw [← hcb]
        simp [transitionEvent]
    · intro htrue
      refine ⟨hmode.1 htrue, ?_⟩
      rw [if_pos (by rw [hmode.1 htrue, htrue])]
  · rw [recordFrame_of_lt m currentTime (not_le.mp hge)]
    dsimp only
    refine ⟨hhist, by linarith, ?_, fun htrue => ⟨htrue, rfl⟩, fun h => absurd h hge⟩
    intro n hn
    cases hn

/-- One tick of the idle loop keeps `IdleWindow` and the full chains. -/
theorem animate_idle (notes : List Note) (filteredConnections : List Connection)
    (s : SchedulerState) (currentTime : ℚ) (hidle : IdleWindow s)
    (hfull : FullChains s.ropeStates) :
    ∃ (s1 : SchedulerState) (notified : List Notification),
      animate notes filteredConnections s currentTime currentTime = .ok (s1, notified)
      ∧ IdleWindow s1 ∧ FullChains s1.ropeStates
      ∧ (∀ n ∈ notified, n.event ≠ "performance-mode-disabled")
      ∧ (s.monitor.performanceMode = true →
          s1.monitor.performanceMode = true ∧ notified = []) := by
  obtain ⟨hdrag, hwindow, hhist⟩ := hidle
  by_cases haccept : currentTime - s.lastFrameTime
      ≥ (if s.isDragging then DRAG_THROTTLE_MS else IDLE_THROTTLE_MS)
  · obtain ⟨s1, notified, hrun, htime, hmon, hnote, hdrag1, hfull1⟩ :=
      animate_accepted_fields notes filteredConnections s currentTime currentTime
        haccept hfull
    have h33 : currentTime - s.lastFrameTime ≥ 33 := by
      rw [hdrag] at haccept
      exact haccept
    obtain ⟨h1, h2, h3, h4, _⟩ := recordFrame_idle s.monitor currentTime hhist (by
      push_cast
      linarith)
    refine ⟨s1, notified, hrun, ⟨by rw [hdrag1, hdrag], ?_, ?_⟩, hfull1, ?_, ?_⟩
    · rw [hmon, htime]
      exact h2
    · rw [hmon]
      exact h1
    · rw [hnote]
      exact h3
    · rw [hmon, hnote]
      exact h4
  · rw [animate_skipped notes filteredConnections s currentTime currentTime
      (not_le.mp haccept)]
    exact ⟨s, [], rfl, ⟨hdrag, hwindow, hhist⟩, hfull,
      fun n hn => absurd hn (List.not_mem_nil n), fun h => ⟨h, rfl⟩⟩

/-- The idle loop over any timestamps keeps `IdleWindow`. -/
theorem animateRun_idle (notes : List Note) (filteredConnections : List Connection) :
    ∀ (timestamps : List ℚ) (s : SchedulerState), IdleWindow s → FullChains s.ropeStates →
      ∃ (s1 : SchedulerState) (notified : List Notification),
        animateRun notes filteredConnections s timestamps = .ok (s1, notified)
        ∧ IdleWindow s1 ∧ FullChains s1.ropeStates
        ∧ (∀ n ∈ notified, n.event ≠ "performance-mode-disabled")
        ∧ (s.monitor.performanceMode = true →
            s1.monitor.performanceMode = true ∧ notified = [])
  | [], s, hidle, hfull =>
      ⟨s, [], rfl, hidle, hfull, fun n hn => absurd hn (List.not_mem_nil n),
        fun h => ⟨h, rfl⟩⟩
  | currentTime :: rest, s, hidle, hfull => by
      obtain ⟨s1, notified, hrun, hidle1, hfull1, hquiet1, hmode1⟩ :=
        animate_idle notes filteredConnections s currentTime hidle hfull
      obtain ⟨s2, notified2, hrun2, hidle2, hfull2, hquiet2, hmode2⟩ :=
        animateRun_idle notes filteredConnections rest s1 hidle1 hfull1
      refine ⟨s2, notified ++ notified2, ?_, hidle2, hfull2, ?_, ?_⟩
      · unfold animateRun
        rw [hrun]
        dsimp only
        rw [hrun2]
      · intro n hn
        rw [List.mem_append] at hn
        rcases hn with hn | hn
        · exact hquiet1 n hn
        · exact hquiet2 n hn
      · intro htrue
        obtain ⟨hm1, hn1⟩ := hmode1 htrue
        obtain ⟨hm2, hn2⟩ := hmode2 hm1
        exact ⟨hm2, by rw [hn1, hn2]; rfl⟩

/-- Claim C27. Take an idle scheduler on a store of full chains whose monitor
window began at an accepted tick, or more generally counted only frames at least
33 ms apart since its beginning, and whose history holds no sample above 30, and
let the monitor read each tick's timestamp as its clock. Then the loop over any
timestamps returns; a tick less than 33 ms after the last accepted one is skipped
and one at least 33 ms after it is accepted; the sample a tick measures is at
most 30, and so is the average after it; after the run the history holds no
sample above 30, a non-empty history has an average of at most 30, hence at most
40; no subscriber was told `performance-mode-disabled`; and a monitor that was in
performance mode is still in it and told nobody anything. -/
theorem C27_idle_cadence (notes : List Note) (filteredConnections : List Connection)
    (s : SchedulerState) (timestamps : List ℚ)
    (hidle : s.isDragging = false)
    (hwindow : s.monitor.lastTime + 33 * (s.monitor.frameCount : ℚ) ≤ s.lastFrameTime)
    (hhist : ∀ x ∈ s.monitor.fpsHistory, x ≤ 30)
    (hfull : ∀ (id : String) (points : Chain),
      RopeStates.get s.ropeStates id = some points → points.length = 13) :
    (∃ (s1 : SchedulerState) (notified : List Notification),
      animateRun notes filteredConnections s timestamps = .ok (s1, notified)
      ∧ s1.isDragging = false
      ∧ s1.monitor.lastTime + 33 * (s1.monitor.frameCount : ℚ) ≤ s1.lastFrameTime
      ∧ (∀ x ∈ s1.monitor.fpsHistory, x ≤ 30)
      ∧ (s1.monitor.fpsHistory ≠ [] →
          averageOf s1.monitor.fpsHistory ≤ 30 ∧ averageOf s1.monitor.fpsHistory ≤ 40)
      ∧ (∀ n ∈ notified, n.event ≠ "performance-mode-disabled")
      ∧ (s.monitor.performanceMode = true →
          s1.monitor.performanceMode = true ∧ notified = []))
    ∧ (∀ currentTime : ℚ, currentTime - s.lastFrameTime < 33 →
        animate notes filteredConnections s currentTime currentTime = .ok (s, []))
    ∧ (∀ currentTime : ℚ, currentTime - s.lastFrameTime ≥ 33 →
        ∃ (s1 : SchedulerState) (notified : List Notification),
          animate notes filteredConnections s currentTime currentTime = .ok (s1, notified)
          ∧ s1.lastFrameTime = currentTime
          ∧ s1.monitor = (s.monitor.recordFrame currentTime).1
          ∧ (currentTime - s.monitor.lastTime ≥ 1000 →
              ∃ fps : ℚ,
                fps = jsRound ((((s.monitor.frameCount + 1 : Nat) : ℚ) * 1000)
                  / (currentTime - s.monitor.lastTime))
                ∧ fps ≤ 30
                ∧ s1.monitor.fpsHistory = pushSample s.monitor.fpsHistory fps
                ∧ averageOf s1.monitor.fpsHistory ≤ 30)) := by
  refine ⟨?_, ?_, ?_⟩
  · obtain ⟨s1, notified, hrun, ⟨hdrag1, hwindow1, hhist1⟩, _, hquiet, hmode⟩ :=
      animateRun_idle notes filteredConnections timestamps s ⟨hidle, hwindow, hhist⟩ hfull
    refine ⟨s1, notified, hrun, hdrag1, hwindow1, hhist1, ?_, hquiet, hmode⟩
    intro hne
    have havg := averageOf_le _ 30 hne hhist1
    exact ⟨havg, by linarith⟩
  · intro currentTime hlt
    exact animate_skipped notes filteredConnections s currentTime currentTime (by
      rw [hidle]
      exact hlt)
  · intro currentTime hge
    obtain ⟨s1, notified, hrun, htime, hmon, _, _, _⟩ :=
      animate_accepted_fields notes filteredConnections s currentTime currentTime
        (by
          rw [hidle]
          exact hge) hfull
    obtain ⟨_, _, _, _, h5⟩ := recordFrame_idle s.monitor currentTime hhist (by
      push_cast
      linarith)
    refine ⟨s1, notified, hrun, htime, hmon, ?_⟩
    intro hmeasure
    obtain ⟨hfps, hpush, havg⟩ := h5 hmeasure
    refine ⟨_, rfl, hfps, ?_, ?_⟩
    · rw [hmon]
      exact hpush
    · rw [hmon]
      exact havg

/-- Witness of C27: the idle loop from `sampleState`, whose monitor was started at
the time 0 of the last accepted tick, over the timestamps 50, 60 and 1050. -/
theorem C27_idle_cadence_witness :
    (∃ (s1 : SchedulerState) (notified : List Notification),
      animateRun sampleNotes [sampleConnection] sampleState [50, 60, 1050]
        = .ok (s1, notified)
      ∧ s1.isDragging = false
      ∧ s1.monitor.lastTime + 33 * (s1.monitor.frameCount : ℚ) ≤ s1.lastFrameTime
      ∧ (∀ x ∈ s1.monitor.fpsHistory, x ≤ 30)
      ∧ (s1.monitor.fpsHistory ≠ [] →
          averageOf s1.monitor.fpsHistory ≤ 30 ∧ averageOf s1.monitor.fpsHistory ≤ 40)
      ∧ (∀ n ∈ notified, n.event ≠ "performance-mode-disabled")
      ∧ (sampleState.monitor.performanceMode = true →
          s1.monitor.performanceMode = true ∧ notified = []))
    ∧ animate sampleNotes [sampleConnection] sampleState 20 20 = .ok (sampleState, []) :=
  ⟨(C27_idle_cadence sampleNotes [sampleConnection] sampleState [50, 60, 1050] rfl
      (by norm_num [sampleState, PerformanceMonitor.new])
      (by simp [sampleState, PerformanceMonitor.new]) sampleState_fullChains).1,
    (C27_idle_cadence sampleNotes [sampleConnection] sampleState [50, 60, 1050] rfl
      (by norm_num [sampleState, PerformanceMonitor.new])
      (by simp [sampleState, PerformanceMonitor.new]) sampleState_fullChains).2.1 20
      (by norm_num [sampleState])⟩

/-! ## Rendered paths: what `ropePaths` writes -/

theorem connectionRenders_iff (notes : List Note) (connection : Connection) :
    connectionRenders notes connection = true
      ↔ ∃ (fromNote toNote : Note) (pa pb : Position),
          notes.find? (fun note => note.id = connection.fromNoteId) = some fromNote
          ∧ notes.find? (fun note => note.id = connection.toNoteId) = some toNote
          ∧ fromNote.position = some pa ∧ toNote.position = some pb
          ∧ fromNote.id ≠ "" ∧ toNote.id ≠ "" := by
  unfold connectionRenders
  cases hf : notes.find? (fun note => note.id = connection.fromNoteId) with
  | none => simp
  | some fromNote =>
    cases ht : notes.find? (fun note => note.id = connection.toNoteId) with
    | none => simp
    | some toNote =>
      dsimp only
      constructor
      · intro h
        simp only [Bool.and_eq_true, decide_eq_true_eq, Option.isSome_iff_exists] at h
        obtain ⟨⟨⟨hfi, hti⟩, ⟨pa, hpa⟩⟩, ⟨pb, hpb⟩⟩ := h
        exact ⟨fromNote, toNote, pa, pb, rfl, rfl, hpa, hpb, hfi, hti⟩
      · rintro ⟨f, t, pa, pb, hf2, ht2, hpa, hpb, hfi, hti⟩
        cases hf2
        cases ht2
        simp [hpa, hpb, hfi, hti]

theorem fullChains_set (store : RopeStates) (id : String) (points : Chain)
    (hfull : FullChains store) (hlen : points.length = ROPE_SEGMENTS + 1) :
    FullChains (RopeStates.set store id points) := by
  intro other pts hget
  by_cases hid : other = id
  · rw [hid, RopeStates.get_set_self] at hget
    cases hget
    exact hlen
  · rw [RopeStates.get_set_other _ _ _ _ hid] at hget
    exact hfull other pts hget

/-- The callback of `ropePaths` on a store of full chains: for a connection that
renders it stores the chain `simulateRopePhysics` returns for the stored chain
and time step 1 and returns the path of this chain; for any other connection it
leaves the store as it is and returns `null`. -/
theorem ropePathStep_spec (sqrt : ℚ → ℚ) (fmt : ℚ → String) (notes : List Note)
    (store : RopeStates) (connection : Connection) (hfull : FullChains store) :
    ∃ (store1 : RopeStates) (result : Option RopePath),
      ropePathStep sqrt fmt notes store connection = .ok (store1, result)
      ∧ FullChains store1
      ∧ (∀ id : String, id ≠ connection.id →
          RopeStates.get store1 id = RopeStates.get store id)
      ∧ (connectionRenders notes connection = false → store1 = store ∧ result = none)
      ∧ (connectionRenders notes connection = true →
          ∃ (fromNote toNote : Note) (chain : Chain),
            notes.find? (fun note => note.id = connection.fromNoteId) = some fromNote
            ∧ notes.find? (fun note => note.id = connection.toNoteId) = some toNote
            ∧ simulateRopePhysics (some fromNote) (some toNote)
                (RopeStates.get store connection.id) 1 = .ok (some chain)
            ∧ RopeStates.get store1 connection.id = some chain
            ∧ result = some { id := connection.id
                              pathData := generateRopePath fmt (some chain)
                              points := chain, fromNote := fromNote, toNote := toNote
                              connection := connection
                              tension := calculateTension sqrt (some chain) }) := by
  by_cases hren : connectionRenders notes connection = true
  · obtain ⟨fromNote, toNote, pa, pb, hf, ht, hpa, hpb, hfi, hti⟩ :=
      (connectionRenders_iff notes connection).1 hren
    have hsim := simulateRopePhysics_eq fromNote toNote pa pb hpa hpb
      (RopeStates.get store connection.id)
      (fun pts hpts => le_of_eq (hfull _ pts hpts).symm) 1
    have hlen := stepChain_length
      (workingPoints (anchor pa) (anchor pb) (RopeStates.get store connection.id))
      (anchor pa) (anchor pb) (min 1 1)
    generalize stepChain
      (workingPoints (anchor pa) (anchor pb) (RopeStates.get store connection.id))
      (anchor pa) (anchor pb) (min 1 1) = chain at hsim hlen
    have hne : ¬ chain.length = 0 := by
      rw [hlen]
      simp [ROPE_SEGMENTS]
    have hids : ¬ (fromNote.id = "" ∨ toNote.id = "") := by
      rintro (h | h)
      · exact hfi h
      · exact hti h
    refine ⟨RopeStates.set store connection.id chain, _, ?_, fullChains_set _ _ _ hfull hlen,
      fun id hid => RopeStates.get_set_other _ _ _ _ hid,
      fun h => absurd hren (by rw [h]; simp),
      fun _ => ⟨fromNote, toNote, chain, hf, ht, hsim, RopeStates.get_set_self _ _ _, rfl⟩⟩
    unfold ropePathStep
    dsimp only
    rw [hf, ht]
    dsimp only
    rw [if_neg hids, hsim]
    dsimp only
    rw [if_neg hne]
  · have hfalse : connectionRenders notes connection = false := by
      simpa using hren
    refine ⟨store, none, ?_, hfull, fun _ _ => rfl, fun _ => ⟨rfl, rfl⟩,
      fun h => absurd h hren⟩
    unfold ropePathStep
    unfold connectionRenders at hfalse
    dsimp only
    cases hf : notes.find? (fun note => note.id = connection.fromNoteId) with
    | none => rfl
    | some fromNote =>
      cases ht : notes.find? (fun note => note.id = connection.toNoteId) with
      | none => rfl
      | some toNote =>
        rw [hf, ht] at hfalse
        dsimp only at hfalse ⊢
        by_cases hids : fromNote.id = "" ∨ toNote.id = ""
        · rw [if_pos hids]
        · rw [if_neg hids]
          have hpos : fromNote.position = none ∨ toNote.position = none := by
            have hfi : fromNote.id ≠ "" := fun h => hids (Or.inl h)
            have hti : toNote.id ≠ "" := fun h => hids (Or.inr h)
            cases hpa : fromNote.position with
            | none => exact Or.inl rfl
            | some pa =>
              cases hpb : toNote.position with
              | none => exact Or.inr rfl
              | some pb =>
                rw [hpa, hpb] at hfalse
                simp [hfi, hti] at hfalse
          rw [simulateRopePhysics_no_position fromNote toNote _ _ hpos]

/-- The evaluation of `ropePaths` over connections with pairwise distinct ids on a
store of full chains. -/
theorem ropePaths_spec (sqrt : ℚ → ℚ) (fmt : ℚ → String) (notes : List Note) :
    ∀ (connections : List Connection) (store : RopeStates), FullChains store →
      (connections.map (fun conn => conn.id)).Nodup →
      ∃ (store1 : RopeStates) (paths : List RopePath),
        ropePaths sqrt fmt notes connections store = .ok (store1, paths)
        ∧ FullChains store1
        ∧ (∀ id : String, id ∉ connections.map (fun conn => conn.id) →
            RopeStates.get store1 id = RopeStates.get store id)
        ∧ (∀ connection ∈ connections, connectionRenders notes connection = false →
            RopeStates.get store1 connection.id = RopeStates.get store connection.id
            ∧ ∀ path ∈ paths, path.connection ≠ connection)
        ∧ (∀ connection ∈ connections, connectionRenders notes connection = true →
            ∃ (fromNote toNote : Note) (chain : Chain),
              notes.find? (fun note => note.id = connection.fromNoteId) = some fromNote
              ∧ notes.find? (fun note => note.id = connection.toNoteId) = some toNote
              ∧ simulateRopePhysics (some fromNote) (some toNote)
                  (RopeStates.get store connection.id) 1 = .ok (some chain)
              ∧ RopeStates.get store1 connection.id = some chain
              ∧ ({ id := connection.id
                   pathData := generateRopePath fmt (some chain)
                   points := chain, fromNote := fromNote, toNote := toNote
                   connection := connection
                   tension := calculateTension sqrt (some chain) } : RopePath) ∈ paths)
        ∧ (∀ path ∈ paths, path.connection ∈ connections
            ∧ connectionRenders notes path.connection = true
            ∧ path.id = path.connection.id
            ∧ RopeStates.get store1 path.id = some path.points
            ∧ path.pathData = generateRopePath fmt (some path.points)
            ∧ path.tension = calculateTension sqrt (some path.points))
  | [], store, hfull, _ =>
      ⟨store, [], rfl, hfull, fun _ _ => rfl, fun _ h => absurd h (List.not_mem_nil _),
        fun _ h => absurd h (List.not_mem_nil _), fun _ h => absurd h (List.not_mem_nil _)⟩
  | connection :: rest, store, hfull, hnodup => by
      rw [List.map_cons, List.nodup_cons] at hnodup
      obtain ⟨hnotin, hnodupRest⟩ := hnodup
      obtain ⟨store1, result, hstep, hfull1, hother1, hno1, hyes1⟩ :=
        ropePathStep_spec sqrt fmt notes store connection hfull
      obtain ⟨store2, results, hloop, hfull2, hother2, hno2, hyes2, hpaths2⟩ :=
        ropePaths_spec sqrt fmt notes rest store1 hfull1 hnodupRest
      have hrestId : ∀ c ∈ rest, c.id ≠ connection.id := by
        intro c hc hid
        exact hnotin (by rw [← hid]; exact List.mem_map.2 ⟨c, hc, rfl⟩)
      have hrestNe : ∀ c ∈ rest, c ≠ connection := by
        intro c hc hEq
        exact hrestId c hc (by rw [hEq])
      have hmem : ∀ path : RopePath, path ∈ result.toList ++ results
          ↔ result = some path ∨ path ∈ results := by
        intro path
        rw [List.mem_append, Option.mem_toList]
        rfl
      have hfirst : ∀ path : RopePath, result = some path →
          path.connection = connection
          ∧ connectionRenders notes connection = true
          ∧ path.id = connection.id
          ∧ RopeStates.get store1 connection.id = some path.points
          ∧ path.pathData = generateRopePath fmt (some path.points)
          ∧ path.tension = calculateTension sqrt (some path.points) := by
        intro path hpath
        by_cases hren : connectionRenders notes connection = true
        · obtain ⟨f, t, chain, _, _, _, hget, hres⟩ := hyes1 hren
          rw [hres] at hpath
          cases hpath
          exact ⟨rfl, hren, rfl, hget, rfl, rfl⟩
        · have hnone := (hno1 (by simpa using hren)).2
          rw [hnone] at hpath
          cases hpath
      refine ⟨store2, result.toList ++ results, ?_, hfull2, ?_, ?_, ?_, ?_⟩
      · simp only [ropePaths, hstep, hloop]
      · intro id hid
        rw [List.map_cons, List.mem_cons, not_or] at hid
        rw [hother2 id hid.2, hother1 id hid.1]
      · intro c hc hfalse
        rw [List.mem_cons] at hc
        rcases hc with hc | hc
        · subst hc
          obtain ⟨hstore, hres⟩ := hno1 hfalse
          refine ⟨by rw [hother2 c.id hnotin, hstore], ?_⟩
          intro path hpath hEq
          rcases (hmem path).1 hpath with hp | hp
          · rw [hres] at hp
            cases hp
          · exact hrestNe _ (hpaths2 path hp).1 hEq
        · obtain ⟨hget, hnone⟩ := hno2 c hc hfalse
          refine ⟨by rw [hget, hother1 c.id (hrestId c hc)], ?_⟩
          intro path hpath
          rcases (hmem path).1 hpath with hp | hp
          · rw [(hfirst path hp).1]
            exact fun hEq => hrestNe c hc hEq.symm
          · exact hnone path hp
      · intro c hc htrue
        rw [List.mem_cons] at hc
        rcases hc with hc | hc
        · subst hc
          obtain ⟨f, t, chain, hf, ht, hsim, hget, hres⟩ := hyes1 htrue
          exact ⟨f, t, chain, hf, ht, hsim, by rw [hother2 c.id hnotin, hget],
            (hmem _).2 (Or.inl hres)⟩
        · obtain ⟨f, t, chain, hf, ht, hsim, hget, hin⟩ := hyes2 c hc htrue
          rw [hother1 c.id (hrestId c hc)] at hsim
          exact ⟨f, t, chain, hf, ht, hsim, hget, (hmem _).2 (Or.inr hin)⟩
      · intro path hpath
        rcases (hmem path).1 hpath with hp | hp
        · obtain ⟨h1, h2, h3, h4, h5, h6⟩ := hfirst path hp
          refine ⟨by rw [h1]; exact List.mem_cons_self _ _, by rw [h1]; exact h2,
            by rw [h1]; exact h3, ?_, h5, h6⟩
          rw [h3, hother2 connection.id hnotin, h4]
        · obtain ⟨h1, h2, h3, h4, h5, h6⟩ := hpaths2 path hp
          exact ⟨List.mem_cons_of_mem _ h1, h2, h3, h4, h5, h6⟩

theorem limitVelocity_of_le (v : ℚ) (h1 : -10 ≤ v) (h2 : v ≤ 10) : limitVelocity v = v := by
  unfold limitVelocity MAX_VELOCITY
  rw [min_eq_right h2, max_eq_right h1]

theorem stepChain_initPoints_getD (a b : Position) (dt : ℚ) (i : Nat)
    (h1 : 1 ≤ i) (h11 : i ≤ 11) :
    (stepChain (initPoints a.x a.y (b.x - a.x) (b.y - a.y)) a b dt).getD i ⟨0, 0, 0, 0⟩
      = { x := a.x + (b.x - a.x) * ((i : ℚ) / 12)
          y := a.y + (b.y - a.y) * ((i : ℚ) / 12) + limitVelocity (GRAVITY * dt) * dt
          vx := 0
          vy := limitVelocity (GRAVITY * dt) } := by
  rw [List.getD_eq_getElem?_getD, stepChain_initPoints_free a b dt i h1 h11]
  rfl

/-- The vertical velocity of point 6 after one step and after two steps with time
step 1 from the straight line: `0.15` and `0.1725`. -/
theorem stepChain_twice_vy (a b : Position) :
    ((stepChain (initPoints a.x a.y (b.x - a.x) (b.y - a.y)) a b 1)[6]?).map (fun p => p.vy)
      = some (15 / 100)
    ∧ ((stepChain (stepChain (initPoints a.x a.y (b.x - a.x) (b.y - a.y)) a b 1) a b 1)[6]?).map
        (fun p => p.vy) = some (69 / 400) := by
  have hlv : limitVelocity (GRAVITY * 1) = 15 / 100 := by
    rw [limitVelocity_of_le _ (by norm_num [GRAVITY]) (by norm_num [GRAVITY])]
    norm_num [GRAVITY]
  have hv : ∀ v : ℚ, v = 69 / 400 → limitVelocity v = 69 / 400 := by
    intro v hv
    rw [hv, limitVelocity_of_le _ (by norm_num) (by norm_num)]
  constructor
  · rw [stepChain_initPoints_free a b 1 6 (by norm_num) (by norm_num), hlv]
    rfl
  · rw [stepChain_free _ _ _ _ 6 (by norm_num) (by norm_num),
      stepChain_initPoints_getD a b 1 (6 - 1) (by norm_num) (by norm_num),
      stepChain_initPoints_getD a b 1 6 (by norm_num) (by norm_num),
      stepChain_initPoints_getD a b 1 (6 + 1) (by norm_num) (by norm_num), hlv]
    simp only [Option.map_some', freePoint]
    refine congrArg some (hv _ ?_)
    unfold SPRING_STIFFNESS SPRING_DAMPING GRAVITY
    norm_num
    ring

/-- Claim C30, as amended. Evaluating `ropePaths` over tracked connections with
pairwise distinct ids on a store of full chains returns, and for every tracked
connection whose two notes are found in the notes list, have positions and have
non-empty ids it replaces the stored chain by the chain `simulateRopePhysics`
returns for the two notes, the chain stored before (or none) and time step 1, and
returns a path entry with this chain, its path data and its tension. Every path
entry returned belongs to a tracked connection and carries the chain now stored
for it. The entry of every id that is not the id of such a connection is what it
was before. -/
theorem C30_rope_paths_amended (sqrt : ℚ → ℚ) (fmt : ℚ → String) (notes : List Note)
    (filteredConnections : List Connection) (store : RopeStates)
    (hfull : ∀ (id : String) (points : Chain),
      RopeStates.get store id = some points → points.length = 13)
    (hnodup : (filteredConnections.map (fun conn => conn.id)).Nodup) :
    ∃ (store1 : RopeStates) (paths : List RopePath),
      ropePaths sqrt fmt notes filteredConnections store = .ok (store1, paths)
      ∧ (∀ connection ∈ filteredConnections,
          ∀ (fromNote toNote : Note) (pa pb : Position),
          notes.find? (fun note => note.id = connection.fromNoteId) = some fromNote →
          notes.find? (fun note => note.id = connection.toNoteId) = some toNote →
          fromNote.position = some pa → toNote.position = some pb →
          fromNote.id ≠ "" → toNote.id ≠ "" →
          ∃ chain : Chain,
            simulateRopePhysics (some fromNote) (some toNote)
                (RopeStates.get store connection.id) 1 = .ok (some chain)
            ∧ RopeStates.get store1 connection.id = some chain
            ∧ ∃ path ∈ paths, path.connection = connection ∧ path.id = connection.id
                ∧ path.points = chain ∧ path.fromNote = fromNote ∧ path.toNote = toNote
                ∧ path.pathData = generateRopePath fmt (some chain)
                ∧ path.tension = calculateTension sqrt (some chain))
      ∧ (∀ path ∈ paths, path.connection ∈ filteredConnections
          ∧ RopeStates.get store1 path.connection.id = some path.points
          ∧ path.pathData = generateRopePath fmt (some path.points)
          ∧ path.tension = calculateTension sqrt (some path.points))
      ∧ (∀ id : String,
          (¬ ∃ connection ∈ filteredConnections, connection.id = id
            ∧ ∃ (fromNote toNote : Note) (pa pb : Position),
              notes.find? (fun note => note.id = connection.fromNoteId) = some fromNote
              ∧ notes.find? (fun note => note.id = connection.toNoteId) = some toNote
              ∧ fromNote.position = some pa ∧ toNote.position = some pb
              ∧ fromNote.id ≠ "" ∧ toNote.id ≠ "") →
          RopeStates.get store1 id = RopeStates.get store id) := by
  obtain ⟨store1, paths, hrun, _, hother, hno, hyes, hpaths⟩ :=
    ropePaths_spec sqrt fmt notes filteredConnections store hfull hnodup
  refine ⟨store1, paths, hrun, ?_, ?_, ?_⟩
  · intro connection hmem fromNote toNote pa pb hf ht hpa hpb hfi hti
    obtain ⟨f, t, chain, hf2, ht2, hsim, hget, hin⟩ := hyes connection hmem
      ((connectionRenders_iff notes connection).2
        ⟨fromNote, toNote, pa, pb, hf, ht, hpa, hpb, hfi, hti⟩)
    rw [hf] at hf2
    rw [ht] at ht2
    cases hf2
    cases ht2
    exact ⟨chain, hsim, hget, _, hin, rfl, rfl, rfl, rfl, rfl, rfl, rfl⟩
  · intro path hpath
    obtain ⟨h1, _, h3, h4, h5, h6⟩ := hpaths path hpath
    exact ⟨h1, by rw [← h3]; exact h4, h5, h6⟩
  · intro id hid
    by_cases hin : id ∈ filteredConnections.map (fun conn => conn.id)
    · obtain ⟨connection, hmem, hcid⟩ := List.mem_map.1 hin
      have hfalse : connectionRenders notes connection = false := by
        cases hren : connectionRenders notes connection with
        | false => rfl
        | true =>
          exact absurd ⟨connection, hmem, hcid,
            (connectionRenders_iff notes connection).1 hren⟩ hid
      rw [← hcid]
      exact (hno connection hmem hfalse).1
    · exact hother id hin

/-- Witness of C30 as amended: `ropePaths` over the connection `c` between the
notes `a` and `b`, on the store holding `sampleChain` for `c`. -/
theorem C30_rope_paths_amended_witness :
    ∃ (store1 : RopeStates) (paths : List RopePath),
      ropePaths sampleSqrt sampleFmt sampleNotes [sampleConnection] sampleState.ropeStates
        = .ok (store1, paths)
      ∧ (∀ connection ∈ [sampleConnection],
          ∀ (fromNote toNote : Note) (pa pb : Position),
          sampleNotes.find? (fun note => note.id = connection.fromNoteId) = some fromNote →
          sampleNotes.find? (fun note => note.id = connection.toNoteId) = some toNote →
          fromNote.position = some pa → toNote.position = some pb →
          fromNote.id ≠ "" → toNote.id ≠ "" →
          ∃ chain : Chain,
            simulateRopePhysics (some fromNote) (some toNote)
                (RopeStates.get sampleState.ropeStates connection.id) 1 = .ok (some chain)
            ∧ RopeStates.get store1 connection.id = some chain
            ∧ ∃ path ∈ paths, path.connection = connection ∧ path.id = connection.id
                ∧ path.points = chain ∧ path.fromNote = fromNote ∧ path.toNote = toNote
                ∧ path.pathData = generateRopePath sampleFmt (some chain)
                ∧ path.tension = calculateTension sampleSqrt (some chain))
      ∧ (∀ path ∈ paths, path.connection ∈ [sampleConnection]
          ∧ RopeStates.get store1 path.connection.id = some path.points
          ∧ path.pathData = generateRopePath sampleFmt (some path.points)
          ∧ path.tension = calculateTension sampleSqrt (some path.points))
      ∧ (∀ id : String,
          (¬ ∃ connection ∈ [sampleConnection], connection.id = id
            ∧ ∃ (fromNote toNote : Note) (pa pb : Position),
              sampleNotes.find? (fun note => note.id = connection.fromNoteId) = some fromNote
              ∧ sampleNotes.find? (fun note => note.id = connection.toNoteId) = some toNote
              ∧ fromNote.position = some pa ∧ toNote.position = some pb
              ∧ fromNote.id ≠ "" ∧ toNote.id ≠ "") →
          RopeStates.get store1 id = RopeStates.get sampleState.ropeStates id) :=
  C30_rope_paths_amended sampleSqrt sampleFmt sampleNotes [sampleConnection]
    sampleState.ropeStates sampleState_fullChains (by simp)

/-- Counterexample to C30 as stated. The connection `c` joins a note with the
empty id and the note `b`; both are in the notes list and have positions, and
`simulateRopePhysics` returns a chain for them, yet `ropePaths` on the empty
store returns no path and leaves the store empty. And when the connection `c`
between the notes `a` and `b` is tracked twice, the chain stored for `c` after
`ropePaths` on the empty store is not the chain `simulateRopePhysics` returns for
no previous chain: the vertical velocity of its point 6 is `0.1725`, not
`0.15`. -/
theorem C30_rope_paths_counterexample :
    (∃ chain : Chain,
      [sampleNoteEmptyId, sampleNoteB].find?
          (fun note => note.id = sampleConnectionEmptyId.fromNoteId) = some sampleNoteEmptyId
      ∧ [sampleNoteEmptyId, sampleNoteB].find?
          (fun note => note.id = sampleConnectionEmptyId.toNoteId) = some sampleNoteB
      ∧ sampleNoteEmptyId.position = some ⟨-140, -100⟩
      ∧ sampleNoteB.position = some ⟨140, -100⟩
      ∧ simulateRopePhysics (some sampleNoteEmptyId) (some sampleNoteB)
          (RopeStates.get [] sampleConnectionEmptyId.id) 1 = .ok (some chain)
      ∧ ropePaths sampleSqrt sampleFmt [sampleNoteEmptyId, sampleNoteB]
          [sampleConnectionEmptyId] [] = .ok ([], [])
      ∧ RopeStates.get [] sampleConnectionEmptyId.id ≠ some chain)
    ∧ (∃ (store1 : RopeStates) (paths : List RopePath) (chain stored : Chain),
      ropePaths sampleSqrt sampleFmt sampleNotes [sampleConnection, sampleConnection] []
        = .ok (store1, paths)
      ∧ simulateRopePhysics (some sampleNoteA) (some sampleNoteB)
          (RopeStates.get [] sampleConnection.id) 1 = .ok (some chain)
      ∧ RopeStates.get store1 sampleConnection.id = some stored
      ∧ (chain[6]?).map (fun p => p.vy) = some (15 / 100)
      ∧ (stored[6]?).map (fun p => p.vy) = some (69 / 400)
      ∧ stored ≠ chain) := by
  constructor
  · have hfindE : [sampleNoteEmptyId, sampleNoteB].find?
        (fun note => note.id = sampleConnectionEmptyId.fromNoteId) = some sampleNoteEmptyId := by
      simp [sampleConnectionEmptyId, sampleNoteEmptyId]
    have hfindB : [sampleNoteEmptyId, sampleNoteB].find?
        (fun note => note.id = sampleConnectionEmptyId.toNoteId) = some sampleNoteB := by
      simp [sampleConnectionEmptyId, sampleNoteEmptyId, sampleNoteB]
    have hsim := simulateRopePhysics_eq sampleNoteEmptyId sampleNoteB ⟨-140, -100⟩ ⟨140, -100⟩
      rfl rfl (RopeStates.get [] sampleConnectionEmptyId.id) (fun pts hpts => by cases hpts) 1
    refine ⟨_, hfindE, hfindB, rfl, rfl, hsim, ?_, fun h => by cases h⟩
    have hstep : ropePathStep sampleSqrt sampleFmt [sampleNoteEmptyId, sampleNoteB] []
        sampleConnectionEmptyId = .ok ([], none) := by
      unfold ropePathStep
      dsimp only
      rw [hfindE, hfindB]
      dsimp only
      have hids : sampleNoteEmptyId.id = "" ∨ sampleNoteB.id = "" := Or.inl rfl
      rw [if_pos hids]
    simp only [ropePaths, hstep]
    rfl
  · have hfindA : sampleNotes.find? (fun note => note.id = sampleConnection.fromNoteId)
        = some sampleNoteA := by
      simp [sampleNotes, sampleConnection, sampleNoteA]
    have hfindB : sampleNotes.find? (fun note => note.id = sampleConnection.toNoteId)
        = some sampleNoteB := by
      simp [sampleNotes, sampleConnection, sampleNoteA, sampleNoteB]
    have hren : connectionRenders sampleNotes sampleConnection = true :=
      (connectionRenders_iff sampleNotes sampleConnection).2
        ⟨sampleNoteA, sampleNoteB, ⟨-140, -100⟩, ⟨140, -100⟩, hfindA, hfindB, rfl, rfl,
          by decide, by decide⟩
    have hempty : FullChains ([] : RopeStates) := by
      intro id points hget
      cases hget
    obtain ⟨store1, result1, hstep1, hfull1, _, _, hyes1⟩ :=
      ropePathStep_spec sampleSqrt sampleFmt sampleNotes [] sampleConnection hempty
    obtain ⟨f1, t1, chain, hf1, ht1, hsim1, hget1, _⟩ := hyes1 hren
    obtain ⟨store2, result2, hstep2, _, _, _, hyes2⟩ :=
      ropePathStep_spec sampleSqrt sampleFmt sampleNotes store1 sampleConnection hfull1
    obtain ⟨f2, t2, stored, hf2, ht2, hsim2, hget2, _⟩ := hyes2 hren
    rw [hfindA] at hf1 hf2
    rw [hfindB] at ht1 ht2
    cases hf1
    cases hf2
    cases ht1
    cases ht2
    have hrun : ropePaths sampleSqrt sampleFmt sampleNotes [sampleConnection, sampleConnection] []
        = .ok (store2, result1.toList ++ (result2.toList ++ [])) := by
      simp only [ropePaths, hstep1, hstep2]
    have hchain := hsim1
    rw [simulateRopePhysics_eq sampleNoteA sampleNoteB ⟨-140, -100⟩ ⟨140, -100⟩ rfl rfl
      (RopeStates.get [] sampleConnection.id) (fun pts hpts => by cases hpts) 1] at hchain
    simp only [Except.ok.injEq, Option.some.injEq] at hchain
    have hstored := hsim2
    rw [hget1, simulateRopePhysics_eq sampleNoteA sampleNoteB ⟨-140, -100⟩ ⟨140, -100⟩ rfl rfl
      (some chain) (fun pts hpts => by
        cases hpts
        exact le_of_eq (hfull1 _ _ hget1).symm) 1] at hstored
    simp only [Except.ok.injEq, Option.some.injEq] at hstored
    have hvy := stepChain_twice_vy (anchor ⟨-140, -100⟩) (anchor ⟨140, -100⟩)
    have hone : min (1 : ℚ) 1 = 1 := min_self 1
    have h1 : (chain[6]?).map (fun p => p.vy) = some (15 / 100) := by
      rw [← hchain, hone]
      exact hvy.1
    have h2 : (stored[6]?).map (fun p => p.vy) = some (69 / 400) := by
      rw [← hstored, ← hchain, hone]
      exact hvy.2
    refine ⟨store2, _, chain, stored, hrun, hsim1, hget2, h1, h2, ?_⟩
    intro hEq
    rw [hEq, h1] at h2
    norm_num at h2

end Cosinotes
